import Mathlib

set_option maxRecDepth 100000

/-! Verification of the @pma/build resource build tool.

The tool's core (shipped as index.js) patches a text manifest
(updateFxManifest), debounces restart notifications after watch-mode
rebuilds (createRestartPlugin), resolves a network address
(getNetworkIP) and defaults the restart endpoint (build).  Text is
modelled as List Char; each JavaScript regular-expression substitution
is modelled by a dedicated matcher implementing exactly the pattern the
source uses.  Greedy matching without backtracking is faithful for
these patterns because every character class that ends a greedy run is
disjoint from the class that must follow it (whitespace versus quote,
non-quote versus quote). -/

/-- Character list of a string literal. -/
def str (s : String) : List Char := s.data

/-- The single-quote character. -/
def sqc : Char := Char.ofNat 39

/-- The double-quote character. -/
def dqc : Char := Char.ofNat 34

/-- The character class of the JavaScript regexp escape for whitespace
(ECMAScript WhiteSpace and LineTerminator productions). -/
def isSpaceJS (c : Char) : Bool :=
  c = ' ' || c = '\t' || c = '\n' || c = '\r' || c = Char.ofNat 11 || c = Char.ofNat 12 ||
  c = Char.ofNat 0xa0 || c = Char.ofNat 0x1680 ||
  (0x2000 ≤ c.toNat && c.toNat ≤ 0x200a) ||
  c = Char.ofNat 0x2028 || c = Char.ofNat 0x2029 || c = Char.ofNat 0x202f ||
  c = Char.ofNat 0x205f || c = Char.ofNat 0x3000 || c = Char.ofNat 0xfeff

/-- The regexp character class of a quote, matching the source's quote class. -/
def isQuoteC (c : Char) : Bool := c = sqc || c = dqc

def gameTok : List Char := str "game"

def warnTok : List Char := str "rdr3_warning"

def uiTok : List Char := str "ui_page"

def gta5Lit : List Char := str "gta5"

def rdr3Lit : List Char := str "rdr3"

/-- Replacement text for the RedM platform declaration. -/
def gameRdr3Repl : List Char := str "game " ++ sqc :: (str "rdr3" ++ [sqc])

/-- Replacement text for the FiveM platform declaration. -/
def gameGta5Repl : List Char := str "game " ++ sqc :: (str "gta5" ++ [sqc])

/-- The fixed rdr3_warning line the source inserts after the RedM declaration. -/
def rdr3WarningLine : List Char :=
  str "rdr3_warning " ++
    sqc :: (str "I acknowledge that this is a prerelease build of RedM, and I am aware my resources *will* become incompatible once RedM ships." ++ [sqc])

/-- Consume a literal token at the head of the input; return the rest on success. -/
def consumeLit : List Char → List Char → Option (List Char)
  | [], s => some s
  | _ :: _, [] => none
  | c :: cs, x :: xs => if x = c then consumeLit cs xs else none

/-- Anchored matcher for the source regexp consisting of the literal
"game", one or more whitespace characters, a quote, the literal lit and
a quote.  Returns the matched text and the remainder. -/
def matchGame (lit : List Char) (s : List Char) : Option (List Char × List Char) :=
  match consumeLit gameTok s with
  | none => none
  | some r1 =>
    let ws := r1.takeWhile isSpaceJS
    match r1.dropWhile isSpaceJS with
    | [] => none
    | q1 :: r3 =>
      if ws.isEmpty then none
      else if isQuoteC q1 then
        match consumeLit lit r3 with
        | none => none
        | some r4 =>
          match r4 with
          | [] => none
          | q2 :: r5 =>
            if isQuoteC q2 then some (gameTok ++ ws ++ q1 :: (lit ++ [q2]), r5) else none
      else none

/-- Anchored matcher for a statement token followed by one or more
whitespace characters, a quote, a run of non-quote characters and a
closing quote.  This is the shared core of the rdr3_warning and ui_page
patterns of the source. -/
def matchStmtCore (tok : List Char) (s : List Char) : Option (List Char × List Char) :=
  match consumeLit tok s with
  | none => none
  | some r1 =>
    let ws := r1.takeWhile isSpaceJS
    match r1.dropWhile isSpaceJS with
    | [] => none
    | q1 :: r3 =>
      if ws.isEmpty then none
      else if isQuoteC q1 then
        let val := r3.takeWhile (fun c => !isQuoteC c)
        match r3.dropWhile (fun c => !isQuoteC c) with
        | [] => none
        | q2 :: r4 => some (tok ++ ws ++ q1 :: (val ++ [q2]), r4)
      else none

/-- The part of the warning-removal regexp after the optional leading
newline: the warning statement, then trailing whitespace (the trailing
optional-newline of the source pattern is subsumed by the greedy
whitespace star preceding it). -/
def warnRmCore (s1 : List Char) : Option (List Char × List Char) :=
  match matchStmtCore warnTok s1 with
  | none => none
  | some (core, r) => some (core ++ r.takeWhile isSpaceJS, r.dropWhile isSpaceJS)

/-- Anchored matcher for the source's rdr3_warning removal regexp: an
optional newline, the warning statement, then trailing whitespace.
Committing to the optional newline is faithful: if the literal after the
newline fails, retrying without the newline fails on the literal too. -/
def matchWarnRm (s : List Char) : Option (List Char × List Char) :=
  match s with
  | [] => none
  | c :: s1 =>
    if c = '\n' then
      match warnRmCore s1 with
      | none => none
      | some (mt, r) => some ('\n' :: mt, r)
    else
      warnRmCore (c :: s1)

/-- The part of the ui_page-removal regexp after the optional leading
newline: greedy whitespace, the ui_page statement, trailing whitespace. -/
def uiRmAfterNl (s1 : List Char) : Option (List Char × List Char) :=
  let lws := s1.takeWhile isSpaceJS
  match matchStmtCore uiTok (s1.dropWhile isSpaceJS) with
  | none => none
  | some (core, r) => some (lws ++ core ++ r.takeWhile isSpaceJS, r.dropWhile isSpaceJS)

/-- Anchored matcher for the source's ui_page removal regexp: an optional
newline, leading whitespace, the ui_page statement, then trailing
whitespace. -/
def matchUiRm (s : List Char) : Option (List Char × List Char) :=
  match s with
  | [] => none
  | c :: s1 =>
    if c = '\n' then
      match uiRmAfterNl s1 with
      | none => none
      | some (mt, r) => some ('\n' :: mt, r)
    else
      uiRmAfterNl (c :: s1)

/-- Leftmost-match search, as a JavaScript regexp engine performs it:
try the matcher at every position from the left and split the input
into the text before the match, the matched text and the rest. -/
def findSplit (m : List Char → Option (List Char × List Char)) :
    List Char → Option (List Char × List Char × List Char)
  | [] =>
    match m [] with
    | some (mt, r) => some ([], mt, r)
    | none => none
  | c :: cs =>
    match m (c :: cs) with
    | some (mt, r) => some ([], mt, r)
    | none =>
      match findSplit m cs with
      | some (p, mt, r) => some (c :: p, mt, r)
      | none => none

/-- String.prototype.replace with a non-global regexp: replace the
leftmost match, where the replacement may use the matched text (the $1
backreference of the source's warning insertion). -/
def replaceFirstWith (m : List Char → Option (List Char × List Char))
    (f : List Char → List Char) (s : List Char) : List Char :=
  match findSplit m s with
  | some (p, mt, r) => p ++ f mt ++ r
  | none => s

/-- Worker for the global replace, structurally recursive on a fuel
bound; the fuel never runs out because every match of the matchers used
here consumes at least one character. -/
def replaceAllGo (m : List Char → Option (List Char × List Char))
    (repl : List Char) : Nat → List Char → List Char
  | _, [] => []
  | 0, s => s
  | fuel + 1, c :: cs =>
    match m (c :: cs) with
    | some (_, r) =>
      if r.length ≤ cs.length then repl ++ replaceAllGo m repl fuel r
      else c :: replaceAllGo m repl fuel cs
    | none => c :: replaceAllGo m repl fuel cs

/-- String.prototype.replace with a global regexp: repeatedly replace
non-overlapping matches, scanning left to right, never rescanning
replacement text.  The length guard is always true for the matchers
used here (every match consumes at least its statement token). -/
def replaceAll (m : List Char → Option (List Char × List Char))
    (repl : List Char) (s : List Char) : List Char :=
  replaceAllGo m repl s.length s

/-- String.prototype.includes. -/
def jsIncludes (s pat : List Char) : Bool :=
  match s with
  | [] => pat.isEmpty
  | _ :: cs => pat.isPrefixOf s || jsIncludes cs pat

/-- String.prototype.trimEnd (trailing JavaScript whitespace removed). -/
def trimEnd (s : List Char) : List Char := (s.reverse.dropWhile isSpaceJS).reverse

/-- Decimal rendering of a number, as template-literal interpolation does. -/
def natDigits (n : Nat) : List Char := Nat.toDigits 10 n

/-- The ui_page line the source writes in watch mode. -/
def desiredUiWatch (SERVER_IP : List Char) (webDevPort : Nat) : List Char :=
  str "ui_page " ++ sqc :: (str "http://" ++ SERVER_IP ++ ':' :: (natDigits webDevPort ++ [sqc]))

/-- The ui_page line the source writes outside watch mode. -/
def desiredUiBuilt : List Char := str "ui_page " ++ sqc :: (str "html/index.html" ++ [sqc])

/-- The platform block of updateFxManifest: for RedM, substitute the
first gta5 declaration and insert the warning line after the first rdr3
declaration unless the text already includes the warning token; for
FiveM, substitute the first rdr3 declaration back and globally remove
warning lines. -/
def platformStage (IS_REDM : Bool) (contents : List Char) : List Char :=
  if IS_REDM then
    let u1 := replaceFirstWith (matchGame gta5Lit) (fun _ => gameRdr3Repl) contents
    if jsIncludes u1 warnTok then u1
    else replaceFirstWith (matchGame rdr3Lit) (fun mt => mt ++ '\n' :: rdr3WarningLine) u1
  else
    let u1 := replaceFirstWith (matchGame rdr3Lit) (fun _ => gameGta5Repl) contents
    replaceAll matchWarnRm ['\n'] u1

/-- The ui_page line the source wants, by mode. -/
def desiredUiPageOf (IS_WATCH : Bool) (SERVER_IP : List Char) (webDevPort : Nat) : List Char :=
  if IS_WATCH then desiredUiWatch SERVER_IP webDevPort else desiredUiBuilt

/-- The ui_page block of updateFxManifest: with no web directory, remove
every ui_page line; otherwise replace the first ui_page statement in
place, or append the desired one after trimming trailing whitespace. -/
def uiStage (IS_WATCH HAS_WEB_DIR : Bool) (SERVER_IP : List Char) (webDevPort : Nat)
    (updated : List Char) : List Char :=
  if !HAS_WEB_DIR then
    replaceAll matchUiRm ['\n'] updated
  else
    let desiredUiPage := desiredUiPageOf IS_WATCH SERVER_IP webDevPort
    match findSplit (matchStmtCore uiTok) updated with
    | some _ => replaceFirstWith (matchStmtCore uiTok) (fun _ => desiredUiPage) updated
    | none => trimEnd updated ++ '\n' :: '\n' :: (desiredUiPage ++ ['\n'])

/-- Pure text transformation of updateFxManifest from the source: the
platform substitution and warning handling, followed by the ui_page
removal, in-place replacement or end-of-file append. -/
def updateFxManifest (IS_REDM IS_WATCH HAS_WEB_DIR : Bool) (SERVER_IP : List Char)
    (webDevPort : Nat) (contents : List Char) : List Char :=
  uiStage IS_WATCH HAS_WEB_DIR SERVER_IP webDevPort (platformStage IS_REDM contents)

/-- The write-back guard of updateFxManifest: the file is written only
when the updated text differs from the original contents. -/
def manifestWriteOccurs (IS_REDM IS_WATCH HAS_WEB_DIR : Bool) (SERVER_IP : List Char)
    (webDevPort : Nat) (contents : List Char) : Bool :=
  decide (updateFxManifest IS_REDM IS_WATCH HAS_WEB_DIR SERVER_IP webDevPort contents ≠ contents)

/-- One onEnd callback of the restart plugin: skip when the rebuild
reported errors, skip (without touching lastRebuild) when inside the
debounce window, otherwise update lastRebuild and fire the
notification. -/
def onEndRestart (debounceDelay : Int) (numErrors : Nat) (now lastRebuild : Int) :
    Int × Bool :=
  if numErrors ≠ 0 then (lastRebuild, false)
  else if now - lastRebuild < debounceDelay then (lastRebuild, false)
  else (now, true)

/-- Fold the restart plugin's callback over a sequence of rebuild
completions, counting outbound notifications; events are (wall-clock
time, reported error count). -/
def notifyCount (debounceDelay : Int) : Int → List (Int × Nat) → Nat
  | _, [] => 0
  | lastRebuild, (now, errs) :: rest =>
    let st := onEndRestart debounceDelay errs now lastRebuild
    (if st.2 then 1 else 0) + notifyCount debounceDelay st.1 rest

/-- A whole watch session: in the source, lastRebuild is initialised to
Date.now() when build() runs, so the fold starts from the build start
time, not from a sentinel. -/
def watchSessionNotifications (debounceDelay buildStartTime : Int)
    (events : List (Int × Nat)) : Nat :=
  notifyCount debounceDelay buildStartTime events

/-- One entry of os.networkInterfaces(): address family, internal flag
and address text. -/
structure NetAddr where
  family : List Char
  internal : Bool
  address : List Char

/-- Inner loop of getNetworkIP over one interface's address list. -/
def firstExternalInList : List NetAddr → Option (List Char)
  | [] => none
  | n :: ns =>
    if n.family = str "IPv4" ∧ n.internal = false then some n.address
    else firstExternalInList ns

/-- Outer loop of getNetworkIP over the interface table. -/
def networkLoop : List (List NetAddr) → Option (List Char)
  | [] => none
  | l :: rest =>
    match firstExternalInList l with
    | some a => some a
    | none => networkLoop rest

/-- JavaScript truthiness of an optional string: absent and empty are falsy. -/
def jsTruthy : Option (List Char) → Bool
  | none => false
  | some s => !s.isEmpty

def orEmpty : Option (List Char) → List Char
  | none => []
  | some s => s

/-- getNetworkIP from the source: SERVER_IP variable, then HOST, then
the first non-internal IPv4 interface address, then loopback. -/
def getNetworkIP (envServerIP envHost : Option (List Char))
    (nets : List (List NetAddr)) : List Char :=
  if jsTruthy envServerIP then orEmpty envServerIP
  else if jsTruthy envHost then orEmpty envHost
  else
    match networkLoop nets with
    | some a => a
    | none => str "127.0.0.1"

/-- SERVER_IP resolution in build(): the explicit serverIP option wins,
otherwise getNetworkIP decides. -/
def resolveServerIP (optServerIP envServerIP envHost : Option (List Char))
    (nets : List (List NetAddr)) : List Char :=
  if jsTruthy optServerIP then orEmpty optServerIP
  else getNetworkIP envServerIP envHost nets

/-- The first non-internal IPv4 address over the flattened interface
table, stated independently of the source's loop structure. -/
def specInterfaceAddress (nets : List (List NetAddr)) : Option (List Char) :=
  (nets.flatten.find? (fun n => decide (n.family = str "IPv4" ∧ n.internal = false))).map NetAddr.address

/-- The resolution order as the specification words it: the first
present-and-nonempty entry of the override chain, else the first
non-internal IPv4 interface address, else the loopback literal. -/
def addressPrecedenceSpec (optServerIP envServerIP envHost : Option (List Char))
    (nets : List (List NetAddr)) : List Char :=
  match ([optServerIP, envServerIP, envHost].filterMap
      (fun o => if jsTruthy o then some (orEmpty o) else none)).head? with
  | some a => a
  | none =>
    match specInterfaceAddress nets with
    | some a => a
    | none => str "127.0.0.1"

/-- Restart endpoint resolution in build(): an explicit option wins,
otherwise the default port depends on the --redm flag. -/
def resolvedRestartEndpoint (optRestartEndpoint : Option (List Char))
    (args : List (List Char)) : List Char :=
  let IS_REDM := args.contains (str "--redm")
  let PORT : Nat := if IS_REDM then 4700 else 4689
  if jsTruthy optRestartEndpoint then orEmpty optRestartEndpoint
  else str "http://127.0.0.1:" ++ natDigits PORT ++ str "/rr"

/-- Every character is JavaScript whitespace. -/
def AllSpace (l : List Char) : Prop := ∀ c ∈ l, isSpaceJS c = true

/-- No character is a quote. -/
def QuoteFree (l : List Char) : Prop := ∀ c ∈ l, isQuoteC c = false

/-- The text contains none of the three statement tokens the patcher matches. -/
def TokenFree (l : List Char) : Prop :=
  jsIncludes l gameTok = false ∧ jsIncludes l warnTok = false ∧ jsIncludes l uiTok = false

/-- The text is empty or ends in whitespace or a quote.  Statement
tokens contain neither, so no token occurrence can reach back into such
a piece. -/
def sepEndB (l : List Char) : Bool :=
  match l.getLast? with
  | none => true
  | some c => isSpaceJS c || isQuoteC c

/-- Nonempty whitespace, as the regexps require between token and quote. -/
def WfWs (ws : List Char) : Prop := ws ≠ [] ∧ AllSpace ws

/-- A platform declaration as the manifest grammar renders it. -/
def renderGame (q1 q2 : Char) (ws lit : List Char) : List Char :=
  gameTok ++ ws ++ q1 :: (lit ++ [q2])

/-- A quoted statement (warning or ui_page) as the manifest grammar renders it. -/
def renderStmt (tok : List Char) (q1 q2 : Char) (ws val : List Char) : List Char :=
  tok ++ ws ++ q1 :: (val ++ [q2])

/-- Shape of the platform-declaration region of a supported manifest:
absent, a FiveM declaration, a RedM declaration, or a RedM declaration
directly followed by a warning line. -/
inductive PlatShape where
  | absent : PlatShape
  | gta5 (q1 q2 : Char) (ws : List Char) : PlatShape
  | rdr3 (q1 q2 : Char) (ws : List Char) : PlatShape
  | rdr3w (q1 q2 : Char) (ws : List Char) (q3 q4 : Char) (ws2 val : List Char) : PlatShape

def renderPlat : PlatShape → List Char
  | .absent => []
  | .gta5 q1 q2 ws => renderGame q1 q2 ws gta5Lit
  | .rdr3 q1 q2 ws => renderGame q1 q2 ws rdr3Lit
  | .rdr3w q1 q2 ws q3 q4 ws2 val =>
      renderGame q1 q2 ws rdr3Lit ++ '\n' :: renderStmt warnTok q3 q4 ws2 val

def WfPlat : PlatShape → Prop
  | .absent => True
  | .gta5 q1 q2 ws => isQuoteC q1 = true ∧ isQuoteC q2 = true ∧ WfWs ws
  | .rdr3 q1 q2 ws => isQuoteC q1 = true ∧ isQuoteC q2 = true ∧ WfWs ws
  | .rdr3w q1 q2 ws q3 q4 ws2 val =>
      isQuoteC q1 = true ∧ isQuoteC q2 = true ∧ WfWs ws ∧
      isQuoteC q3 = true ∧ isQuoteC q4 = true ∧ WfWs ws2 ∧
      QuoteFree val ∧ TokenFree val

/-- Shape of the ui_page region of a supported manifest. -/
inductive UiShape where
  | absent : UiShape
  | decl (q1 q2 : Char) (ws val : List Char) : UiShape

def renderUi : UiShape → List Char
  | .absent => []
  | .decl q1 q2 ws val => renderStmt uiTok q1 q2 ws val

def WfUi : UiShape → Prop
  | .absent => True
  | .decl q1 q2 ws val =>
      isQuoteC q1 = true ∧ isQuoteC q2 = true ∧ WfWs ws ∧ QuoteFree val ∧ TokenFree val

/-- A supported manifest: free text, then the platform region, free
text, the ui_page region and final free text. -/
def renderManifest (A : List Char) (P : PlatShape) (B : List Char) (U : UiShape)
    (C : List Char) : List Char :=
  A ++ renderPlat P ++ B ++ renderUi U ++ C

/-- The supported-shape conditions: the free pieces contain no statement
token and the pieces preceding a declaration end in whitespace or a
quote (or are empty). -/
def WfManifest (A : List Char) (P : PlatShape) (B : List Char) (U : UiShape)
    (C : List Char) : Prop :=
  TokenFree A ∧ TokenFree B ∧ TokenFree C ∧ WfPlat P ∧ WfUi U ∧
    sepEndB A = true ∧ sepEndB B = true

/-- The matched text is an exact match of one of the statement patterns
the patcher knows: a platform declaration, a warning line with its
surrounding whitespace, a ui_page line with its surrounding whitespace,
or a bare ui_page statement. -/
def MatchesKnown (mt : List Char) : Prop :=
  matchGame gta5Lit mt = some (mt, []) ∨ matchGame rdr3Lit mt = some (mt, []) ∨
  matchWarnRm mt = some (mt, []) ∨ matchUiRm mt = some (mt, []) ∨
  matchStmtCore uiTok mt = some (mt, [])

/-- Edits that replace only pattern-matched segments: the reflexive-
transitive closure of single splices, each of which keeps the text
before and after the matched segment byte-for-byte. -/
inductive SpliceEdits : List Char → List Char → Prop where
  | refl (s : List Char) : SpliceEdits s s
  | splice (pre mt post repl : List Char) :
      MatchesKnown mt → SpliceEdits (pre ++ mt ++ post) (pre ++ repl ++ post)
  | step {a b c : List Char} : SpliceEdits a b → SpliceEdits b c → SpliceEdits a c

/-! Theorems. -/

/-- C8: a rebuild completion that reports at least one error produces no
outbound notification and leaves the debounce timestamp unchanged. -/
theorem errors_skip_notification (d : Int) (errs : Nat) (now last : Int)
    (h : errs ≠ 0) : onEndRestart d errs now last = (last, false) := by
  simp [onEndRestart, h]

/-- C8 witness at a concrete erroring rebuild. -/
theorem errors_skip_notification_witness :
    (1 : Nat) ≠ 0 ∧ onEndRestart 500 1 1000 0 = (0, false) :=
  ⟨by decide, errors_skip_notification 500 1 1000 0 (by decide)⟩

/-- C9: the debounce timestamp starts as the wall-clock time at which
build() runs, so an error-free rebuild completing within the debounce
window of the build start fires no notification although none has been
sent in the session. -/
theorem initial_timestamp_suppresses_early_rebuild (d t0 e : Int)
    (h0 : 0 ≤ e) (he : e < d) :
    watchSessionNotifications d t0 [(t0 + e, 0)] = 0 := by
  simp [watchSessionNotifications, notifyCount, onEndRestart, he]

/-- C9 witness: a clean rebuild 100 ms after build start with a 500 ms
window is suppressed. -/
theorem initial_timestamp_suppresses_early_rebuild_witness :
    (0 : Int) ≤ 100 ∧ (100 : Int) < 500 ∧
      watchSessionNotifications 500 0 [(0 + 100, 0)] = 0 :=
  ⟨by decide, by decide,
    initial_timestamp_suppresses_early_rebuild 500 0 100 (by decide) (by decide)⟩

/-- C1 counterexample: with the 500 ms default window, a session whose
debounce timestamp starts at time 0 and whose two clean rebuilds land at
100 and 200 — less than one window apart — produces zero notifications,
not exactly one. -/
theorem two_quick_rebuilds_zero_notifications :
    watchSessionNotifications 500 0 [(100, 0), (200, 0)] ≠ 1 := by
  decide

/-- C1 (amended): two clean rebuild completions less than the debounce
window apart trigger at most one outbound notification, and exactly one
when the earlier of them falls at least one window after the session's
current debounce timestamp. -/
theorem two_quick_rebuilds_at_most_one (d L0 t1 t2 : Int)
    (h12 : t1 ≤ t2) (hlt : t2 - t1 < d) :
    watchSessionNotifications d L0 [(t1, 0), (t2, 0)] ≤ 1 ∧
      (d ≤ t1 - L0 → watchSessionNotifications d L0 [(t1, 0), (t2, 0)] = 1) := by
  simp only [watchSessionNotifications, notifyCount, onEndRestart]
  constructor
  · split_ifs <;> simp_all
  · intro hfire
    split_ifs <;> simp_all <;> omega

/-- C1 witness: rebuilds at 600 and 700 after a window starting at 0. -/
theorem two_quick_rebuilds_at_most_one_witness :
    (500 : Int) ≤ 600 - 0 ∧ watchSessionNotifications 500 0 [(600, 0), (700, 0)] = 1 :=
  ⟨by decide,
    (two_quick_rebuilds_at_most_one 500 0 600 700 (by decide) (by decide)).2 (by decide)⟩

/-- C10: with no restartEndpoint option, the endpoint defaults to port
4700 when the --redm flag is among the arguments and port 4689
otherwise. -/
theorem default_endpoint_depends_on_platform (args : List (List Char)) :
    resolvedRestartEndpoint none args =
      (if args.contains (str "--redm") then str "http://127.0.0.1:4700/rr"
       else str "http://127.0.0.1:4689/rr") := by
  unfold resolvedRestartEndpoint
  cases hc : args.contains (str "--redm") <;> simp [jsTruthy, hc] <;> decide

/-- The source's nested interface loops compute the first non-internal
IPv4 address of the flattened interface table. -/
theorem networkLoop_eq_spec (nets : List (List NetAddr)) :
    networkLoop nets = specInterfaceAddress nets := by
  induction nets with
  | nil => rfl
  | cons l rest ih =>
    simp only [networkLoop, specInterfaceAddress, List.flatten, List.find?_append]
    have hl : firstExternalInList l =
        (l.find? (fun n => decide (n.family = str "IPv4" ∧ n.internal = false))).map NetAddr.address := by
      induction l with
      | nil => rfl
      | cons n ns ihn =>
        by_cases hn : n.family = str "IPv4" ∧ n.internal = false
        · simp [firstExternalInList, List.find?, hn]
        · simp [firstExternalInList, List.find?, hn, ihn]
    rw [hl]
    cases hfind : l.find? (fun n => decide (n.family = str "IPv4" ∧ n.internal = false)) with
    | none =>
      simp only [Option.map_none', Option.none_orElse]
      rw [ih]
      simp [specInterfaceAddress]
    | some a => simp

/-- C6: address resolution follows the documented precedence — the
serverIP option, the SERVER_IP variable, the HOST variable, the first
non-internal IPv4 interface address, then the loopback literal — and,
being a total function into addresses, never fails; in particular any
truthy environment override beats every detected interface address. -/
theorem resolveServerIP_eq_precedenceSpec
    (optServerIP envServerIP envHost : Option (List Char))
    (nets : List (List NetAddr)) :
    resolveServerIP optServerIP envServerIP envHost nets =
      addressPrecedenceSpec optServerIP envServerIP envHost nets := by
  unfold resolveServerIP getNetworkIP addressPrecedenceSpec
  rw [← networkLoop_eq_spec]
  cases h1 : jsTruthy optServerIP <;> cases h2 : jsTruthy envServerIP <;>
    cases h3 : jsTruthy envHost <;>
      simp [h1, h2, h3, List.filterMap] <;> cases hn : networkLoop nets <;> simp

/-! Generic facts: characters, tokens, substring occurrences. -/

theorem quote_not_space {c : Char} (h : isQuoteC c = true) : isSpaceJS c = false := by
  simp only [isQuoteC, Bool.or_eq_true, decide_eq_true_eq] at h
  rcases h with h | h <;> subst h <;> decide

theorem gameTok_chars : ∀ x ∈ gameTok, isSpaceJS x = false ∧ isQuoteC x = false := by decide

theorem warnTok_chars : ∀ x ∈ warnTok, isSpaceJS x = false ∧ isQuoteC x = false := by decide

theorem uiTok_chars : ∀ x ∈ uiTok, isSpaceJS x = false ∧ isQuoteC x = false := by decide

theorem gameTok_no_self_overlap :
    ∀ j, j < gameTok.length → 0 < j → (gameTok.drop j).isPrefixOf gameTok = false := by decide

theorem warnTok_no_self_overlap :
    ∀ j, j < warnTok.length → 0 < j → (warnTok.drop j).isPrefixOf warnTok = false := by decide

theorem uiTok_no_self_overlap :
    ∀ j, j < uiTok.length → 0 < j → (uiTok.drop j).isPrefixOf uiTok = false := by decide

theorem consumeLit_eq_some {lit s r : List Char} :
    consumeLit lit s = some r ↔ s = lit ++ r := by
  induction lit generalizing s with
  | nil => simp [consumeLit]
  | cons c cs ih =>
    cases s with
    | nil => simp [consumeLit]
    | cons x xs =>
      by_cases hx : x = c
      · subst hx; simp [consumeLit, ih]
      · simp [consumeLit, hx]

theorem span_concat {p : Char → Bool} {a b : List Char}
    (ha : ∀ c ∈ a, p c = true) (hb : ∀ x xs, b = x :: xs → p x = false) :
    (a ++ b).takeWhile p = a ∧ (a ++ b).dropWhile p = b := by
  induction a with
  | nil =>
    cases b with
    | nil => simp
    | cons x xs => simp [List.takeWhile, List.dropWhile, hb x xs rfl]
  | cons c cs ih =>
    have hc : p c = true := ha c (by simp)
    have ih' := ih (fun d hd => ha d (by simp [hd]))
    simp [List.takeWhile, List.dropWhile, hc, ih'.1, ih'.2]

theorem dropWhile_head_false {p : Char → Bool} {l : List Char} {x : Char} {xs : List Char}
    (h : l.dropWhile p = x :: xs) : p x = false := by
  induction l with
  | nil => simp at h
  | cons c cs ih =>
    rw [List.dropWhile_cons] at h
    by_cases hc : p c = true
    · rw [if_pos hc] at h; exact ih h
    · rw [if_neg hc] at h
      injection h with h1 h2
      subst h1
      simpa using hc

theorem jsIncludes_iff {s pat : List Char} :
    jsIncludes s pat = true ↔ ∃ p q, s = p ++ (pat ++ q) := by
  induction s with
  | nil =>
    simp only [jsIncludes, List.isEmpty_iff]
    constructor
    · intro h; exact ⟨[], [], by simp [h]⟩
    · rintro ⟨p, q, hpq⟩
      rcases List.append_eq_nil.mp hpq.symm with ⟨-, h2⟩
      exact (List.append_eq_nil.mp h2).1
  | cons c cs ih =>
    simp only [jsIncludes, Bool.or_eq_true, ih, List.isPrefixOf_iff_prefix]
    constructor
    · rintro (hpre | ⟨p, q, rfl⟩)
      · obtain ⟨t, ht⟩ := hpre
        exact ⟨[], t, by simp [← ht]⟩
      · exact ⟨c :: p, q, by simp⟩
    · rintro ⟨p, q, hpq⟩
      cases p with
      | nil => exact Or.inl ⟨q, by simp [hpq]⟩
      | cons d ds =>
        right
        injection hpq with h1 h2
        exact ⟨ds, q, h2⟩

theorem jsIncludes_parts {s p pat q : List Char} (h : s = p ++ (pat ++ q)) :
    jsIncludes s pat = true := jsIncludes_iff.mpr ⟨p, q, h⟩

theorem includes_of_prefix_drop {tok t : List Char} {j : Nat}
    (h : tok <+: t.drop j) : jsIncludes t tok = true := by
  obtain ⟨u, hu⟩ := h
  refine jsIncludes_parts (p := t.take j) (q := u) ?_
  rw [hu, List.take_append_drop]

theorem no_occ_of_not_includes {t tok : List Char} (h : jsIncludes t tok = false) :
    ∀ j, ¬ tok <+: t.drop j := by
  intro j hp
  rw [includes_of_prefix_drop hp] at h
  exact Bool.true_eq_false ▸ h

theorem jsIncludes_append_left {a b pat : List Char} (h : jsIncludes a pat = true) :
    jsIncludes (a ++ b) pat = true := by
  obtain ⟨p, q, rfl⟩ := jsIncludes_iff.mp h
  exact jsIncludes_parts (p := p) (q := q ++ b) (by simp)

theorem jsIncludes_append_right {a b pat : List Char} (h : jsIncludes b pat = true) :
    jsIncludes (a ++ b) pat = true := by
  obtain ⟨p, q, rfl⟩ := jsIncludes_iff.mp h
  exact jsIncludes_parts (p := a ++ p) (q := q) (by simp)

theorem occ_drop_split {a b tok : List Char} {k : Nat} (hk : k < a.length)
    (h : tok <+: (a ++ b).drop k) :
    (k + tok.length ≤ a.length ∧ tok <+: a.drop k) ∨
    (a.length < k + tok.length ∧ ∃ t1 t2, tok = t1 ++ t2 ∧ t1 ≠ [] ∧ t2 ≠ [] ∧
      (∃ p0, a = p0 ++ t1) ∧ t2 <+: b) := by
  rw [List.drop_append_of_le_length (le_of_lt hk)] at h
  by_cases hlen : tok.length ≤ a.length - k
  · left
    refine ⟨by omega, ?_⟩
    exact List.prefix_of_prefix_length_le h (List.prefix_append _ _)
      (by simp only [List.length_drop]; omega)
  · right
    have hak : (a.drop k).length ≤ tok.length := by
      simp only [List.length_drop]; omega
    have hdk : a.drop k <+: tok :=
      List.prefix_of_prefix_length_le (List.prefix_append _ _) h hak
    obtain ⟨t2, ht2⟩ := hdk
    refine ⟨by omega, a.drop k, t2, ht2.symm, ?_, ?_,
      ⟨a.take k, (List.take_append_drop k a).symm⟩, ?_⟩
    · intro hnil
      have := congrArg List.length hnil
      simp only [List.length_drop, List.length_nil] at this
      omega
    · intro hnil
      subst hnil
      have := congrArg List.length ht2
      simp only [List.length_append, List.length_drop, List.length_nil] at this
      omega
    · obtain ⟨u, hu⟩ := h
      rw [← ht2, List.append_assoc] at hu
      exact ⟨u, List.append_cancel_left hu⟩

theorem no_straddle_sepEnd {tok L : List Char}
    (hsep : sepEndB L = true)
    (hchars : ∀ x ∈ tok, isSpaceJS x = false ∧ isQuoteC x = false)
    {t1 : List Char} (h1 : t1 ≠ []) (hsuf : ∃ p0, L = p0 ++ t1)
    (hsub : ∃ t2, tok = t1 ++ t2) : False := by
  obtain ⟨p0, rfl⟩ := hsuf
  obtain ⟨t2, htok⟩ := hsub
  cases ht1 : t1.getLast? with
  | none => exact h1 (List.getLast?_eq_none_iff.mp ht1)
  | some c =>
    have hLlast : (p0 ++ t1).getLast? = some c := by
      rw [List.getLast?_append_of_ne_nil p0 h1, ht1]
    have hmem : c ∈ tok := by
      rw [htok]
      exact List.mem_append_left _ (List.mem_of_mem_getLast? (by rw [ht1]; rfl))
    have := hchars c hmem
    unfold sepEndB at hsep
    rw [hLlast] at hsep
    simp only [Bool.or_eq_true] at hsep
    rcases hsep with hs | hs
    · rw [this.1] at hs; exact Bool.false_ne_true hs
    · rw [this.2] at hs; exact Bool.false_ne_true hs

theorem no_straddle_into_self {tok rest t1 t2 : List Char}
    (htok : tok = t1 ++ t2) (h1 : t1 ≠ []) (h2 : t2 ≠ []) (hpre : t2 <+: tok ++ rest)
    (hno : ∀ j, j < tok.length → 0 < j → (tok.drop j).isPrefixOf tok = false) : False := by
  have ht2 : t2 = tok.drop t1.length := by subst htok; simp
  have hl1 : 0 < t1.length := List.length_pos.mpr h1
  have hl2 : 0 < t2.length := List.length_pos.mpr h2
  have hlen : tok.length = t1.length + t2.length := by subst htok; simp
  have hpre2 : t2 <+: tok :=
    List.prefix_of_prefix_length_le hpre (List.prefix_append _ _) (by omega)
  have hfalse := hno t1.length (by omega) hl1
  rw [← ht2] at hfalse
  rw [List.isPrefixOf_iff_prefix.mpr hpre2] at hfalse
  exact Bool.true_eq_false ▸ hfalse

theorem no_occ_before_self {a rest tok : List Char}
    (hnotin : jsIncludes a tok = false)
    (hno : ∀ j, j < tok.length → 0 < j → (tok.drop j).isPrefixOf tok = false) :
    ∀ k, k < a.length → ¬ tok <+: (a ++ (tok ++ rest)).drop k := by
  intro k hk hp
  rcases occ_drop_split hk hp with ⟨-, hin⟩ | ⟨-, t1, t2, htok, h1, h2, -, hpre⟩
  · have := includes_of_prefix_drop hin
    rw [this] at hnotin
    exact Bool.true_eq_false ▸ hnotin
  · exact no_straddle_into_self htok h1 h2 hpre hno

theorem no_occ_before_sepEnd {a b tok : List Char}
    (hsep : sepEndB a = true)
    (hchars : ∀ x ∈ tok, isSpaceJS x = false ∧ isQuoteC x = false)
    (hnotin : jsIncludes a tok = false) :
    ∀ k, k < a.length → ¬ tok <+: (a ++ b).drop k := by
  intro k hk hp
  rcases occ_drop_split hk hp with ⟨-, hin⟩ | ⟨-, t1, t2, htok, h1, h2, hsuf, hpre⟩
  · have := includes_of_prefix_drop hin
    rw [this] at hnotin
    exact Bool.true_eq_false ▸ hnotin
  · exact no_straddle_sepEnd hsep hchars h1 hsuf ⟨t2, htok⟩

theorem not_includes_append {a b tok : List Char}
    (hsep : sepEndB a = true)
    (hchars : ∀ x ∈ tok, isSpaceJS x = false ∧ isQuoteC x = false)
    (ha : jsIncludes a tok = false) (hb : jsIncludes b tok = false) :
    jsIncludes (a ++ b) tok = false := by
  by_contra h
  rw [Bool.not_eq_false] at h
  obtain ⟨p, q, hpq⟩ := jsIncludes_iff.mp h
  have hocc : tok <+: (a ++ b).drop p.length := by
    rw [hpq, List.drop_left]
    exact List.prefix_append _ _
  by_cases hcase : p.length < a.length
  · exact no_occ_before_sepEnd hsep hchars ha p.length hcase hocc
  · have hsplit : (a ++ b).drop p.length = b.drop (p.length - a.length) := by
      have : p.length = a.length + (p.length - a.length) := by omega
      rw [this]
      simp [List.drop_append]
    rw [hsplit] at hocc
    have := includes_of_prefix_drop hocc
    rw [this] at hb
    exact Bool.true_eq_false ▸ hb

/-! Matcher characterizations: positive computations, shapes, anchors. -/

theorem matchStmtCore_compute {tok ws val r : List Char} {q1 q2 : Char}
    (hws : ws ≠ []) (hwsSp : AllSpace ws)
    (hq1 : isQuoteC q1 = true) (hq2 : isQuoteC q2 = true) (hval : QuoteFree val) :
    matchStmtCore tok (tok ++ (ws ++ q1 :: (val ++ q2 :: r))) =
      some (tok ++ ws ++ q1 :: (val ++ [q2]), r) := by
  have hcl : consumeLit tok (tok ++ (ws ++ q1 :: (val ++ q2 :: r))) =
      some (ws ++ q1 :: (val ++ q2 :: r)) := consumeLit_eq_some.mpr rfl
  have hspan := span_concat (p := isSpaceJS) (a := ws) (b := q1 :: (val ++ q2 :: r)) hwsSp
    (by intro x xs hx; injection hx with h1 _; subst h1; exact quote_not_space hq1)
  have hspan2 := span_concat (p := fun c => !isQuoteC c) (a := val) (b := q2 :: r)
    (fun c hc => by simp [hval c hc])
    (by intro x xs hx; injection hx with h1 _; subst h1; simp [hq2])
  have hwse : ws.isEmpty = false := by
    cases ws with
    | nil => exact absurd rfl hws
    | cons a as => rfl
  simp [matchStmtCore, hcl, hspan.1, hspan.2, hwse, hspan2.1, hspan2.2, hq1]

theorem matchGame_compute {lit ws r : List Char} {q1 q2 : Char}
    (hws : ws ≠ []) (hwsSp : AllSpace ws)
    (hq1 : isQuoteC q1 = true) (hq2 : isQuoteC q2 = true) :
    matchGame lit (gameTok ++ (ws ++ q1 :: (lit ++ q2 :: r))) =
      some (gameTok ++ ws ++ q1 :: (lit ++ [q2]), r) := by
  have hcl : consumeLit gameTok (gameTok ++ (ws ++ q1 :: (lit ++ q2 :: r))) =
      some (ws ++ q1 :: (lit ++ q2 :: r)) := consumeLit_eq_some.mpr rfl
  have hcl2 : consumeLit lit (lit ++ q2 :: r) = some (q2 :: r) := consumeLit_eq_some.mpr rfl
  have hspan := span_concat (p := isSpaceJS) (a := ws) (b := q1 :: (lit ++ q2 :: r)) hwsSp
    (by intro x xs hx; injection hx with h1 _; subst h1; exact quote_not_space hq1)
  have hwse : ws.isEmpty = false := by
    cases ws with
    | nil => exact absurd rfl hws
    | cons a as => rfl
  simp [matchGame, hcl, hspan.1, hspan.2, hwse, hcl2, hq1, hq2]

theorem matchStmtCore_shape {tok s mt r : List Char}
    (h : matchStmtCore tok s = some (mt, r)) :
    ∃ ws q1 val q2, WfWs ws ∧ isQuoteC q1 = true ∧ QuoteFree val ∧ isQuoteC q2 = true ∧
      mt = tok ++ ws ++ q1 :: (val ++ [q2]) ∧ s = mt ++ r := by
  rw [matchStmtCore] at h
  cases hcl : consumeLit tok s with
  | none => simp only [hcl] at h; exact Option.noConfusion h
  | some r1 =>
    simp only [hcl] at h
    cases hdw : r1.dropWhile isSpaceJS with
    | nil => simp only [hdw] at h; exact Option.noConfusion h
    | cons q1 r3 =>
      simp only [hdw] at h
      by_cases hwse : (r1.takeWhile isSpaceJS).isEmpty
      · simp only [hwse, if_true] at h; exact Option.noConfusion h
      · simp only [hwse, Bool.false_eq_true, if_false] at h
        by_cases hq1 : isQuoteC q1 = true
        · simp only [hq1, if_true] at h
          cases hdw2 : r3.dropWhile (fun c => !isQuoteC c) with
          | nil => simp only [hdw2] at h; exact Option.noConfusion h
          | cons q2 r4 =>
            simp only [hdw2, Option.some.injEq, Prod.mk.injEq] at h
            obtain ⟨hmt, hr⟩ := h
            refine ⟨r1.takeWhile isSpaceJS, q1, r3.takeWhile (fun c => !isQuoteC c), q2,
              ⟨by simpa [List.isEmpty_iff] using hwse,
               fun c hc => List.mem_takeWhile_imp hc⟩, hq1,
              fun c hc => by simpa using List.mem_takeWhile_imp hc,
              ?_, hmt.symm, ?_⟩
            · have := dropWhile_head_false hdw2
              simpa using this
            · rw [← hr, ← hmt]
              have h1 : s = tok ++ r1 := consumeLit_eq_some.mp hcl
              have h2 : r1 = r1.takeWhile isSpaceJS ++ (q1 :: r3) := by
                rw [← hdw]; exact (List.takeWhile_append_dropWhile isSpaceJS r1).symm
              have h3 : r3 = r3.takeWhile (fun c => !isQuoteC c) ++ (q2 :: r4) := by
                rw [← hdw2]
                exact (List.takeWhile_append_dropWhile (fun c => !isQuoteC c) r3).symm
              conv_lhs => rw [h1, h2, h3]
              simp
        · simp only [hq1, if_false] at h
          simp at h

theorem matchGame_shape {lit s mt r : List Char} (h : matchGame lit s = some (mt, r)) :
    ∃ ws q1 q2, WfWs ws ∧ isQuoteC q1 = true ∧ isQuoteC q2 = true ∧
      mt = gameTok ++ ws ++ q1 :: (lit ++ [q2]) ∧ s = mt ++ r := by
  rw [matchGame] at h
  cases hcl : consumeLit gameTok s with
  | none => simp only [hcl] at h; exact Option.noConfusion h
  | some r1 =>
    simp only [hcl] at h
    cases hdw : r1.dropWhile isSpaceJS with
    | nil => simp only [hdw] at h; exact Option.noConfusion h
    | cons q1 r3 =>
      simp only [hdw] at h
      by_cases hwse : (r1.takeWhile isSpaceJS).isEmpty
      · simp only [hwse, if_true] at h; exact Option.noConfusion h
      · simp only [hwse, Bool.false_eq_true, if_false] at h
        by_cases hq1 : isQuoteC q1 = true
        · simp only [hq1, if_true] at h
          cases hcl2 : consumeLit lit r3 with
          | none => simp only [hcl2] at h; exact Option.noConfusion h
          | some r4 =>
            simp only [hcl2] at h
            cases r4 with
            | nil => simp at h
            | cons q2 r5 =>
              by_cases hq2 : isQuoteC q2 = true
              · simp only [hq2, if_true, Option.some.injEq, Prod.mk.injEq] at h
                obtain ⟨hmt, hr⟩ := h
                refine ⟨r1.takeWhile isSpaceJS, q1, q2,
                  ⟨by simpa [List.isEmpty_iff] using hwse,
                   fun c hc => List.mem_takeWhile_imp hc⟩, hq1, hq2, hmt.symm, ?_⟩
                rw [← hr, ← hmt]
                have h1 : s = gameTok ++ r1 := consumeLit_eq_some.mp hcl
                have h2 : r1 = r1.takeWhile isSpaceJS ++ (q1 :: r3) := by
                  rw [← hdw]; exact (List.takeWhile_append_dropWhile isSpaceJS r1).symm
                have h3 : r3 = lit ++ (q2 :: r5) := consumeLit_eq_some.mp hcl2
                conv_lhs => rw [h1, h2, h3]
                simp
              · simp only [hq2, if_false] at h
                simp at h
        · simp only [hq1, if_false] at h
          simp at h

theorem matchStmtCore_tok_pre {tok s mt r : List Char}
    (h : matchStmtCore tok s = some (mt, r)) : tok <+: s := by
  obtain ⟨ws, q1, val, q2, -, -, -, -, hmt, hs⟩ := matchStmtCore_shape h
  exact ⟨ws ++ q1 :: (val ++ [q2]) ++ r, by rw [hs, hmt]; simp⟩

theorem matchGame_tok_pre {lit s mt r : List Char}
    (h : matchGame lit s = some (mt, r)) : gameTok <+: s := by
  obtain ⟨ws, q1, q2, -, -, -, hmt, hs⟩ := matchGame_shape h
  exact ⟨ws ++ q1 :: (lit ++ [q2]) ++ r, by rw [hs, hmt]; simp⟩

theorem matchGame_eq_none {lit s : List Char} (h : ¬ gameTok <+: s) :
    matchGame lit s = none := by
  cases hm : matchGame lit s with
  | none => rfl
  | some p =>
    obtain ⟨mt, r⟩ := p
    exact absurd (matchGame_tok_pre hm) h

theorem matchStmtCore_eq_none {tok s : List Char} (h : ¬ tok <+: s) :
    matchStmtCore tok s = none := by
  cases hm : matchStmtCore tok s with
  | none => rfl
  | some p =>
    obtain ⟨mt, r⟩ := p
    exact absurd (matchStmtCore_tok_pre hm) h

theorem warnRmCore_anchor {s1 mt r : List Char} (h : warnRmCore s1 = some (mt, r)) :
    warnTok <+: s1 := by
  unfold warnRmCore at h
  cases hsc : matchStmtCore warnTok s1 with
  | none => rw [hsc] at h; exact absurd h (by simp)
  | some p =>
    obtain ⟨core, r0⟩ := p
    exact matchStmtCore_tok_pre hsc

theorem matchWarnRm_anchor {s mt r : List Char} (h : matchWarnRm s = some (mt, r)) :
    warnTok <+: s ∨ ∃ s1, s = '\n' :: s1 ∧ warnTok <+: s1 := by
  cases s with
  | nil => rw [matchWarnRm] at h; exact Option.noConfusion h
  | cons c s1 =>
    rw [matchWarnRm] at h
    by_cases hc : c = '\n'
    · subst hc
      rw [if_pos rfl] at h
      cases hwc : warnRmCore s1 with
      | none => rw [hwc] at h; exact absurd h (by simp)
      | some p =>
        obtain ⟨mt0, r0⟩ := p
        exact Or.inr ⟨s1, rfl, warnRmCore_anchor hwc⟩
    · rw [if_neg hc] at h
      exact Or.inl (warnRmCore_anchor h)

theorem uiRmAfterNl_anchor {s1 mt r : List Char} (h : uiRmAfterNl s1 = some (mt, r)) :
    ∃ w rest, s1 = w ++ rest ∧ AllSpace w ∧ uiTok <+: rest := by
  unfold uiRmAfterNl at h
  cases hsc : matchStmtCore uiTok (s1.dropWhile isSpaceJS) with
  | none => rw [hsc] at h; exact absurd h (by simp)
  | some p =>
    obtain ⟨core, r0⟩ := p
    exact ⟨s1.takeWhile isSpaceJS, s1.dropWhile isSpaceJS,
      (List.takeWhile_append_dropWhile isSpaceJS s1).symm,
      fun c hc => List.mem_takeWhile_imp hc, matchStmtCore_tok_pre hsc⟩

theorem matchUiRm_anchor {s mt r : List Char} (h : matchUiRm s = some (mt, r)) :
    ∃ w rest, s = w ++ rest ∧ AllSpace w ∧ uiTok <+: rest := by
  cases s with
  | nil => rw [matchUiRm] at h; exact Option.noConfusion h
  | cons c s1 =>
    rw [matchUiRm] at h
    by_cases hc : c = '\n'
    · subst hc
      rw [if_pos rfl] at h
      cases hwc : uiRmAfterNl s1 with
      | none => rw [hwc] at h; exact absurd h (by simp)
      | some p =>
        obtain ⟨mt0, r0⟩ := p
        obtain ⟨w, rest, hw1, hw2, hw3⟩ := uiRmAfterNl_anchor hwc
        refine ⟨'\n' :: w, rest, by rw [hw1]; rfl, ?_, hw3⟩
        intro x hx
        rcases List.mem_cons.mp hx with hx | hx
        · subst hx; decide
        · exact hw2 x hx
    · rw [if_neg hc] at h
      exact uiRmAfterNl_anchor h

/-! findSplit, replaceAll and trimEnd facts. -/

theorem findSplit_sound {m : List Char → Option (List Char × List Char)}
    (hv : ∀ s mt r, m s = some (mt, r) → s = mt ++ r)
    {s p mt r : List Char} (h : findSplit m s = some (p, mt, r)) :
    s = p ++ (mt ++ r) ∧ m (mt ++ r) = some (mt, r) := by
  induction s generalizing p with
  | nil =>
    rw [findSplit] at h
    cases hm : m [] with
    | none => simp only [hm] at h; exact Option.noConfusion h
    | some pr =>
      obtain ⟨mt0, r0⟩ := pr
      simp only [hm, Option.some.injEq, Prod.mk.injEq] at h
      obtain ⟨h1, h3⟩ := h
      obtain ⟨h2, h3⟩ := h3
      subst h1; subst h2; subst h3
      have hb := hv _ _ _ hm
      exact ⟨by simpa using hb, by rw [← hb]; exact hm⟩
  | cons c cs ih =>
    rw [findSplit] at h
    cases hm : m (c :: cs) with
    | some pr =>
      obtain ⟨mt0, r0⟩ := pr
      simp only [hm, Option.some.injEq, Prod.mk.injEq] at h
      obtain ⟨h1, h3⟩ := h
      obtain ⟨h2, h3⟩ := h3
      subst h1; subst h2; subst h3
      have hb := hv _ _ _ hm
      exact ⟨by simpa using hb, by rw [← hb]; exact hm⟩
    | none =>
      simp only [hm] at h
      cases hfs : findSplit m cs with
      | none => simp only [hfs] at h; exact Option.noConfusion h
      | some t =>
        obtain ⟨p0, mt0, r0⟩ := t
        simp only [hfs, Option.some.injEq, Prod.mk.injEq] at h
        obtain ⟨h1, h2, h3⟩ := h
        subst h2; subst h3
        obtain ⟨ha, hb⟩ := ih hfs
        subst h1
        exact ⟨by rw [List.cons_append, ← ha], hb⟩

theorem findSplit_eq_none_iff {m : List Char → Option (List Char × List Char)}
    {s : List Char} :
    findSplit m s = none ↔ ∀ i, m (s.drop i) = none := by
  induction s with
  | nil =>
    rw [findSplit]
    constructor
    · intro h i
      cases hm : m [] with
      | none => simpa using hm
      | some pr =>
        obtain ⟨a, b⟩ := pr
        simp only [hm] at h
        exact Option.noConfusion h
    · intro h
      have h0 := h 0
      simp only [List.drop_zero] at h0
      simp [h0]
  | cons c cs ih =>
    rw [findSplit]
    constructor
    · intro h i
      cases hm : m (c :: cs) with
      | some pr =>
        obtain ⟨a, b⟩ := pr
        simp only [hm] at h
        exact Option.noConfusion h
      | none =>
        simp only [hm] at h
        cases hfs : findSplit m cs with
        | some t =>
          obtain ⟨a, b, d⟩ := t
          simp only [hfs] at h
          exact Option.noConfusion h
        | none =>
          cases i with
          | zero => simpa using hm
          | succ j => exact ih.mp hfs j
    · intro h
      have h0 := h 0
      simp only [List.drop_zero] at h0
      simp [h0, ih.mpr (fun i => h (i + 1))]

theorem findSplit_cons_of_match {m : List Char → Option (List Char × List Char)}
    {s mt r : List Char} (hm : m s = some (mt, r)) :
    findSplit m s = some ([], mt, r) := by
  cases s with
  | nil => rw [findSplit]; simp [hm]
  | cons c cs => rw [findSplit]; simp [hm]

theorem findSplit_prepend_none {m : List Char → Option (List Char × List Char)}
    {a b : List Char} (ha : ∀ i, i < a.length → m ((a ++ b).drop i) = none) :
    findSplit m (a ++ b) =
      match findSplit m b with
      | some (p, mt, r) => some (a ++ p, mt, r)
      | none => none := by
  induction a with
  | nil =>
    simp only [List.nil_append]
    cases hfs : findSplit m b with
    | none => simp
    | some t => obtain ⟨p, mt, r⟩ := t; simp
  | cons c cs ih =>
    have h0 := ha 0 (by simp)
    simp only [List.drop_zero, List.cons_append] at h0
    rw [List.cons_append, findSplit]
    simp only [h0]
    have ih' := ih (fun i hi => by
      have := ha (i + 1) (by simp; omega)
      simpa [List.cons_append] using this)
    rw [ih']
    cases hfs : findSplit m b with
    | none => simp
    | some t => obtain ⟨p, mt, r⟩ := t; simp

theorem findSplit_at {m : List Char → Option (List Char × List Char)}
    {a b mt r : List Char}
    (ha : ∀ i, i < a.length → m ((a ++ b).drop i) = none)
    (hm : m b = some (mt, r)) :
    findSplit m (a ++ b) = some (a, mt, r) := by
  rw [findSplit_prepend_none ha, findSplit_cons_of_match hm]
  simp

theorem replaceAllGo_fuel {m : List Char → Option (List Char × List Char)}
    {repl : List Char} :
    ∀ f g s, s.length ≤ f → s.length ≤ g →
      replaceAllGo m repl f s = replaceAllGo m repl g s := by
  intro f
  induction f with
  | zero =>
    intro g s hf hg
    have hse : s = [] := List.length_eq_zero.mp (Nat.le_zero.mp hf)
    subst hse
    cases g <;> rfl
  | succ f ih =>
    intro g s hf hg
    cases s with
    | nil => cases g <;> rfl
    | cons c cs =>
      cases g with
      | zero => simp at hg
      | succ g =>
        rw [replaceAllGo, replaceAllGo]
        cases hm : m (c :: cs) with
        | none =>
          simp only [hm]
          rw [ih g cs (by simp at hf; omega) (by simp at hg; omega)]
        | some p =>
          obtain ⟨mt, r⟩ := p
          simp only [hm]
          by_cases hlen : r.length ≤ cs.length
          · rw [if_pos hlen, if_pos hlen,
              ih g r (by simp at hf; omega) (by simp at hg; omega)]
          · rw [if_neg hlen, if_neg hlen,
              ih g cs (by simp at hf; omega) (by simp at hg; omega)]

theorem replaceAll_step {m : List Char → Option (List Char × List Char)}
    {repl mt r cs : List Char} {c : Char}
    (hm : m (c :: cs) = some (mt, r)) (hlen : r.length ≤ cs.length) :
    replaceAll m repl (c :: cs) = repl ++ replaceAll m repl r := by
  unfold replaceAll
  simp only [List.length_cons]
  rw [replaceAllGo]
  simp only [hm]
  rw [if_pos hlen, replaceAllGo_fuel cs.length r.length r hlen (le_refl _)]

theorem replaceAll_step_neg {m : List Char → Option (List Char × List Char)}
    {repl mt r cs : List Char} {c : Char}
    (hm : m (c :: cs) = some (mt, r)) (hlen : ¬ r.length ≤ cs.length) :
    replaceAll m repl (c :: cs) = c :: replaceAll m repl cs := by
  unfold replaceAll
  simp only [List.length_cons]
  rw [replaceAllGo]
  simp only [hm]
  rw [if_neg hlen]

theorem replaceAll_skip {m : List Char → Option (List Char × List Char)}
    {repl cs : List Char} {c : Char} (hm : m (c :: cs) = none) :
    replaceAll m repl (c :: cs) = c :: replaceAll m repl cs := by
  unfold replaceAll
  simp only [List.length_cons]
  rw [replaceAllGo]
  simp only [hm]

theorem replaceAll_of_none {m : List Char → Option (List Char × List Char)}
    {repl s : List Char} (h : ∀ i, m (s.drop i) = none) :
    replaceAll m repl s = s := by
  induction s with
  | nil => rfl
  | cons c cs ih =>
    have h0 := h 0
    simp only [List.drop_zero] at h0
    rw [replaceAll_skip h0]
    exact congrArg (c :: ·) (ih fun i => by simpa using h (i + 1))

theorem replaceAll_split {m : List Char → Option (List Char × List Char)}
    {repl a b mt r : List Char}
    (hv : ∀ s mt r, m s = some (mt, r) → s = mt ++ r)
    (ha : ∀ i, i < a.length → m ((a ++ b).drop i) = none)
    (hm : m b = some (mt, r)) (hne : mt ≠ []) :
    replaceAll m repl (a ++ b) = a ++ repl ++ replaceAll m repl r := by
  induction a with
  | nil =>
    simp only [List.nil_append]
    have hb : b = mt ++ r := hv b mt r hm
    cases hbb : b with
    | nil =>
      rw [hbb] at hb
      cases mt with
      | nil => exact absurd rfl hne
      | cons x xs => exact absurd hb.symm (by simp)
    | cons c cs =>
      subst hbb
      have hmtlen : 1 ≤ mt.length := by
        cases mt with
        | nil => exact absurd rfl hne
        | cons x xs => simp
      have hlen : r.length ≤ cs.length := by
        have := congrArg List.length hb
        simp only [List.length_cons, List.length_append] at this
        omega
      rw [replaceAll_step hm hlen]
  | cons c cs ih =>
    have h0 := ha 0 (by simp)
    simp only [List.drop_zero, List.cons_append] at h0
    rw [List.cons_append, replaceAll_skip h0]
    rw [ih (fun i hi => by
      have := ha (i + 1) (by simp; omega)
      simpa [List.cons_append] using this)]
    simp

theorem trimEnd_decomp (s : List Char) :
    s = trimEnd s ++ (s.reverse.takeWhile isSpaceJS).reverse ∧
    AllSpace (s.reverse.takeWhile isSpaceJS).reverse ∧
    (trimEnd s = [] ∨ ∃ L1 c, trimEnd s = L1 ++ [c] ∧ isSpaceJS c = false) := by
  refine ⟨?_, ?_, ?_⟩
  · unfold trimEnd
    conv_lhs => rw [← List.reverse_reverse s]
    conv_lhs => rw [← List.takeWhile_append_dropWhile isSpaceJS s.reverse]
    rw [List.reverse_append]
  · intro c hc
    rw [List.mem_reverse] at hc
    exact List.mem_takeWhile_imp hc
  · unfold trimEnd
    cases hd : s.reverse.dropWhile isSpaceJS with
    | nil => left; simp [hd]
    | cons x xs =>
      right
      exact ⟨xs.reverse, x, by simp, dropWhile_head_false hd⟩

/-! Matcher validity, positive computations for the removal matchers,
and exact self-matching of matched text. -/

theorem matchGame_valid {lit : List Char} :
    ∀ s mt r, matchGame lit s = some (mt, r) → s = mt ++ r := by
  intro s mt r h
  obtain ⟨-, -, -, -, -, -, -, hs⟩ := matchGame_shape h
  exact hs

theorem matchStmtCore_valid {tok : List Char} :
    ∀ s mt r, matchStmtCore tok s = some (mt, r) → s = mt ++ r := by
  intro s mt r h
  obtain ⟨-, -, -, -, -, -, -, -, -, hs⟩ := matchStmtCore_shape h
  exact hs

theorem warnRmCore_valid :
    ∀ s mt r, warnRmCore s = some (mt, r) → s = mt ++ r := by
  intro s mt r h
  unfold warnRmCore at h
  cases hsc : matchStmtCore warnTok s with
  | none => simp only [hsc] at h; exact Option.noConfusion h
  | some p =>
    obtain ⟨core, r0⟩ := p
    simp only [hsc, Option.some.injEq, Prod.mk.injEq] at h
    obtain ⟨h1, h2⟩ := h
    have hs := matchStmtCore_valid _ _ _ hsc
    rw [hs, ← h1, ← h2]
    rw [List.append_assoc, List.takeWhile_append_dropWhile]

theorem matchWarnRm_valid :
    ∀ s mt r, matchWarnRm s = some (mt, r) → s = mt ++ r := by
  intro s mt r h
  cases s with
  | nil => rw [matchWarnRm] at h; exact Option.noConfusion h
  | cons c s1 =>
    rw [matchWarnRm] at h
    by_cases hc : c = '\n'
    · subst hc
      rw [if_pos rfl] at h
      cases hwc : warnRmCore s1 with
      | none => simp only [hwc] at h; exact Option.noConfusion h
      | some p =>
        obtain ⟨mt0, r0⟩ := p
        simp only [hwc, Option.some.injEq, Prod.mk.injEq] at h
        obtain ⟨h1, h2⟩ := h
        rw [← h1, ← h2, List.cons_append]
        exact congrArg ('\n' :: ·) (warnRmCore_valid _ _ _ hwc)
    · rw [if_neg hc] at h
      exact warnRmCore_valid _ _ _ h

theorem uiRmAfterNl_valid :
    ∀ s mt r, uiRmAfterNl s = some (mt, r) → s = mt ++ r := by
  intro s mt r h
  unfold uiRmAfterNl at h
  cases hsc : matchStmtCore uiTok (s.dropWhile isSpaceJS) with
  | none => simp only [hsc] at h; exact Option.noConfusion h
  | some p =>
    obtain ⟨core, r0⟩ := p
    simp only [hsc, Option.some.injEq, Prod.mk.injEq] at h
    obtain ⟨h1, h2⟩ := h
    have hs := matchStmtCore_valid _ _ _ hsc
    rw [← h1, ← h2]
    conv_lhs => rw [← List.takeWhile_append_dropWhile isSpaceJS s, hs]
    simp [List.append_assoc, List.takeWhile_append_dropWhile]

theorem matchUiRm_valid :
    ∀ s mt r, matchUiRm s = some (mt, r) → s = mt ++ r := by
  intro s mt r h
  cases s with
  | nil => rw [matchUiRm] at h; exact Option.noConfusion h
  | cons c s1 =>
    rw [matchUiRm] at h
    by_cases hc : c = '\n'
    · subst hc
      rw [if_pos rfl] at h
      cases hwc : uiRmAfterNl s1 with
      | none => simp only [hwc] at h; exact Option.noConfusion h
      | some p =>
        obtain ⟨mt0, r0⟩ := p
        simp only [hwc, Option.some.injEq, Prod.mk.injEq] at h
        obtain ⟨h1, h2⟩ := h
        rw [← h1, ← h2, List.cons_append]
        exact congrArg ('\n' :: ·) (uiRmAfterNl_valid _ _ _ hwc)
    · rw [if_neg hc] at h
      exact uiRmAfterNl_valid _ _ _ h

theorem takeWhile_all {p : Char → Bool} {l : List Char} (h : ∀ c ∈ l, p c = true) :
    l.takeWhile p = l ∧ l.dropWhile p = [] := by
  have := span_concat (p := p) (a := l) (b := []) h
    (by intro x xs hx; exact absurd hx (by simp))
  simpa using this

theorem warnRmCore_compute {X core r0 : List Char}
    (h : matchStmtCore warnTok X = some (core, r0)) :
    warnRmCore X = some (core ++ r0.takeWhile isSpaceJS, r0.dropWhile isSpaceJS) := by
  unfold warnRmCore
  simp [h]

theorem matchWarnRm_nl {X mt0 r0 : List Char} (h : warnRmCore X = some (mt0, r0)) :
    matchWarnRm ('\n' :: X) = some ('\n' :: mt0, r0) := by
  rw [matchWarnRm]
  simp [h]

theorem uiRmAfterNl_compute {wl X core r0 : List Char}
    (hwl : AllSpace wl) (hX : matchStmtCore uiTok X = some (core, r0)) :
    uiRmAfterNl (wl ++ X) = some (wl ++ core ++ r0.takeWhile isSpaceJS, r0.dropWhile isSpaceJS) := by
  have hXpre := matchStmtCore_tok_pre hX
  have hhead : ∀ x xs, X = x :: xs → isSpaceJS x = false := by
    intro x xs hxx
    obtain ⟨t, ht⟩ := hXpre
    rw [hxx] at ht
    rw [show uiTok = 'u' :: str "i_page" from rfl] at ht
    simp only [List.cons_append] at ht
    injection ht with h1 _
    rw [← h1]
    decide
  have hspan := span_concat (p := isSpaceJS) (a := wl) (b := X) hwl hhead
  unfold uiRmAfterNl
  simp [hspan.1, hspan.2, hX, List.append_assoc]

theorem matchUiRm_compute {wl X core r0 : List Char}
    (hwl : AllSpace wl) (hX : matchStmtCore uiTok X = some (core, r0)) :
    matchUiRm (wl ++ X) = some (wl ++ core ++ r0.takeWhile isSpaceJS, r0.dropWhile isSpaceJS) := by
  cases wl with
  | nil =>
    simp only [List.nil_append]
    obtain ⟨t, ht⟩ := matchStmtCore_tok_pre hX
    rw [show uiTok = 'u' :: str "i_page" from rfl] at ht
    simp only [List.cons_append] at ht
    rw [← ht, matchUiRm, if_neg (by decide)]
    have := @uiRmAfterNl_compute ([] : List Char) X core r0 (by intro c hc; exact absurd hc (by simp)) hX
    rw [ht]
    simpa using this
  | cons w0 wrest =>
    by_cases hnl : w0 = '\n'
    · subst hnl
      rw [List.cons_append, matchUiRm, if_pos rfl]
      have := @uiRmAfterNl_compute wrest X core r0 (fun c hc => hwl c (by simp [hc])) hX
      simp only [this]
      simp
    · rw [List.cons_append, matchUiRm, if_neg hnl]
      have := @uiRmAfterNl_compute (w0 :: wrest) X core r0 hwl hX
      simpa [List.cons_append] using this

theorem matchWarnRm_eq_none {s : List Char}
    (h0 : ¬ warnTok <+: s) (h1 : ∀ s1, s = '\n' :: s1 → ¬ warnTok <+: s1) :
    matchWarnRm s = none := by
  cases hm : matchWarnRm s with
  | none => rfl
  | some p =>
    obtain ⟨mt, r⟩ := p
    rcases matchWarnRm_anchor hm with hh | ⟨s1, heq, hh⟩
    · exact absurd hh h0
    · exact absurd hh (h1 s1 heq)

theorem matchUiRm_eq_none {s : List Char}
    (h : ∀ w rest, s = w ++ rest → AllSpace w → ¬ uiTok <+: rest) :
    matchUiRm s = none := by
  cases hm : matchUiRm s with
  | none => rfl
  | some p =>
    obtain ⟨mt, r⟩ := p
    obtain ⟨w, rest, heq, hsp, hpre⟩ := matchUiRm_anchor hm
    exact absurd hpre (h w rest heq hsp)

theorem matchGame_self {lit s mt r : List Char} (h : matchGame lit s = some (mt, r)) :
    matchGame lit mt = some (mt, []) := by
  obtain ⟨ws, q1, q2, hws, hq1, hq2, hmt, -⟩ := matchGame_shape h
  subst hmt
  have := @matchGame_compute lit ws ([] : List Char) q1 q2 hws.1 hws.2 hq1 hq2
  simpa [List.append_assoc] using this

theorem matchStmtCore_self {tok s mt r : List Char} (h : matchStmtCore tok s = some (mt, r)) :
    matchStmtCore tok mt = some (mt, []) := by
  obtain ⟨ws, q1, val, q2, hws, hq1, hval, hq2, hmt, -⟩ := matchStmtCore_shape h
  subst hmt
  have := @matchStmtCore_compute tok ws val ([] : List Char) q1 q2 hws.1 hws.2 hq1 hq2 hval
  simpa [List.append_assoc] using this

theorem warnRmCore_self {s1 mt r : List Char} (h : warnRmCore s1 = some (mt, r)) :
    warnRmCore mt = some (mt, []) := by
  unfold warnRmCore at h
  cases hsc : matchStmtCore warnTok s1 with
  | none => simp only [hsc] at h; exact Option.noConfusion h
  | some p =>
    obtain ⟨core, r0⟩ := p
    simp only [hsc, Option.some.injEq, Prod.mk.injEq] at h
    obtain ⟨h1, -⟩ := h
    obtain ⟨ws, q1, val, q2, hws, hq1, hval, hq2, hcore, -⟩ := matchStmtCore_shape hsc
    have htw := takeWhile_all (p := isSpaceJS) (l := r0.takeWhile isSpaceJS)
      (fun c hc => List.mem_takeWhile_imp hc)
    have hsc2 : matchStmtCore warnTok (core ++ r0.takeWhile isSpaceJS) =
        some (core, r0.takeWhile isSpaceJS) := by
      rw [hcore]
      have := @matchStmtCore_compute warnTok ws val (r0.takeWhile isSpaceJS) q1 q2
        hws.1 hws.2 hq1 hq2 hval
      simpa [List.append_assoc] using this
    rw [← h1]
    unfold warnRmCore
    simp [hsc2, htw.1, htw.2]

theorem warnRmCore_head {s1 mt r : List Char} (h : warnRmCore s1 = some (mt, r)) :
    ∃ tail, mt = 'r' :: tail := by
  unfold warnRmCore at h
  cases hsc : matchStmtCore warnTok s1 with
  | none => simp only [hsc] at h; exact Option.noConfusion h
  | some p =>
    obtain ⟨core, r0⟩ := p
    simp only [hsc, Option.some.injEq, Prod.mk.injEq] at h
    obtain ⟨h1, -⟩ := h
    obtain ⟨ws, q1, val, q2, -, -, -, -, hcore, -⟩ := matchStmtCore_shape hsc
    refine ⟨str "dr3_warning" ++ ws ++ q1 :: (val ++ [q2]) ++ r0.takeWhile isSpaceJS, ?_⟩
    rw [← h1, hcore, show warnTok = 'r' :: str "dr3_warning" from rfl]
    simp

theorem matchWarnRm_self {s mt r : List Char} (h : matchWarnRm s = some (mt, r)) :
    matchWarnRm mt = some (mt, []) := by
  cases s with
  | nil => rw [matchWarnRm] at h; exact Option.noConfusion h
  | cons c s1 =>
    rw [matchWarnRm] at h
    by_cases hc : c = '\n'
    · subst hc
      rw [if_pos rfl] at h
      cases hwc : warnRmCore s1 with
      | none => simp only [hwc] at h; exact Option.noConfusion h
      | some p =>
        obtain ⟨mt0, r0⟩ := p
        simp only [hwc, Option.some.injEq, Prod.mk.injEq] at h
        obtain ⟨h1, -⟩ := h
        rw [← h1, matchWarnRm]
        simp [warnRmCore_self hwc]
    · rw [if_neg hc] at h
      obtain ⟨tail, htl⟩ := warnRmCore_head h
      rw [htl, matchWarnRm, if_neg (by decide), ← htl]
      exact warnRmCore_self h

theorem uiRmAfterNl_structure {s1 mt r : List Char} (h : uiRmAfterNl s1 = some (mt, r)) :
    ∃ lws core tw, AllSpace lws ∧ AllSpace tw ∧ mt = lws ++ core ++ tw ∧
      matchStmtCore uiTok (core ++ tw) = some (core, tw) := by
  unfold uiRmAfterNl at h
  cases hsc : matchStmtCore uiTok (s1.dropWhile isSpaceJS) with
  | none => simp only [hsc] at h; exact Option.noConfusion h
  | some p =>
    obtain ⟨core, r0⟩ := p
    simp only [hsc, Option.some.injEq, Prod.mk.injEq] at h
    obtain ⟨h1, -⟩ := h
    obtain ⟨ws, q1, val, q2, hws, hq1, hval, hq2, hcore, -⟩ := matchStmtCore_shape hsc
    refine ⟨s1.takeWhile isSpaceJS, core, r0.takeWhile isSpaceJS,
      fun c hc => List.mem_takeWhile_imp hc, fun c hc => List.mem_takeWhile_imp hc,
      h1.symm, ?_⟩
    rw [hcore]
    have := @matchStmtCore_compute uiTok ws val (r0.takeWhile isSpaceJS) q1 q2
      hws.1 hws.2 hq1 hq2 hval
    simpa [List.append_assoc] using this

theorem matchUiRm_self {s mt r : List Char} (h : matchUiRm s = some (mt, r)) :
    matchUiRm mt = some (mt, []) := by
  cases s with
  | nil => rw [matchUiRm] at h; exact Option.noConfusion h
  | cons c s1 =>
    rw [matchUiRm] at h
    by_cases hc : c = '\n'
    · subst hc
      rw [if_pos rfl] at h
      cases hwc : uiRmAfterNl s1 with
      | none => simp only [hwc] at h; exact Option.noConfusion h
      | some p =>
        obtain ⟨mt0, r0⟩ := p
        simp only [hwc, Option.some.injEq, Prod.mk.injEq] at h
        obtain ⟨h1, -⟩ := h
        obtain ⟨lws, core, tw, hlws, htw, hmt0, hsc⟩ := uiRmAfterNl_structure hwc
        have hcomp := @matchUiRm_compute ('\n' :: lws) (core ++ tw) core tw
          (by intro x hx
              rcases List.mem_cons.mp hx with hx | hx
              · subst hx; decide
              · exact hlws x hx) hsc
        have htwa := takeWhile_all (p := isSpaceJS) (l := tw) htw
        rw [← h1, hmt0]
        simpa [htwa.1, htwa.2, List.append_assoc] using hcomp
    · rw [if_neg hc] at h
      obtain ⟨lws, core, tw, hlws, htw, hmt, hsc⟩ := uiRmAfterNl_structure h
      have hcomp := @matchUiRm_compute lws (core ++ tw) core tw hlws hsc
      have htwa := takeWhile_all (p := isSpaceJS) (l := tw) htw
      rw [hmt]
      simpa [htwa.1, htwa.2, List.append_assoc] using hcomp

/-! The frame property: the patcher only rewrites pattern-matched
segments, except for the trimEnd of the append branch. -/

theorem spliceEdits_append_left {a b c : List Char} (h : SpliceEdits b c) :
    SpliceEdits (a ++ b) (a ++ c) := by
  induction h with
  | refl s => exact SpliceEdits.refl _
  | splice pre mt post repl hk =>
    have := SpliceEdits.splice (a ++ pre) mt post repl hk
    simpa [List.append_assoc] using this
  | step h1 h2 ih1 ih2 => exact SpliceEdits.step ih1 ih2

theorem matchGame_gta5_known : ∀ s mt r, matchGame gta5Lit s = some (mt, r) → MatchesKnown mt :=
  fun _ _ _ h => Or.inl (matchGame_self h)

theorem matchGame_rdr3_known : ∀ s mt r, matchGame rdr3Lit s = some (mt, r) → MatchesKnown mt :=
  fun _ _ _ h => Or.inr (Or.inl (matchGame_self h))

theorem matchWarnRm_known : ∀ s mt r, matchWarnRm s = some (mt, r) → MatchesKnown mt :=
  fun _ _ _ h => Or.inr (Or.inr (Or.inl (matchWarnRm_self h)))

theorem matchUiRm_known : ∀ s mt r, matchUiRm s = some (mt, r) → MatchesKnown mt :=
  fun _ _ _ h => Or.inr (Or.inr (Or.inr (Or.inl (matchUiRm_self h))))

theorem matchUiPage_known :
    ∀ s mt r, matchStmtCore uiTok s = some (mt, r) → MatchesKnown mt :=
  fun _ _ _ h => Or.inr (Or.inr (Or.inr (Or.inr (matchStmtCore_self h))))

theorem spliceEdits_replaceFirstWith {m : List Char → Option (List Char × List Char)}
    {f : List Char → List Char}
    (hself : ∀ s mt r, m s = some (mt, r) → MatchesKnown mt)
    (hv : ∀ s mt r, m s = some (mt, r) → s = mt ++ r)
    (s : List Char) : SpliceEdits s (replaceFirstWith m f s) := by
  cases hfs : findSplit m s with
  | none =>
    unfold replaceFirstWith
    rw [hfs]
    exact SpliceEdits.refl s
  | some t =>
    obtain ⟨p, mt, r⟩ := t
    unfold replaceFirstWith
    rw [hfs]
    obtain ⟨hs, hm⟩ := findSplit_sound hv hfs
    have hk := hself _ _ _ hm
    have := SpliceEdits.splice p mt r (f mt) hk
    rw [hs]
    simpa [List.append_assoc] using this

theorem spliceEdits_replaceAll {m : List Char → Option (List Char × List Char)}
    {repl : List Char}
    (hself : ∀ s mt r, m s = some (mt, r) → MatchesKnown mt)
    (hv : ∀ s mt r, m s = some (mt, r) → s = mt ++ r)
    (s : List Char) : SpliceEdits s (replaceAll m repl s) := by
  suffices hgen : ∀ n s, s.length = n → SpliceEdits s (replaceAll m repl s) from
    hgen s.length s rfl
  intro n
  induction n using Nat.strong_induction_on with
  | _ n ih =>
    intro s hn
    cases s with
    | nil => exact SpliceEdits.refl _
    | cons c cs =>
      subst hn
      cases hm : m (c :: cs) with
      | none =>
        rw [replaceAll_skip hm]
        have hrec := ih cs.length (by simp) cs rfl
        have := spliceEdits_append_left (a := [c]) hrec
        simpa using this
      | some p =>
        obtain ⟨mt, r⟩ := p
        have hb := hv _ _ _ hm
        by_cases hlen : r.length ≤ cs.length
        · rw [replaceAll_step hm hlen]
          have hk := hself _ _ _ hm
          have step1 : SpliceEdits (c :: cs) (repl ++ r) := by
            have := SpliceEdits.splice [] mt r repl hk
            rw [hb]
            simpa using this
          have hrec := ih r.length (by simp; omega) r rfl
          have step2 : SpliceEdits (repl ++ r) (repl ++ replaceAll m repl r) :=
            spliceEdits_append_left hrec
          exact SpliceEdits.step step1 step2
        · rw [replaceAll_step_neg hm hlen]
          have hrec := ih cs.length (by simp) cs rfl
          have := spliceEdits_append_left (a := [c]) hrec
          simpa using this

theorem platformStage_splice (IS_REDM : Bool) (contents : List Char) :
    SpliceEdits contents (platformStage IS_REDM contents) := by
  unfold platformStage
  cases IS_REDM with
  | false =>
    simp only [Bool.false_eq_true, if_false]
    exact SpliceEdits.step
      (spliceEdits_replaceFirstWith matchGame_rdr3_known matchGame_valid contents)
      (spliceEdits_replaceAll matchWarnRm_known matchWarnRm_valid _)
  | true =>
    simp only [if_true]
    by_cases hinc :
        jsIncludes (replaceFirstWith (matchGame gta5Lit) (fun _ => gameRdr3Repl) contents) warnTok
    · rw [if_pos hinc]
      exact spliceEdits_replaceFirstWith matchGame_gta5_known matchGame_valid contents
    · rw [if_neg hinc]
      exact SpliceEdits.step
        (spliceEdits_replaceFirstWith matchGame_gta5_known matchGame_valid contents)
        (spliceEdits_replaceFirstWith matchGame_rdr3_known matchGame_valid _)

/-- C7 (amended): every run of the patcher only replaces segments that
exactly match one of the known statement patterns, leaving all other
text byte-for-byte unchanged, except that the ui_page append branch
additionally trims trailing whitespace and appends new text after the
spliced document. -/
theorem updateFxManifest_frame (IS_REDM IS_WATCH HAS_WEB_DIR : Bool)
    (SERVER_IP : List Char) (webDevPort : Nat) (contents : List Char) :
    ∃ u, SpliceEdits contents u ∧
      (updateFxManifest IS_REDM IS_WATCH HAS_WEB_DIR SERVER_IP webDevPort contents = u ∨
       ∃ d, updateFxManifest IS_REDM IS_WATCH HAS_WEB_DIR SERVER_IP webDevPort contents =
         trimEnd u ++ '\n' :: '\n' :: (d ++ ['\n'])) := by
  have h12 := platformStage_splice IS_REDM contents
  unfold updateFxManifest uiStage
  cases HAS_WEB_DIR with
  | false =>
    refine ⟨replaceAll matchUiRm ['\n'] (platformStage IS_REDM contents),
      SpliceEdits.step h12 (spliceEdits_replaceAll matchUiRm_known matchUiRm_valid _),
      Or.inl ?_⟩
    simp
  | true =>
    cases hfs : findSplit (matchStmtCore uiTok) (platformStage IS_REDM contents) with
    | some t =>
      refine ⟨replaceFirstWith (matchStmtCore uiTok)
          (fun _ => desiredUiPageOf IS_WATCH SERVER_IP webDevPort)
          (platformStage IS_REDM contents),
        SpliceEdits.step h12
          (spliceEdits_replaceFirstWith matchUiPage_known matchStmtCore_valid _),
        Or.inl ?_⟩
      simp [hfs]
    | none =>
      refine ⟨platformStage IS_REDM contents, h12,
        Or.inr ⟨desiredUiPageOf IS_WATCH SERVER_IP webDevPort, ?_⟩⟩
      simp [hfs]

/-- C7 counterexample: on the manifest consisting of the text x followed
by three spaces — in which no known statement pattern matches anywhere,
so the whole text is unmatched — patching with a web directory present
and watch mode off produces output in which that unmatched text does not
appear byte-for-byte: its trailing whitespace was trimmed by the append
branch. -/
theorem frame_trimEnd_counterexample :
    findSplit (matchGame gta5Lit) (str "x   ") = none ∧
    findSplit (matchGame rdr3Lit) (str "x   ") = none ∧
    findSplit matchWarnRm (str "x   ") = none ∧
    findSplit matchUiRm (str "x   ") = none ∧
    findSplit (matchStmtCore uiTok) (str "x   ") = none ∧
    jsIncludes (updateFxManifest false false true [] 5173 (str "x   ")) (str "x   ") = false := by
  decide

/-! Composition toolkit: token-freedom of composite texts and
matcher-failure everywhere in token-free regions. -/

theorem not_includes_of_class {t tok : List Char} {p : Char → Bool}
    (hall : ∀ c ∈ t, p c = true) (htok : ∃ c ∈ tok, p c = false) :
    jsIncludes t tok = false := by
  by_contra h
  rw [Bool.not_eq_false] at h
  obtain ⟨pre, q, hpq⟩ := jsIncludes_iff.mp h
  obtain ⟨c, hc, hcp⟩ := htok
  have hmem : c ∈ t := by rw [hpq]; simp [hc]
  rw [hall c hmem] at hcp
  exact Bool.true_eq_false ▸ hcp

theorem not_includes_short {t tok : List Char} (h : t.length < tok.length) :
    jsIncludes t tok = false := by
  by_contra hh
  rw [Bool.not_eq_false] at hh
  obtain ⟨p, q, hpq⟩ := jsIncludes_iff.mp hh
  have := congrArg List.length hpq
  simp only [List.length_append] at this
  omega

theorem not_includes_suffix {x y tok : List Char}
    (h : jsIncludes (x ++ y) tok = false) : jsIncludes y tok = false := by
  by_contra hh
  rw [Bool.not_eq_false] at hh
  rw [jsIncludes_append_right hh] at h
  exact Bool.true_eq_false ▸ h

theorem not_includes_prefix {x y tok : List Char}
    (h : jsIncludes (x ++ y) tok = false) : jsIncludes x tok = false := by
  by_contra hh
  rw [Bool.not_eq_false] at hh
  rw [jsIncludes_append_left hh] at h
  exact Bool.true_eq_false ▸ h

theorem no_straddle_head {tok X : List Char} {t1 t2 : List Char}
    (htok : tok = t1 ++ t2) (h2 : t2 ≠ []) (hpre : t2 <+: X)
    (hX : ∀ x xs, X = x :: xs → isSpaceJS x = true ∨ isQuoteC x = true)
    (hchars : ∀ x ∈ tok, isSpaceJS x = false ∧ isQuoteC x = false) : False := by
  cases ht2 : t2 with
  | nil => exact h2 ht2
  | cons a t2s =>
    obtain ⟨u, hu⟩ := hpre
    rw [ht2] at hu
    cases hXc : X with
    | nil => rw [hXc] at hu; exact List.noConfusion hu
    | cons x xs =>
      rw [hXc] at hu
      simp only [List.cons_append] at hu
      injection hu with h1 _
      have hmem : a ∈ tok := by rw [htok, ht2]; simp
      have := hchars a hmem
      rcases hX x xs hXc with hx | hx <;> rw [← h1] at hx
      · rw [this.1] at hx; exact Bool.false_ne_true hx
      · rw [this.2] at hx; exact Bool.false_ne_true hx

theorem not_includes_append_h {a b tok : List Char}
    (hchars : ∀ x ∈ tok, isSpaceJS x = false ∧ isQuoteC x = false)
    (hj : sepEndB a = true ∨ ∀ x xs, b = x :: xs → isSpaceJS x = true ∨ isQuoteC x = true)
    (ha : jsIncludes a tok = false) (hb : jsIncludes b tok = false) :
    jsIncludes (a ++ b) tok = false := by
  by_contra h
  rw [Bool.not_eq_false] at h
  obtain ⟨p, q, hpq⟩ := jsIncludes_iff.mp h
  have hocc : tok <+: (a ++ b).drop p.length := by
    rw [hpq, List.drop_left]
    exact List.prefix_append _ _
  by_cases hcase : p.length < a.length
  · rcases occ_drop_split hcase hocc with ⟨-, hin⟩ | ⟨-, t1, t2, htok, h1, h2, hsuf, hpre⟩
    · have := includes_of_prefix_drop hin
      rw [this] at ha
      exact Bool.true_eq_false ▸ ha
    · rcases hj with hsep | hhead
      · exact no_straddle_sepEnd hsep hchars h1 hsuf ⟨t2, htok⟩
      · exact no_straddle_head htok h2 hpre hhead hchars
  · have hsplit : (a ++ b).drop p.length = b.drop (p.length - a.length) := by
      have he : p.length = a.length + (p.length - a.length) := by omega
      rw [he]
      simp [List.drop_append]
    rw [hsplit] at hocc
    have := includes_of_prefix_drop hocc
    rw [this] at hb
    exact Bool.true_eq_false ▸ hb

theorem sepEndB_of_all_space {l : List Char} (h : AllSpace l) : sepEndB l = true := by
  unfold sepEndB
  cases hl : l.getLast? with
  | none => rfl
  | some c =>
    have hmem : c ∈ l := List.mem_of_mem_getLast? (by rw [hl]; rfl)
    simp [h c hmem]

theorem sepEndB_concat_quote {l : List Char} {q : Char} (hq : isQuoteC q = true) :
    sepEndB (l ++ [q]) = true := by
  unfold sepEndB
  rw [List.getLast?_append_of_ne_nil l (by simp)]
  simp [hq]

theorem sepEndB_append {a b : List Char} (hb : b ≠ []) (h : sepEndB b = true) :
    sepEndB (a ++ b) = true := by
  unfold sepEndB at h ⊢
  rw [List.getLast?_append_of_ne_nil a hb]
  exact h

theorem renderGame_eq_renderStmt (q1 q2 : Char) (ws lit : List Char) :
    renderGame q1 q2 ws lit = renderStmt gameTok q1 q2 ws lit := rfl

theorem renderStmt_eq_concat (tok' : List Char) (q1 q2 : Char) (ws val : List Char) :
    renderStmt tok' q1 q2 ws val = (tok' ++ ws ++ q1 :: val) ++ [q2] := by
  unfold renderStmt
  simp

theorem sepEndB_renderStmt {tok' ws val : List Char} {q1 q2 : Char}
    (hq2 : isQuoteC q2 = true) :
    sepEndB (renderStmt tok' q1 q2 ws val) = true := by
  rw [renderStmt_eq_concat]
  exact sepEndB_concat_quote hq2

theorem renderStmt_not_includes {tok' : List Char} {q1 q2 : Char} {ws val tok : List Char}
    (hchars : ∀ x ∈ tok, isSpaceJS x = false ∧ isQuoteC x = false)
    (h2 : 2 ≤ tok.length) (hws : AllSpace ws)
    (hq1 : isQuoteC q1 = true) (hq2 : isQuoteC q2 = true)
    (htok' : jsIncludes tok' tok = false) (hval : jsIncludes val tok = false) :
    jsIncludes (renderStmt tok' q1 q2 ws val) tok = false := by
  have htokne : tok ≠ [] := by
    intro h; rw [h] at h2; simp at h2
  have hnonspace : ∃ c ∈ tok, isSpaceJS c = false := by
    cases htc : tok with
    | nil => exact absurd htc htokne
    | cons c cs => exact ⟨c, by simp, (hchars c (by simp [htc])).1⟩
  have hq2b : jsIncludes (val ++ [q2]) tok = false := by
    refine not_includes_append_h hchars (Or.inr ?_) hval
      (not_includes_short (by simp only [List.length_cons, List.length_nil]; omega))
    intro x xs hx
    injection hx with h1 _
    rw [← h1]
    exact Or.inr hq2
  have hq1b : jsIncludes (q1 :: (val ++ [q2])) tok = false := by
    have : q1 :: (val ++ [q2]) = [q1] ++ (val ++ [q2]) := rfl
    rw [this]
    refine not_includes_append_h hchars (Or.inl ?_)
      (not_includes_short (by simp only [List.length_cons, List.length_nil]; omega)) hq2b
    unfold sepEndB
    simp [hq1]
  have hwsb : jsIncludes (ws ++ q1 :: (val ++ [q2])) tok = false := by
    refine not_includes_append_h hchars (Or.inr ?_) (not_includes_of_class hws hnonspace) hq1b
    intro x xs hx
    injection hx with h1 _
    rw [← h1]
    exact Or.inr hq1
  unfold renderStmt
  rw [List.append_assoc]
  refine not_includes_append_h hchars (Or.inr ?_) htok' hwsb
  intro x xs hx
  cases hwsc : ws with
  | nil =>
    rw [hwsc] at hx
    simp only [List.nil_append] at hx
    injection hx with h1 _
    rw [← h1]
    exact Or.inr hq1
  | cons w wrest =>
    rw [hwsc] at hx
    simp only [List.cons_append] at hx
    injection hx with h1 _
    rw [← h1]
    exact Or.inl (hws w (by simp [hwsc]))

theorem noGame_of_not_includes {lit t : List Char} (h : jsIncludes t gameTok = false) :
    ∀ i, matchGame lit (t.drop i) = none :=
  fun i => matchGame_eq_none (no_occ_of_not_includes h i)

theorem noStmtCore_of_not_includes {tok t : List Char} (h : jsIncludes t tok = false) :
    ∀ i, matchStmtCore tok (t.drop i) = none :=
  fun i => matchStmtCore_eq_none (no_occ_of_not_includes h i)

theorem noWarnRm_of_not_includes {t : List Char} (h : jsIncludes t warnTok = false) :
    ∀ i, matchWarnRm (t.drop i) = none := by
  intro i
  apply matchWarnRm_eq_none
  · exact no_occ_of_not_includes h i
  · intro s1 hs1 hp
    have hdrop : t.drop (i + 1) = s1 := by
      have h3 := congrArg (List.drop 1) hs1
      rw [List.drop_drop] at h3
      simpa [Nat.add_comm] using h3
    rw [← hdrop] at hp
    exact no_occ_of_not_includes h (i + 1) hp

theorem noUiRm_of_not_includes {t : List Char} (h : jsIncludes t uiTok = false) :
    ∀ i, matchUiRm (t.drop i) = none := by
  intro i
  apply matchUiRm_eq_none
  intro w rest heq hsp hp
  have h3 := congrArg (List.drop w.length) heq
  rw [List.drop_drop, List.drop_left] at h3
  exact no_occ_of_not_includes h _ (h3.symm ▸ hp)

theorem no_occ_after_token_start {tok TAIL : List Char}
    (hno : ∀ j, j < tok.length → 0 < j → (tok.drop j).isPrefixOf tok = false)
    (hTAIL : jsIncludes TAIL tok = false) :
    ∀ j, 0 < j → ¬ tok <+: (tok ++ TAIL).drop j := by
  intro j hj hp
  by_cases hjl : j < tok.length
  · rw [List.drop_append_of_le_length (by omega)] at hp
    have hd : tok.drop j <+: tok :=
      List.prefix_of_prefix_length_le (List.prefix_append _ _) hp
        (by simp only [List.length_drop]; omega)
    have := hno j hjl hj
    rw [List.isPrefixOf_iff_prefix.mpr hd] at this
    exact Bool.true_eq_false ▸ this
  · have he : (tok ++ TAIL).drop j = TAIL.drop (j - tok.length) := by
      have : j = tok.length + (j - tok.length) := by omega
      rw [this]
      simp [List.drop_append]
    rw [he] at hp
    exact no_occ_of_not_includes hTAIL _ hp

theorem drop_sub_of_ge {a b : List Char} {i : Nat} (hi : a.length ≤ i) :
    (a ++ b).drop i = b.drop (i - a.length) := by
  have : i = a.length + (i - a.length) := by omega
  rw [this]
  simp [List.drop_append]

theorem noMatchGame_single_decl {lit A TAIL : List Char}
    (hA : jsIncludes A gameTok = false)
    (hTAIL : jsIncludes TAIL gameTok = false)
    (hfail : matchGame lit (gameTok ++ TAIL) = none) :
    ∀ i, matchGame lit ((A ++ (gameTok ++ TAIL)).drop i) = none := by
  intro i
  by_cases hi : i < A.length
  · exact matchGame_eq_none
      (no_occ_before_self hA gameTok_no_self_overlap i hi)
  · rw [drop_sub_of_ge (by omega)]
    cases hj : i - A.length with
    | zero => simpa using hfail
    | succ j =>
      exact matchGame_eq_none
        (no_occ_after_token_start gameTok_no_self_overlap hTAIL (j + 1) (by omega))

theorem matchGame_lit_mismatch {lita : List Char} {q1 q2 : Char} {ws litb R : List Char}
    {ca cb : Char} {resta restb : List Char}
    (hla : lita = ca :: resta) (hlb : litb = cb :: restb) (hne : cb ≠ ca)
    (hws : ws ≠ []) (hwsSp : AllSpace ws) (hq1 : isQuoteC q1 = true) :
    matchGame lita (gameTok ++ (ws ++ q1 :: (litb ++ q2 :: R))) = none := by
  have hcl : consumeLit gameTok (gameTok ++ (ws ++ q1 :: (litb ++ q2 :: R))) =
      some (ws ++ q1 :: (litb ++ q2 :: R)) := consumeLit_eq_some.mpr rfl
  have hspan := span_concat (p := isSpaceJS) (a := ws) (b := q1 :: (litb ++ q2 :: R)) hwsSp
    (by intro x xs hx; injection hx with h1 _; subst h1; exact quote_not_space hq1)
  have hwse : ws.isEmpty = false := by
    cases ws with
    | nil => exact absurd rfl hws
    | cons a as => rfl
  have hmm : consumeLit lita (litb ++ q2 :: R) = none := by
    rw [hla, hlb]
    simp only [List.cons_append]
    unfold consumeLit
    simp [hne]
  simp [matchGame, hcl, hspan.1, hspan.2, hwse, hq1, hmm]

theorem dropWhile_append_of_head {p : Char → Bool} {B X : List Char}
    (hX : ∀ x xs, X = x :: xs → p x = false) :
    (B ++ X).dropWhile p = B.dropWhile p ++ X := by
  induction B with
  | nil =>
    cases hXc : X with
    | nil => simp
    | cons x xs =>
      simp only [List.nil_append, List.dropWhile_nil]
      rw [List.dropWhile_cons, if_neg (by rw [hX x xs hXc]; simp)]
  | cons b bs ih =>
    simp only [List.cons_append]
    rw [List.dropWhile_cons, List.dropWhile_cons]
    by_cases hb : p b = true
    · rw [if_pos hb, if_pos hb]
      exact ih
    · rw [if_neg hb, if_neg hb]
      simp

theorem takeWhile_append_of_head {p : Char → Bool} {B X : List Char}
    (hX : ∀ x xs, X = x :: xs → p x = false) :
    (B ++ X).takeWhile p = B.takeWhile p := by
  induction B with
  | nil =>
    cases hXc : X with
    | nil => simp
    | cons x xs =>
      simp only [List.nil_append, List.takeWhile_nil]
      rw [List.takeWhile_cons, if_neg (by rw [hX x xs hXc]; simp)]
  | cons b bs ih =>
    simp only [List.cons_append]
    rw [List.takeWhile_cons, List.takeWhile_cons]
    by_cases hb : p b = true
    · rw [if_pos hb, if_pos hb, ih]
    · rw [if_neg hb, if_neg hb]

/-! Facts about rendered declarations. -/

theorem renderGame_split (q1 q2 : Char) (ws lit R : List Char) :
    renderGame q1 q2 ws lit ++ R = gameTok ++ (ws ++ q1 :: (lit ++ q2 :: R)) := by
  unfold renderGame
  simp

theorem renderStmt_split (tok' : List Char) (q1 q2 : Char) (ws val R : List Char) :
    renderStmt tok' q1 q2 ws val ++ R = tok' ++ (ws ++ q1 :: (val ++ q2 :: R)) := by
  unfold renderStmt
  simp

theorem renderStmt_ne_nil (tok' : List Char) (q1 q2 : Char) (ws val : List Char) :
    renderStmt tok' q1 q2 ws val ≠ [] := by
  rw [renderStmt_eq_concat]
  simp

theorem gameTail_no_tok {q1 q2 : Char} {ws lit REST tok : List Char}
    (hchars : ∀ x ∈ tok, isSpaceJS x = false ∧ isQuoteC x = false)
    (h2 : 2 ≤ tok.length) (hws : AllSpace ws)
    (hq1 : isQuoteC q1 = true) (hq2 : isQuoteC q2 = true)
    (hlit : jsIncludes lit tok = false) (hREST : jsIncludes REST tok = false) :
    jsIncludes (ws ++ q1 :: (lit ++ q2 :: REST)) tok = false := by
  have htokne : tok ≠ [] := by
    intro h; rw [h] at h2; simp at h2
  have hnonspace : ∃ c ∈ tok, isSpaceJS c = false := by
    cases htc : tok with
    | nil => exact absurd htc htokne
    | cons c cs => exact ⟨c, by simp, (hchars c (by simp [htc])).1⟩
  have hq2b : jsIncludes (q2 :: REST) tok = false := by
    have he : q2 :: REST = [q2] ++ REST := rfl
    rw [he]
    refine not_includes_append_h hchars (Or.inl ?_)
      (not_includes_short (by simp only [List.length_cons, List.length_nil]; omega)) hREST
    unfold sepEndB
    simp [hq2]
  have hlitb : jsIncludes (lit ++ q2 :: REST) tok = false := by
    refine not_includes_append_h hchars (Or.inr ?_) hlit hq2b
    intro x xs hx
    injection hx with h1 _
    rw [← h1]
    exact Or.inr hq2
  have hq1b : jsIncludes (q1 :: (lit ++ q2 :: REST)) tok = false := by
    have he : q1 :: (lit ++ q2 :: REST) = [q1] ++ (lit ++ q2 :: REST) := rfl
    rw [he]
    refine not_includes_append_h hchars (Or.inl ?_)
      (not_includes_short (by simp only [List.length_cons, List.length_nil]; omega)) hlitb
    unfold sepEndB
    simp [hq1]
  refine not_includes_append_h hchars (Or.inr ?_)
    (not_includes_of_class hws hnonspace) hq1b
  intro x xs hx
  injection hx with h1 _
  rw [← h1]
  exact Or.inr hq1

theorem renderUi_no_game {U : UiShape} (hU : WfUi U) :
    jsIncludes (renderUi U) gameTok = false := by
  cases U with
  | absent => decide
  | decl q1 q2 ws val =>
    obtain ⟨hq1, hq2, hws, hvq, hvt⟩ := hU
    exact renderStmt_not_includes gameTok_chars (by decide) hws.2 hq1 hq2 (by decide) hvt.1

theorem renderUi_no_warn {U : UiShape} (hU : WfUi U) :
    jsIncludes (renderUi U) warnTok = false := by
  cases U with
  | absent => decide
  | decl q1 q2 ws val =>
    obtain ⟨hq1, hq2, hws, hvq, hvt⟩ := hU
    exact renderStmt_not_includes warnTok_chars (by decide) hws.2 hq1 hq2 (by decide) hvt.2.1

theorem sepEndB_renderUi {U : UiShape} (hU : WfUi U) (hne : U ≠ UiShape.absent) :
    sepEndB (renderUi U) = true := by
  cases U with
  | absent => exact absurd rfl hne
  | decl q1 q2 ws val =>
    obtain ⟨hq1, hq2, hws, hvq, hvt⟩ := hU
    exact sepEndB_renderStmt hq2

theorem REST_no_tok {B C : List Char} {U : UiShape} {tok : List Char}
    (hchars : ∀ x ∈ tok, isSpaceJS x = false ∧ isQuoteC x = false)
    (hB : jsIncludes B tok = false) (hC : jsIncludes C tok = false)
    (hU : jsIncludes (renderUi U) tok = false)
    (hsepB : sepEndB B = true) (hUwf : WfUi U) :
    jsIncludes (B ++ (renderUi U ++ C)) tok = false := by
  have hUC : jsIncludes (renderUi U ++ C) tok = false := by
    cases U with
    | absent => simpa using hC
    | decl q1 q2 ws val =>
      refine not_includes_append_h hchars (Or.inl ?_) hU hC
      exact sepEndB_renderStmt hUwf.2.1
  exact not_includes_append_h hchars (Or.inl hsepB) hB hUC

/-! Evaluation of the platform stage on the manifest grammar. -/

theorem platformStage_true (c : List Char) :
    platformStage true c =
      (if jsIncludes (replaceFirstWith (matchGame gta5Lit) (fun _ => gameRdr3Repl) c) warnTok
       then replaceFirstWith (matchGame gta5Lit) (fun _ => gameRdr3Repl) c
       else replaceFirstWith (matchGame rdr3Lit) (fun mt => mt ++ '\n' :: rdr3WarningLine)
         (replaceFirstWith (matchGame gta5Lit) (fun _ => gameRdr3Repl) c)) := rfl

theorem platformStage_false (c : List Char) :
    platformStage false c =
      replaceAll matchWarnRm ['\n']
        (replaceFirstWith (matchGame rdr3Lit) (fun _ => gameGta5Repl) c) := rfl

theorem gameRdr3Repl_split (R : List Char) :
    gameRdr3Repl ++ R = gameTok ++ ([' '] ++ sqc :: (rdr3Lit ++ sqc :: R)) := by
  have h : gameRdr3Repl = gameTok ++ ([' '] ++ sqc :: (rdr3Lit ++ [sqc])) := by decide
  rw [h]
  simp

theorem gameGta5Repl_split (R : List Char) :
    gameGta5Repl ++ R = gameTok ++ ([' '] ++ sqc :: (gta5Lit ++ sqc :: R)) := by
  have h : gameGta5Repl = gameTok ++ ([' '] ++ sqc :: (gta5Lit ++ [sqc])) := by decide
  rw [h]
  simp

theorem noWarnRm_before {a rest : List Char}
    (hnotin : jsIncludes a warnTok = false) :
    ∀ i, i + 1 < a.length → matchWarnRm ((a ++ (warnTok ++ rest)).drop i) = none := by
  intro i hi
  have hocc := @no_occ_before_self a rest warnTok hnotin warnTok_no_self_overlap
  apply matchWarnRm_eq_none
  · exact hocc i (by omega)
  · intro s1 hs1 hp
    have h3 := congrArg (List.drop 1) hs1
    rw [List.drop_drop] at h3
    simp only [List.drop_one, List.tail_cons] at h3
    rw [← h3] at hp
    exact hocc (i + 1) (by omega) (by simpa [Nat.add_comm] using hp)

theorem platformStage_redm_gta5 {A REST : List Char} {q1 q2 : Char} {ws : List Char}
    (hAg : jsIncludes A gameTok = false) (hAw : jsIncludes A warnTok = false)
    (hsepA : sepEndB A = true)
    (hRw : jsIncludes REST warnTok = false)
    (hq1 : isQuoteC q1 = true) (hq2 : isQuoteC q2 = true) (hws : WfWs ws) :
    platformStage true (A ++ (renderGame q1 q2 ws gta5Lit ++ REST)) =
      A ++ ((gameRdr3Repl ++ '\n' :: rdr3WarningLine) ++ REST) := by
  obtain ⟨hws1, hws2⟩ := hws
  have hfs1 : findSplit (matchGame gta5Lit) (A ++ (renderGame q1 q2 ws gta5Lit ++ REST)) =
      some (A, renderGame q1 q2 ws gta5Lit, REST) := by
    rw [renderGame_split]
    exact findSplit_at (fun i hi => matchGame_eq_none
      (no_occ_before_self hAg gameTok_no_self_overlap i hi))
      (matchGame_compute hws1 hws2 hq1 hq2)
  have hu1 : replaceFirstWith (matchGame gta5Lit) (fun _ => gameRdr3Repl)
      (A ++ (renderGame q1 q2 ws gta5Lit ++ REST)) = A ++ (gameRdr3Repl ++ REST) := by
    unfold replaceFirstWith
    rw [hfs1]
    simp
  have hnw : jsIncludes (A ++ (gameRdr3Repl ++ REST)) warnTok = false :=
    not_includes_append_h warnTok_chars (Or.inl hsepA) hAw
      (not_includes_append_h warnTok_chars (Or.inl (by decide)) (by decide) hRw)
  have hm2 : matchGame rdr3Lit (gameTok ++ ([' '] ++ sqc :: (rdr3Lit ++ sqc :: REST))) =
      some (gameTok ++ [' '] ++ sqc :: (rdr3Lit ++ [sqc]), REST) :=
    @matchGame_compute rdr3Lit [' '] REST sqc sqc (by simp)
      (by intro c hc; simp at hc; subst hc; decide) (by decide) (by decide)
  have hfs2 : findSplit (matchGame rdr3Lit) (A ++ (gameRdr3Repl ++ REST)) =
      some (A, gameRdr3Repl, REST) := by
    rw [gameRdr3Repl_split]
    refine findSplit_at (fun i hi => matchGame_eq_none
      (no_occ_before_self hAg gameTok_no_self_overlap i hi)) ?_
    rw [hm2]
    have he : gameTok ++ [' '] ++ sqc :: (rdr3Lit ++ [sqc]) = gameRdr3Repl := by decide
    rw [he]
  rw [platformStage_true, hu1, hnw]
  simp only [Bool.false_eq_true, if_false]
  unfold replaceFirstWith
  rw [hfs2]
  simp

theorem platformStage_redm_rdr3 {A REST : List Char} {q1 q2 : Char} {ws : List Char}
    (hAg : jsIncludes A gameTok = false) (hAw : jsIncludes A warnTok = false)
    (hsepA : sepEndB A = true)
    (hRg : jsIncludes REST gameTok = false) (hRw : jsIncludes REST warnTok = false)
    (hq1 : isQuoteC q1 = true) (hq2 : isQuoteC q2 = true) (hws : WfWs ws) :
    platformStage true (A ++ (renderGame q1 q2 ws rdr3Lit ++ REST)) =
      A ++ ((renderGame q1 q2 ws rdr3Lit ++ '\n' :: rdr3WarningLine) ++ REST) := by
  obtain ⟨hws1, hws2⟩ := hws
  have hTAILg : jsIncludes (ws ++ q1 :: (rdr3Lit ++ q2 :: REST)) gameTok = false :=
    gameTail_no_tok gameTok_chars (by decide) hws2 hq1 hq2 (by decide) hRg
  have hfail : matchGame gta5Lit (gameTok ++ (ws ++ q1 :: (rdr3Lit ++ q2 :: REST))) = none :=
    matchGame_lit_mismatch rfl rfl (by decide) hws1 hws2 hq1
  have hu1 : replaceFirstWith (matchGame gta5Lit) (fun _ => gameRdr3Repl)
      (A ++ (renderGame q1 q2 ws rdr3Lit ++ REST)) =
      A ++ (renderGame q1 q2 ws rdr3Lit ++ REST) := by
    unfold replaceFirstWith
    rw [renderGame_split,
      findSplit_eq_none_iff.mpr (noMatchGame_single_decl hAg hTAILg hfail)]
  have hRGw : jsIncludes (renderGame q1 q2 ws rdr3Lit) warnTok = false := by
    rw [renderGame_eq_renderStmt]
    exact renderStmt_not_includes warnTok_chars (by decide) hws2 hq1 hq2 (by decide) (by decide)
  have hsepRG : sepEndB (renderGame q1 q2 ws rdr3Lit) = true := by
    rw [renderGame_eq_renderStmt]
    exact sepEndB_renderStmt hq2
  have hnw : jsIncludes (A ++ (renderGame q1 q2 ws rdr3Lit ++ REST)) warnTok = false :=
    not_includes_append_h warnTok_chars (Or.inl hsepA) hAw
      (not_includes_append_h warnTok_chars (Or.inl hsepRG) hRGw hRw)
  have hfs2 : findSplit (matchGame rdr3Lit) (A ++ (renderGame q1 q2 ws rdr3Lit ++ REST)) =
      some (A, renderGame q1 q2 ws rdr3Lit, REST) := by
    rw [renderGame_split]
    exact findSplit_at (fun i hi => matchGame_eq_none
      (no_occ_before_self hAg gameTok_no_self_overlap i hi))
      (matchGame_compute hws1 hws2 hq1 hq2)
  rw [platformStage_true, hu1, hnw]
  simp only [Bool.false_eq_true, if_false]
  unfold replaceFirstWith
  rw [hfs2]
  simp

theorem platformStage_redm_rdr3w {A REST : List Char} {q1 q2 q3 q4 : Char}
    {ws wsW val : List Char}
    (hAg : jsIncludes A gameTok = false)
    (hRg : jsIncludes REST gameTok = false)
    (hq1 : isQuoteC q1 = true) (hq2 : isQuoteC q2 = true) (hws : WfWs ws)
    (hq3 : isQuoteC q3 = true) (hq4 : isQuoteC q4 = true) (hwsW : WfWs wsW)
    (hvt : TokenFree val) :
    platformStage true (A ++ (renderGame q1 q2 ws rdr3Lit ++
        ('\n' :: (renderStmt warnTok q3 q4 wsW val ++ REST)))) =
      A ++ (renderGame q1 q2 ws rdr3Lit ++
        ('\n' :: (renderStmt warnTok q3 q4 wsW val ++ REST))) := by
  obtain ⟨hws1, hws2⟩ := hws
  have hWg : jsIncludes (renderStmt warnTok q3 q4 wsW val) gameTok = false :=
    renderStmt_not_includes gameTok_chars (by decide) hwsW.2 hq3 hq4 (by decide) hvt.1
  have hWRg : jsIncludes (renderStmt warnTok q3 q4 wsW val ++ REST) gameTok = false :=
    not_includes_append_h gameTok_chars (Or.inl (sepEndB_renderStmt hq4)) hWg hRg
  have hRpg : jsIncludes ('\n' :: (renderStmt warnTok q3 q4 wsW val ++ REST)) gameTok
      = false := by
    have he : '\n' :: (renderStmt warnTok q3 q4 wsW val ++ REST) =
        ['\n'] ++ (renderStmt warnTok q3 q4 wsW val ++ REST) := rfl
    rw [he]
    exact not_includes_append_h gameTok_chars (Or.inl (by decide)) (by decide) hWRg
  have hTAILg : jsIncludes (ws ++ q1 :: (rdr3Lit ++ q2 ::
      ('\n' :: (renderStmt warnTok q3 q4 wsW val ++ REST)))) gameTok = false :=
    gameTail_no_tok gameTok_chars (by decide) hws2 hq1 hq2 (by decide) hRpg
  have hfail : matchGame gta5Lit (gameTok ++ (ws ++ q1 :: (rdr3Lit ++ q2 ::
      ('\n' :: (renderStmt warnTok q3 q4 wsW val ++ REST))))) = none :=
    matchGame_lit_mismatch rfl rfl (by decide) hws1 hws2 hq1
  have hu1 : replaceFirstWith (matchGame gta5Lit) (fun _ => gameRdr3Repl)
      (A ++ (renderGame q1 q2 ws rdr3Lit ++
        ('\n' :: (renderStmt warnTok q3 q4 wsW val ++ REST)))) =
      A ++ (renderGame q1 q2 ws rdr3Lit ++
        ('\n' :: (renderStmt warnTok q3 q4 wsW val ++ REST))) := by
    unfold replaceFirstWith
    rw [renderGame_split,
      findSplit_eq_none_iff.mpr (noMatchGame_single_decl hAg hTAILg hfail)]
  have heWR : renderStmt warnTok q3 q4 wsW val ++ REST =
      [] ++ (warnTok ++ (wsW ++ q3 :: (val ++ q4 :: REST))) := by
    rw [renderStmt_split]
    simp
  have hWR : jsIncludes (renderStmt warnTok q3 q4 wsW val ++ REST) warnTok = true :=
    jsIncludes_parts heWR
  have hwarn : jsIncludes (A ++ (renderGame q1 q2 ws rdr3Lit ++
      ('\n' :: (renderStmt warnTok q3 q4 wsW val ++ REST)))) warnTok = true := by
    refine jsIncludes_append_right (jsIncludes_append_right ?_)
    have he : '\n' :: (renderStmt warnTok q3 q4 wsW val ++ REST) =
        ['\n'] ++ (renderStmt warnTok q3 q4 wsW val ++ REST) := rfl
    rw [he]
    exact jsIncludes_append_right hWR
  rw [platformStage_true, hu1, hwarn]
  simp

theorem platformStage_redm_nogame {t : List Char}
    (hg : jsIncludes t gameTok = false) :
    platformStage true t = t := by
  have hu1 : replaceFirstWith (matchGame gta5Lit) (fun _ => gameRdr3Repl) t = t := by
    unfold replaceFirstWith
    rw [findSplit_eq_none_iff.mpr (noGame_of_not_includes hg)]
  rw [platformStage_true, hu1]
  by_cases hw : jsIncludes t warnTok = true
  · rw [hw]
    simp
  · rw [Bool.not_eq_true] at hw
    rw [hw]
    simp only [Bool.false_eq_true, if_false]
    unfold replaceFirstWith
    rw [findSplit_eq_none_iff.mpr (noGame_of_not_includes hg)]

theorem platformStage_fivem_nogame {t : List Char}
    (hg : jsIncludes t gameTok = false) (hw : jsIncludes t warnTok = false) :
    platformStage false t = t := by
  rw [platformStage_false]
  have hu1 : replaceFirstWith (matchGame rdr3Lit) (fun _ => gameGta5Repl) t = t := by
    unfold replaceFirstWith
    rw [findSplit_eq_none_iff.mpr (noGame_of_not_includes hg)]
  rw [hu1]
  exact replaceAll_of_none (noWarnRm_of_not_includes hw)

theorem platformStage_fivem_gta5 {A REST : List Char} {q1 q2 : Char} {ws : List Char}
    (hAg : jsIncludes A gameTok = false) (hAw : jsIncludes A warnTok = false)
    (hsepA : sepEndB A = true)
    (hRg : jsIncludes REST gameTok = false) (hRw : jsIncludes REST warnTok = false)
    (hq1 : isQuoteC q1 = true) (hq2 : isQuoteC q2 = true) (hws : WfWs ws) :
    platformStage false (A ++ (renderGame q1 q2 ws gta5Lit ++ REST)) =
      A ++ (renderGame q1 q2 ws gta5Lit ++ REST) := by
  obtain ⟨hws1, hws2⟩ := hws
  have hTAILg : jsIncludes (ws ++ q1 :: (gta5Lit ++ q2 :: REST)) gameTok = false :=
    gameTail_no_tok gameTok_chars (by decide) hws2 hq1 hq2 (by decide) hRg
  have hfail : matchGame rdr3Lit (gameTok ++ (ws ++ q1 :: (gta5Lit ++ q2 :: REST))) = none :=
    matchGame_lit_mismatch rfl rfl (by decide) hws1 hws2 hq1
  have hu1 : replaceFirstWith (matchGame rdr3Lit) (fun _ => gameGta5Repl)
      (A ++ (renderGame q1 q2 ws gta5Lit ++ REST)) =
      A ++ (renderGame q1 q2 ws gta5Lit ++ REST) := by
    unfold replaceFirstWith
    rw [renderGame_split,
      findSplit_eq_none_iff.mpr (noMatchGame_single_decl hAg hTAILg hfail)]
  have hRGw : jsIncludes (renderGame q1 q2 ws gta5Lit) warnTok = false := by
    rw [renderGame_eq_renderStmt]
    exact renderStmt_not_includes warnTok_chars (by decide) hws2 hq1 hq2 (by decide) (by decide)
  have hsepRG : sepEndB (renderGame q1 q2 ws gta5Lit) = true := by
    rw [renderGame_eq_renderStmt]
    exact sepEndB_renderStmt hq2
  have hnw : jsIncludes (A ++ (renderGame q1 q2 ws gta5Lit ++ REST)) warnTok = false :=
    not_includes_append_h warnTok_chars (Or.inl hsepA) hAw
      (not_includes_append_h warnTok_chars (Or.inl hsepRG) hRGw hRw)
  rw [platformStage_false, hu1]
  exact replaceAll_of_none (noWarnRm_of_not_includes hnw)

theorem platformStage_fivem_rdr3 {A REST : List Char} {q1 q2 : Char} {ws : List Char}
    (hAg : jsIncludes A gameTok = false) (hAw : jsIncludes A warnTok = false)
    (hsepA : sepEndB A = true)
    (hRw : jsIncludes REST warnTok = false)
    (hq1 : isQuoteC q1 = true) (hq2 : isQuoteC q2 = true) (hws : WfWs ws) :
    platformStage false (A ++ (renderGame q1 q2 ws rdr3Lit ++ REST)) =
      A ++ (gameGta5Repl ++ REST) := by
  obtain ⟨hws1, hws2⟩ := hws
  have hfs : findSplit (matchGame rdr3Lit) (A ++ (renderGame q1 q2 ws rdr3Lit ++ REST)) =
      some (A, renderGame q1 q2 ws rdr3Lit, REST) := by
    rw [renderGame_split]
    exact findSplit_at (fun i hi => matchGame_eq_none
      (no_occ_before_self hAg gameTok_no_self_overlap i hi))
      (matchGame_compute hws1 hws2 hq1 hq2)
  have hu1 : replaceFirstWith (matchGame rdr3Lit) (fun _ => gameGta5Repl)
      (A ++ (renderGame q1 q2 ws rdr3Lit ++ REST)) = A ++ (gameGta5Repl ++ REST) := by
    unfold replaceFirstWith
    rw [hfs]
    simp
  have hnw : jsIncludes (A ++ (gameGta5Repl ++ REST)) warnTok = false :=
    not_includes_append_h warnTok_chars (Or.inl hsepA) hAw
      (not_includes_append_h warnTok_chars (Or.inl (by decide)) (by decide) hRw)
  rw [platformStage_false, hu1]
  exact replaceAll_of_none (noWarnRm_of_not_includes hnw)

theorem platformStage_fivem_rdr3w {A REST : List Char} {q1 q2 q3 q4 : Char}
    {ws wsW val : List Char}
    (hAg : jsIncludes A gameTok = false) (hAw : jsIncludes A warnTok = false)
    (hsepA : sepEndB A = true)
    (hRw : jsIncludes REST warnTok = false)
    (hq1 : isQuoteC q1 = true) (hq2 : isQuoteC q2 = true) (hws : WfWs ws)
    (hq3 : isQuoteC q3 = true) (hq4 : isQuoteC q4 = true) (hwsW : WfWs wsW)
    (hvq : QuoteFree val) :
    platformStage false (A ++ (renderGame q1 q2 ws rdr3Lit ++
        ('\n' :: (renderStmt warnTok q3 q4 wsW val ++ REST)))) =
      A ++ (gameGta5Repl ++ '\n' :: List.dropWhile isSpaceJS REST) := by
  obtain ⟨hws1, hws2⟩ := hws
  have hfs : findSplit (matchGame rdr3Lit) (A ++ (renderGame q1 q2 ws rdr3Lit ++
      ('\n' :: (renderStmt warnTok q3 q4 wsW val ++ REST)))) =
      some (A, renderGame q1 q2 ws rdr3Lit,
        '\n' :: (renderStmt warnTok q3 q4 wsW val ++ REST)) := by
    rw [renderGame_split]
    exact findSplit_at (fun i hi => matchGame_eq_none
      (no_occ_before_self hAg gameTok_no_self_overlap i hi))
      (matchGame_compute hws1 hws2 hq1 hq2)
  have hu1 : replaceFirstWith (matchGame rdr3Lit) (fun _ => gameGta5Repl)
      (A ++ (renderGame q1 q2 ws rdr3Lit ++
        ('\n' :: (renderStmt warnTok q3 q4 wsW val ++ REST)))) =
      (A ++ gameGta5Repl) ++ ('\n' :: (renderStmt warnTok q3 q4 wsW val ++ REST)) := by
    unfold replaceFirstWith
    rw [hfs]
  have hsc : matchStmtCore warnTok (warnTok ++ (wsW ++ q3 :: (val ++ q4 :: REST))) =
      some (warnTok ++ wsW ++ q3 :: (val ++ [q4]), REST) :=
    matchStmtCore_compute hwsW.1 hwsW.2 hq3 hq4 hvq
  have hscW : matchStmtCore warnTok (renderStmt warnTok q3 q4 wsW val ++ REST) =
      some (warnTok ++ wsW ++ q3 :: (val ++ [q4]), REST) := by
    rw [renderStmt_split]
    exact hsc
  have hm : matchWarnRm ('\n' :: (renderStmt warnTok q3 q4 wsW val ++ REST)) =
      some ('\n' :: ((warnTok ++ wsW ++ q3 :: (val ++ [q4])) ++
        List.takeWhile isSpaceJS REST), List.dropWhile isSpaceJS REST) :=
    matchWarnRm_nl (warnRmCore_compute hscW)
  have hnotin : jsIncludes ((A ++ gameGta5Repl) ++ ['\n']) warnTok = false := by
    rw [List.append_assoc]
    exact not_includes_append_h warnTok_chars (Or.inl hsepA) hAw (by decide)
  have heq : (A ++ gameGta5Repl) ++ ('\n' :: (renderStmt warnTok q3 q4 wsW val ++ REST)) =
      ((A ++ gameGta5Repl) ++ ['\n']) ++ (warnTok ++ (wsW ++ q3 :: (val ++ q4 :: REST))) := by
    rw [renderStmt_split]
    simp
  have ha : ∀ i, i < (A ++ gameGta5Repl).length →
      matchWarnRm (((A ++ gameGta5Repl) ++
        ('\n' :: (renderStmt warnTok q3 q4 wsW val ++ REST))).drop i) = none := by
    intro i hi
    rw [heq]
    refine noWarnRm_before hnotin i ?_
    simp only [List.length_append, List.length_cons, List.length_nil] at hi ⊢
    omega
  have hrest : jsIncludes (List.dropWhile isSpaceJS REST) warnTok = false := by
    have he := (List.takeWhile_append_dropWhile isSpaceJS REST).symm
    exact not_includes_suffix (he ▸ hRw)
  have hra : replaceAll matchWarnRm ['\n']
      ((A ++ gameGta5Repl) ++ ('\n' :: (renderStmt warnTok q3 q4 wsW val ++ REST))) =
      (A ++ gameGta5Repl) ++ ['\n'] ++ replaceAll matchWarnRm ['\n']
        (List.dropWhile isSpaceJS REST) :=
    replaceAll_split matchWarnRm_valid ha hm (by simp)
  rw [platformStage_false, hu1, hra,
    replaceAll_of_none (noWarnRm_of_not_includes hrest)]
  simp

/-! Evaluation of the ui_page stage on the manifest grammar. -/

theorem uiStage_noweb (IS_WATCH : Bool) (ip : List Char) (port : Nat) (v : List Char) :
    uiStage IS_WATCH false ip port v = replaceAll matchUiRm ['\n'] v := rfl

theorem uiStage_web (IS_WATCH : Bool) (ip : List Char) (port : Nat) (v : List Char) :
    uiStage IS_WATCH true ip port v =
      (match findSplit (matchStmtCore uiTok) v with
       | some _ => replaceFirstWith (matchStmtCore uiTok)
           (fun _ => desiredUiPageOf IS_WATCH ip port) v
       | none => trimEnd v ++ '\n' :: '\n' :: (desiredUiPageOf IS_WATCH ip port ++ ['\n'])) :=
  rfl

theorem uiStage_noweb_noui {IS_WATCH : Bool} {ip : List Char} {port : Nat} {v : List Char}
    (h : jsIncludes v uiTok = false) :
    uiStage IS_WATCH false ip port v = v := by
  rw [uiStage_noweb]
  exact replaceAll_of_none (noUiRm_of_not_includes h)

theorem uiStage_web_append {IS_WATCH : Bool} {ip : List Char} {port : Nat} {v : List Char}
    (h : jsIncludes v uiTok = false) :
    uiStage IS_WATCH true ip port v =
      trimEnd v ++ '\n' :: '\n' :: (desiredUiPageOf IS_WATCH ip port ++ ['\n']) := by
  rw [uiStage_web]
  rw [findSplit_eq_none_iff.mpr (noStmtCore_of_not_includes h)]

theorem uiStage_web_replace {IS_WATCH : Bool} {ip : List Char} {port : Nat}
    {D E : List Char} {q1 q2 : Char} {ws val : List Char}
    (hD : jsIncludes D uiTok = false)
    (hq1 : isQuoteC q1 = true) (hq2 : isQuoteC q2 = true) (hws : WfWs ws)
    (hvq : QuoteFree val) :
    uiStage IS_WATCH true ip port (D ++ (renderStmt uiTok q1 q2 ws val ++ E)) =
      D ++ (desiredUiPageOf IS_WATCH ip port ++ E) := by
  have hsc : matchStmtCore uiTok (renderStmt uiTok q1 q2 ws val ++ E) =
      some (uiTok ++ ws ++ q1 :: (val ++ [q2]), E) := by
    rw [renderStmt_split]
    exact matchStmtCore_compute hws.1 hws.2 hq1 hq2 hvq
  have hfs : findSplit (matchStmtCore uiTok) (D ++ (renderStmt uiTok q1 q2 ws val ++ E)) =
      some (D, uiTok ++ ws ++ q1 :: (val ++ [q2]), E) := by
    refine findSplit_at (fun i hi => ?_) hsc
    rw [renderStmt_split]
    exact matchStmtCore_eq_none (no_occ_before_self hD uiTok_no_self_overlap i hi)
  rw [uiStage_web]
  simp only [hfs]
  unfold replaceFirstWith
  rw [hfs]
  simp

theorem matchUiRm_none_before_trim {D wD TAIL : List Char}
    (hD : D = [] ∨ ∃ L1 c, D = L1 ++ [c] ∧ isSpaceJS c = false)
    (hwD : AllSpace wD)
    (hnoocc : ∀ j, j < (D ++ wD).length → ¬ uiTok <+: ((D ++ wD) ++ TAIL).drop j) :
    ∀ i, i < D.length → matchUiRm (((D ++ wD) ++ TAIL).drop i) = none := by
  intro i hi
  cases hm : matchUiRm (((D ++ wD) ++ TAIL).drop i) with
  | none => rfl
  | some p =>
    exfalso
    obtain ⟨mt, r⟩ := p
    obtain ⟨w, rest, heq, hsp, hpre⟩ := matchUiRm_anchor hm
    have h3 := congrArg (List.drop w.length) heq
    rw [List.drop_drop, List.drop_left] at h3
    by_cases hcase : i + w.length < (D ++ wD).length
    · exact hnoocc (i + w.length) hcase (h3 ▸ hpre)
    · obtain ⟨L1, c, hDe, hc⟩ := (by
        rcases hD with h | h
        · exact absurd hi (by rw [h]; simp)
        · exact h : ∃ L1 c, D = L1 ++ [c] ∧ isSpaceJS c = false)
      have hw : w <+: ((D ++ wD) ++ TAIL).drop i := ⟨rest, heq.symm⟩
      have hconf : D.drop i <+: ((D ++ wD) ++ TAIL).drop i := by
        rw [List.append_assoc, List.drop_append_of_le_length (by omega)]
        exact (D.drop i).prefix_append _
      have hlen : (D.drop i).length ≤ w.length := by
        simp only [List.length_drop]
        have hl : (D ++ wD).length = D.length + wD.length := by simp
        omega
      have hsub : D.drop i <+: w :=
        List.prefix_of_prefix_length_le hconf hw hlen
      have hcmem : c ∈ D.drop i := by
        rw [hDe] at hi ⊢
        simp only [List.length_append, List.length_cons, List.length_nil] at hi
        rw [List.drop_append_of_le_length (by omega)]
        simp
      have hcw : c ∈ w := hsub.subset hcmem
      rw [hsp c hcw] at hc
      exact Bool.true_eq_false ▸ hc

theorem uiStage_noweb_removes {IS_WATCH : Bool} {ip : List Char} {port : Nat}
    {D E : List Char} {q1 q2 : Char} {ws val : List Char}
    (hD : jsIncludes D uiTok = false) (hE : jsIncludes E uiTok = false)
    (hq1 : isQuoteC q1 = true) (hq2 : isQuoteC q2 = true) (hws : WfWs ws)
    (hvq : QuoteFree val) :
    uiStage IS_WATCH false ip port (D ++ (renderStmt uiTok q1 q2 ws val ++ E)) =
      trimEnd D ++ '\n' :: List.dropWhile isSpaceJS E := by
  obtain ⟨hDdec, hWsp, hD0⟩ := trimEnd_decomp D
  rw [uiStage_noweb]
  have hsc : matchStmtCore uiTok (renderStmt uiTok q1 q2 ws val ++ E) =
      some (uiTok ++ ws ++ q1 :: (val ++ [q2]), E) := by
    rw [renderStmt_split]
    exact matchStmtCore_compute hws.1 hws.2 hq1 hq2 hvq
  have hm : matchUiRm ((D.reverse.takeWhile isSpaceJS).reverse ++
      (renderStmt uiTok q1 q2 ws val ++ E)) =
      some ((D.reverse.takeWhile isSpaceJS).reverse ++ (uiTok ++ ws ++ q1 :: (val ++ [q2]))
        ++ List.takeWhile isSpaceJS E, List.dropWhile isSpaceJS E) :=
    matchUiRm_compute hWsp hsc
  have hnoocc : ∀ j, j < (trimEnd D ++ (D.reverse.takeWhile isSpaceJS).reverse).length →
      ¬ uiTok <+: ((trimEnd D ++ (D.reverse.takeWhile isSpaceJS).reverse) ++
        (renderStmt uiTok q1 q2 ws val ++ E)).drop j := by
    rw [← hDdec]
    intro j hj
    rw [renderStmt_split]
    exact no_occ_before_self hD uiTok_no_self_overlap j hj
  have hnone := matchUiRm_none_before_trim hD0 hWsp hnoocc
  have ha : ∀ i, i < (trimEnd D).length →
      matchUiRm ((trimEnd D ++ ((D.reverse.takeWhile isSpaceJS).reverse ++
        (renderStmt uiTok q1 q2 ws val ++ E))).drop i) = none := by
    intro i hi
    have hh := hnone i hi
    rwa [List.append_assoc] at hh
  have hne : (D.reverse.takeWhile isSpaceJS).reverse ++ (uiTok ++ ws ++ q1 :: (val ++ [q2]))
      ++ List.takeWhile isSpaceJS E ≠ [] := by
    intro hcon
    have hlc := congrArg List.length hcon
    simp at hlc
  have hsplit := @replaceAll_split matchUiRm ['\n'] (trimEnd D)
    ((D.reverse.takeWhile isSpaceJS).reverse ++ (renderStmt uiTok q1 q2 ws val ++ E))
    _ _ matchUiRm_valid ha hm hne
  have hEdw : jsIncludes (List.dropWhile isSpaceJS E) uiTok = false := by
    have he := (List.takeWhile_append_dropWhile isSpaceJS E).symm
    exact not_includes_suffix (he ▸ hE)
  have ht : D ++ (renderStmt uiTok q1 q2 ws val ++ E) =
      trimEnd D ++ ((D.reverse.takeWhile isSpaceJS).reverse ++
        (renderStmt uiTok q1 q2 ws val ++ E)) := by
    conv_lhs => rw [hDdec]
    rw [List.append_assoc]
  rw [ht, hsplit, replaceAll_of_none (noUiRm_of_not_includes hEdw)]
  simp

/-! Junction killers based on character membership, trimEnd decomposition
helpers, and character facts about rendered numbers. -/

theorem not_includes_append_nm {a b tok : List Char}
    (hj : (∀ c, a.getLast? = some c → tok.contains c = false) ∨
          (∀ x xs, b = x :: xs → tok.contains x = false))
    (ha : jsIncludes a tok = false) (hb : jsIncludes b tok = false) :
    jsIncludes (a ++ b) tok = false := by
  by_contra h
  rw [Bool.not_eq_false] at h
  obtain ⟨p, q, hpq⟩ := jsIncludes_iff.mp h
  have hocc : tok <+: (a ++ b).drop p.length := by
    rw [hpq, List.drop_left]
    exact List.prefix_append _ _
  by_cases hcase : p.length < a.length
  · rcases occ_drop_split hcase hocc with ⟨-, hin⟩ | ⟨-, t1, t2, htok, h1, h2, hsuf, hpre⟩
    · have := includes_of_prefix_drop hin
      rw [this] at ha
      exact Bool.true_eq_false ▸ ha
    · rcases hj with hleft | hright
      · cases ht1 : t1.reverse with
        | nil => exact h1 (by simpa using congrArg List.reverse ht1)
        | cons c cs =>
          have ht1e : t1 = cs.reverse ++ [c] := by
            have := congrArg List.reverse ht1
            simpa using this
          obtain ⟨u, hu⟩ := hsuf
          have hlast : a.getLast? = some c := by
            rw [hu, ht1e, ← List.append_assoc]
            exact List.getLast?_concat _
          have hcnot := hleft c hlast
          have hcmem : c ∈ tok := by
            rw [htok, ht1e]
            simp
          rw [List.contains_eq_any_beq] at hcnot
          simp at hcnot
          exact hcnot c hcmem rfl
      · cases ht2 : t2 with
        | nil => exact h2 ht2
        | cons x t2s =>
          obtain ⟨u, hu⟩ := hpre
          rw [ht2] at hu
          cases hbc : b with
          | nil => rw [hbc] at hu; exact List.noConfusion hu
          | cons y ys =>
            rw [hbc] at hu
            simp only [List.cons_append] at hu
            injection hu with hxy _
            have hxnot := hright y ys hbc
            have hxmem : x ∈ tok := by
              rw [htok, ht2]
              simp
            rw [List.contains_eq_any_beq] at hxnot
            simp at hxnot
            exact hxnot x hxmem hxy.symm
  · have hsplit : (a ++ b).drop p.length = b.drop (p.length - a.length) := by
      have he : p.length = a.length + (p.length - a.length) := by omega
      rw [he]
      simp [List.drop_append]
    rw [hsplit] at hocc
    have := includes_of_prefix_drop hocc
    rw [this] at hb
    exact Bool.true_eq_false ▸ hb

theorem sepEndB_cons {c : Char} {y : List Char}
    (hc : isSpaceJS c = true) (hy : sepEndB y = true) :
    sepEndB (c :: y) = true := by
  cases y with
  | nil =>
    unfold sepEndB
    simp [hc]
  | cons z zs =>
    unfold sepEndB at hy ⊢
    rw [List.getLast?_cons_cons]
    exact hy

theorem trimEnd_append_lastNonspace {a b : List Char}
    (ha : ∀ c, a.getLast? = some c → isSpaceJS c = false) :
    trimEnd (a ++ b) = a ++ trimEnd b := by
  unfold trimEnd
  rw [List.reverse_append, List.dropWhile_append]
  by_cases hbe : (b.reverse.dropWhile isSpaceJS).isEmpty
  · rw [if_pos hbe]
    have hbb : b.reverse.dropWhile isSpaceJS = [] := by
      cases hx : b.reverse.dropWhile isSpaceJS with
      | nil => rfl
      | cons z zs => rw [hx] at hbe; exact absurd hbe (by simp)
    rw [hbb]
    simp only [List.reverse_nil, List.append_nil]
    cases har : a.reverse with
    | nil =>
      have : a = [] := by simpa using congrArg List.reverse har
      simp [this]
    | cons c cs =>
      have hae : a = cs.reverse ++ [c] := by
        have := congrArg List.reverse har
        simpa using this
      have hlast : a.getLast? = some c := by
        rw [hae]
        exact List.getLast?_concat _
      rw [List.dropWhile_cons, if_neg (by rw [ha c hlast]; simp)]
      rw [← har]
      simp
  · rw [if_neg hbe]
    rw [List.reverse_append]
    simp

theorem trimEnd_prefix_includes {s tok : List Char}
    (h : jsIncludes s tok = false) : jsIncludes (trimEnd s) tok = false := by
  obtain ⟨hdec, -, -⟩ := trimEnd_decomp s
  exact not_includes_prefix (hdec ▸ h)

theorem dropWhile_suffix_includes {p : Char → Bool} {s tok : List Char}
    (h : jsIncludes s tok = false) : jsIncludes (s.dropWhile p) tok = false := by
  have he := (List.takeWhile_append_dropWhile p s).symm
  exact not_includes_suffix (he ▸ h)

/-! Characters of rendered port numbers, and the desired ui_page line. -/

theorem digitChar_class (k : Nat) :
    (('0' ≤ Nat.digitChar k && Nat.digitChar k ≤ '9') ||
     (('a' ≤ Nat.digitChar k && Nat.digitChar k ≤ 'f') || Nat.digitChar k = '*')) = true := by
  by_cases hk : k < 16
  · interval_cases k <;> decide
  · unfold Nat.digitChar
    iterate 16 rw [if_neg (by omega)]
    decide

theorem toDigitsCore_class {b : Nat} :
    ∀ f n ds, (∀ c ∈ ds, (('0' ≤ c && c ≤ '9') || (('a' ≤ c && c ≤ 'f') || c = '*')) = true) →
      ∀ c ∈ Nat.toDigitsCore b f n ds,
        (('0' ≤ c && c ≤ '9') || (('a' ≤ c && c ≤ 'f') || c = '*')) = true := by
  intro f
  induction f with
  | zero => intro n ds hds c hc; exact hds c hc
  | succ f ih =>
    intro n ds hds c hc
    simp only [Nat.toDigitsCore] at hc
    by_cases h0 : n / b = 0
    · rw [if_pos h0] at hc
      rcases List.mem_cons.mp hc with h | h
      · rw [h]; exact digitChar_class _
      · exact hds c h
    · rw [if_neg h0] at hc
      refine ih _ _ ?_ c hc
      intro x hx
      rcases List.mem_cons.mp hx with h | h
      · rw [h]; exact digitChar_class _
      · exact hds x h

theorem natDigits_class (n : Nat) :
    ∀ c ∈ natDigits n,
      (('0' ≤ c && c ≤ '9') || (('a' ≤ c && c ≤ 'f') || c = '*')) = true := by
  unfold natDigits Nat.toDigits
  exact toDigitsCore_class _ _ _ (by intro c hc; exact absurd hc (by simp))

theorem class_not_quote {c : Char}
    (h : (('0' ≤ c && c ≤ '9') || (('a' ≤ c && c ≤ 'f') || c = '*')) = true) :
    isQuoteC c = false := by
  by_cases h1 : c = sqc
  · rw [h1] at h; exact absurd h (by decide)
  · by_cases h2 : c = dqc
    · rw [h2] at h; exact absurd h (by decide)
    · unfold isQuoteC
      simp [h1, h2]

theorem quoteFree_of_all {l : List Char} (h : l.all (fun c => !isQuoteC c) = true) :
    QuoteFree l := by
  intro c hc
  have hcc := List.all_eq_true.mp h c hc
  simpa using hcc

theorem QuoteFree_append {a b : List Char} (ha : QuoteFree a) (hb : QuoteFree b) :
    QuoteFree (a ++ b) := by
  intro c hc
  rcases List.mem_append.mp hc with h | h
  · exact ha c h
  · exact hb c h

theorem natDigits_quoteFree (n : Nat) : QuoteFree (natDigits n) :=
  fun c hc => class_not_quote (natDigits_class n c hc)

theorem watchVal_no_tok {ip tok : List Char} {port : Nat} (h2 : 2 ≤ tok.length)
    (hip : jsIncludes ip tok = false)
    (h7 : jsIncludes (str "http://") tok = false)
    (hdg : ∃ c ∈ tok, (('0' ≤ c && c ≤ '9') || (('a' ≤ c && c ≤ 'f') || c = '*')) = false)
    (hsl : tok.contains '/' = false) (hco : tok.contains ':' = false) :
    jsIncludes (str "http://" ++ (ip ++ ':' :: natDigits port)) tok = false := by
  have hdig : jsIncludes (natDigits port) tok = false :=
    not_includes_of_class (natDigits_class port) hdg
  have hcol : jsIncludes (':' :: natDigits port) tok = false := by
    have he : ':' :: natDigits port = [':'] ++ natDigits port := rfl
    rw [he]
    refine not_includes_append_nm (Or.inl ?_)
      (not_includes_short (by simp only [List.length_cons, List.length_nil]; omega)) hdig
    intro c hc
    have hcc : c = ':' := by
      have : ([':'] : List Char).getLast? = some ':' := rfl
      rw [this] at hc
      injection hc with h1
      exact h1.symm
    rw [hcc]
    exact hco
  have hipc : jsIncludes (ip ++ ':' :: natDigits port) tok = false := by
    refine not_includes_append_nm (Or.inr ?_) hip hcol
    intro x xs hx
    injection hx with h1 _
    rw [h1] at hco
    exact hco
  refine not_includes_append_nm (Or.inl ?_) h7 hipc
  intro c hc
  have hsf : (str "http://").getLast? = some '/' := by decide
  rw [hsf] at hc
  injection hc with h1
  rw [h1] at hsl
  exact hsl

theorem desiredUiWatch_eq (ip : List Char) (port : Nat) :
    desiredUiWatch ip port = renderStmt uiTok sqc sqc [' ']
      (str "http://" ++ (ip ++ ':' :: natDigits port)) := by
  unfold desiredUiWatch renderStmt
  have h : str "ui_page " = uiTok ++ [' '] := by decide
  rw [h]
  simp

theorem desiredUiBuilt_eq :
    desiredUiBuilt = renderStmt uiTok sqc sqc [' '] (str "html/index.html") := by decide

theorem desiredUiPageOf_eq (IS_WATCH : Bool) (ip : List Char) (port : Nat) :
    desiredUiPageOf IS_WATCH ip port = renderStmt uiTok sqc sqc [' ']
      (if IS_WATCH then str "http://" ++ (ip ++ ':' :: natDigits port)
       else str "html/index.html") := by
  cases IS_WATCH with
  | false =>
    simp only [desiredUiPageOf, Bool.false_eq_true, if_false]
    exact desiredUiBuilt_eq
  | true =>
    simp only [desiredUiPageOf, if_true]
    exact desiredUiWatch_eq ip port

theorem desiredVal_quoteFree {IS_WATCH : Bool} {ip : List Char} {port : Nat}
    (hip : QuoteFree ip) :
    QuoteFree (if IS_WATCH then str "http://" ++ (ip ++ ':' :: natDigits port)
       else str "html/index.html") := by
  cases IS_WATCH with
  | false =>
    simp only [Bool.false_eq_true, if_false]
    exact quoteFree_of_all (by decide)
  | true =>
    simp only [if_true]
    refine QuoteFree_append (quoteFree_of_all (by decide)) (QuoteFree_append hip ?_)
    intro c hc
    rcases List.mem_cons.mp hc with h | h
    · rw [h]; decide
    · exact natDigits_quoteFree port c h

theorem desired_no_tok {IS_WATCH : Bool} {ip : List Char} {port : Nat} {tok : List Char}
    (hchars : ∀ x ∈ tok, isSpaceJS x = false ∧ isQuoteC x = false) (h2 : 2 ≤ tok.length)
    (hui : jsIncludes uiTok tok = false)
    (hip : jsIncludes ip tok = false)
    (h7 : jsIncludes (str "http://") tok = false)
    (hhtml : jsIncludes (str "html/index.html") tok = false)
    (hdg : ∃ c ∈ tok, (('0' ≤ c && c ≤ '9') || (('a' ≤ c && c ≤ 'f') || c = '*')) = false)
    (hsl : tok.contains '/' = false) (hco : tok.contains ':' = false) :
    jsIncludes (desiredUiPageOf IS_WATCH ip port) tok = false := by
  rw [desiredUiPageOf_eq]
  cases IS_WATCH with
  | false =>
    simp only [Bool.false_eq_true, if_false]
    exact renderStmt_not_includes hchars h2 (by intro c hc; simp at hc; rw [hc]; decide)
      (by decide) (by decide) hui hhtml
  | true =>
    simp only [if_true]
    exact renderStmt_not_includes hchars h2 (by intro c hc; simp at hc; rw [hc]; decide)
      (by decide) (by decide) hui (watchVal_no_tok h2 hip h7 hdg hsl hco)

/-! Helpers for the idempotence and exactness claims. -/

theorem desired_no_game {IS_WATCH : Bool} {ip : List Char} {port : Nat}
    (hipt : TokenFree ip) :
    jsIncludes (desiredUiPageOf IS_WATCH ip port) gameTok = false :=
  desired_no_tok gameTok_chars (by decide) (by decide) hipt.1 (by decide) (by decide)
    (by decide) (by decide) (by decide)

theorem desired_no_warn {IS_WATCH : Bool} {ip : List Char} {port : Nat}
    (hipt : TokenFree ip) :
    jsIncludes (desiredUiPageOf IS_WATCH ip port) warnTok = false :=
  desired_no_tok warnTok_chars (by decide) (by decide) hipt.2.1 (by decide) (by decide)
    (by decide) (by decide) (by decide)

theorem sepEndB_desired (IS_WATCH : Bool) (ip : List Char) (port : Nat) :
    sepEndB (desiredUiPageOf IS_WATCH ip port) = true := by
  rw [desiredUiPageOf_eq]
  exact sepEndB_renderStmt (by decide)

theorem platformStage_id_nogame (b : Bool) {t : List Char}
    (hg : jsIncludes t gameTok = false) (hw : jsIncludes t warnTok = false) :
    platformStage b t = t := by
  cases b with
  | false => exact platformStage_fivem_nogame hg hw
  | true => exact platformStage_redm_nogame hg

theorem sepEndB_suffix {x y : List Char} (h : sepEndB (x ++ y) = true) (hy : y ≠ []) :
    sepEndB y = true := by
  unfold sepEndB at h ⊢
  rw [List.getLast?_append_of_ne_nil x hy] at h
  exact h

theorem sepEndB_dropWhile {p : Char → Bool} {B : List Char} (h : sepEndB B = true) :
    sepEndB (B.dropWhile p) = true := by
  cases hd : B.dropWhile p with
  | nil => rfl
  | cons c cs =>
    have he : B = B.takeWhile p ++ B.dropWhile p := (List.takeWhile_append_dropWhile p B).symm
    rw [he, hd] at h
    rw [← hd]
    rw [← hd] at h
    exact sepEndB_suffix h (by rw [hd]; simp)

theorem uiStmt_append_head {q1 q2 : Char} {ws val R : List Char} :
    ∀ x xs, renderStmt uiTok q1 q2 ws val ++ R = x :: xs → isSpaceJS x = false := by
  intro x xs hx
  rw [renderStmt_split, show uiTok = 'u' :: str "i_page" from rfl] at hx
  simp only [List.cons_append] at hx
  injection hx with h1 _
  rw [← h1]
  decide

theorem renderStmt_getLast {tok' : List Char} {q1 q2 : Char} {ws val : List Char} :
    (renderStmt tok' q1 q2 ws val).getLast? = some q2 := by
  rw [renderStmt_eq_concat]
  exact List.getLast?_concat _

theorem uiStage_id_desired {IS_WATCH : Bool} {ip : List Char} {port : Nat}
    {D1 E1 : List Char}
    (hD1 : jsIncludes D1 uiTok = false) (hipq : QuoteFree ip) :
    uiStage IS_WATCH true ip port (D1 ++ (desiredUiPageOf IS_WATCH ip port ++ E1)) =
      D1 ++ (desiredUiPageOf IS_WATCH ip port ++ E1) := by
  conv_lhs => rw [desiredUiPageOf_eq]
  rw [uiStage_web_replace hD1 (by decide) (by decide)
    ⟨by simp, by intro c hc; simp at hc; rw [hc]; decide⟩ (desiredVal_quoteFree hipq)]

theorem not_includes_cons_nl {X tok : List Char}
    (hchars : ∀ x ∈ tok, isSpaceJS x = false ∧ isQuoteC x = false)
    (h2 : 2 ≤ tok.length) (hX : jsIncludes X tok = false) :
    jsIncludes ('\n' :: X) tok = false := by
  have he : '\n' :: X = ['\n'] ++ X := rfl
  rw [he]
  exact not_includes_append_h hchars (Or.inl (by decide))
    (not_includes_short (by simp only [List.length_cons, List.length_nil]; omega)) hX

theorem not_includes_trim_nl {X Y tok : List Char}
    (hchars : ∀ x ∈ tok, isSpaceJS x = false ∧ isQuoteC x = false)
    (h2 : 2 ≤ tok.length) (hX : jsIncludes X tok = false) (hY : jsIncludes Y tok = false) :
    jsIncludes (trimEnd X ++ ('\n' :: Y)) tok = false := by
  refine not_includes_append_h hchars (Or.inr ?_) (trimEnd_prefix_includes hX)
    (not_includes_cons_nl hchars h2 hY)
  intro x xs hx
  injection hx with h1 _
  rw [← h1]
  left
  decide

theorem fam_nogame (b IS_WATCH HAS_WEB_DIR : Bool) (ip : List Char) (port : Nat)
    {A1 B1 : List Char} {U : UiShape} {C : List Char}
    (hTA : TokenFree A1) (hTB : TokenFree B1) (hTC : TokenFree C)
    (hUwf : WfUi U) (hsA : sepEndB A1 = true) (hsB : sepEndB B1 = true)
    (hipq : QuoteFree ip) (hipt : TokenFree ip) :
    ∃ OUT, uiStage IS_WATCH HAS_WEB_DIR ip port (A1 ++ (B1 ++ (renderUi U ++ C))) = OUT ∧
      platformStage b OUT = OUT ∧
      uiStage IS_WATCH HAS_WEB_DIR ip port OUT = OUT ∧
      (HAS_WEB_DIR = false → jsIncludes OUT uiTok = false) ∧
      (HAS_WEB_DIR = true → ∃ D1 E1,
        OUT = D1 ++ (desiredUiPageOf IS_WATCH ip port ++ E1) ∧
        jsIncludes D1 uiTok = false ∧ jsIncludes E1 uiTok = false) := by
  have htg : jsIncludes (A1 ++ (B1 ++ (renderUi U ++ C))) gameTok = false :=
    not_includes_append_h gameTok_chars (Or.inl hsA) hTA.1
      (REST_no_tok gameTok_chars hTB.1 hTC.1 (renderUi_no_game hUwf) hsB hUwf)
  have htw : jsIncludes (A1 ++ (B1 ++ (renderUi U ++ C))) warnTok = false :=
    not_includes_append_h warnTok_chars (Or.inl hsA) hTA.2.1
      (REST_no_tok warnTok_chars hTB.2.1 hTC.2.1 (renderUi_no_warn hUwf) hsB hUwf)
  cases HAS_WEB_DIR with
  | false =>
    cases U with
    | absent =>
      have htu : jsIncludes (A1 ++ (B1 ++ (renderUi UiShape.absent ++ C))) uiTok = false :=
        not_includes_append_h uiTok_chars (Or.inl hsA) hTA.2.2
          (REST_no_tok uiTok_chars hTB.2.2 hTC.2.2 (by decide) hsB trivial)
      have hOUT := @uiStage_noweb_noui IS_WATCH ip port _ htu
      exact ⟨_, hOUT, platformStage_id_nogame b htg htw, hOUT,
        fun _ => htu, fun h => absurd h Bool.false_ne_true⟩
    | decl q1u q2u wsu valu =>
      obtain ⟨hqu1, hqu2, hwsu, hvqu, hvtu⟩ := hUwf
      have hD0u : jsIncludes (A1 ++ B1) uiTok = false :=
        not_includes_append_h uiTok_chars (Or.inl hsA) hTA.2.2 hTB.2.2
      have hshape : A1 ++ (B1 ++ (renderStmt uiTok q1u q2u wsu valu ++ C)) =
          (A1 ++ B1) ++ (renderStmt uiTok q1u q2u wsu valu ++ C) := by
        simp
      have hOUT : uiStage IS_WATCH false ip port
          (A1 ++ (B1 ++ (renderUi (UiShape.decl q1u q2u wsu valu) ++ C))) =
          trimEnd (A1 ++ B1) ++ '\n' :: List.dropWhile isSpaceJS C := by
        simp only [renderUi]
        rw [hshape]
        exact uiStage_noweb_removes hD0u hTC.2.2 hqu1 hqu2 hwsu hvqu
      have hABg : jsIncludes (A1 ++ B1) gameTok = false :=
        not_includes_append_h gameTok_chars (Or.inl hsA) hTA.1 hTB.1
      have hABw : jsIncludes (A1 ++ B1) warnTok = false :=
        not_includes_append_h warnTok_chars (Or.inl hsA) hTA.2.1 hTB.2.1
      have hOg := not_includes_trim_nl (Y := List.dropWhile isSpaceJS C) gameTok_chars
        (by decide) hABg (dropWhile_suffix_includes hTC.1)
      have hOw := not_includes_trim_nl (Y := List.dropWhile isSpaceJS C) warnTok_chars
        (by decide) hABw (dropWhile_suffix_includes hTC.2.1)
      have hOu := not_includes_trim_nl (Y := List.dropWhile isSpaceJS C) uiTok_chars
        (by decide) hD0u (dropWhile_suffix_includes hTC.2.2)
      exact ⟨_, hOUT, platformStage_id_nogame b hOg hOw, uiStage_noweb_noui hOu,
        fun _ => hOu, fun h => absurd h Bool.false_ne_true⟩
  | true =>
    cases U with
    | absent =>
      have htu : jsIncludes (A1 ++ (B1 ++ (renderUi UiShape.absent ++ C))) uiTok = false :=
        not_includes_append_h uiTok_chars (Or.inl hsA) hTA.2.2
          (REST_no_tok uiTok_chars hTB.2.2 hTC.2.2 (by decide) hsB trivial)
      have hOUT := @uiStage_web_append IS_WATCH ip port _ htu
      have hOeq : trimEnd (A1 ++ (B1 ++ (renderUi UiShape.absent ++ C))) ++
          '\n' :: '\n' :: (desiredUiPageOf IS_WATCH ip port ++ ['\n']) =
          (trimEnd (A1 ++ (B1 ++ (renderUi UiShape.absent ++ C))) ++ ['\n', '\n']) ++
            (desiredUiPageOf IS_WATCH ip port ++ ['\n']) := by
        simp
      have hD1u : jsIncludes
          (trimEnd (A1 ++ (B1 ++ (renderUi UiShape.absent ++ C))) ++ ['\n', '\n'])
          uiTok = false := by
        refine not_includes_append_h uiTok_chars (Or.inr ?_)
          (trimEnd_prefix_includes htu) (by decide)
        intro x xs hx
        injection hx with h1 _
        rw [← h1]
        left
        decide
      have hsD1 : sepEndB (trimEnd (A1 ++ (B1 ++ (renderUi UiShape.absent ++ C))) ++
          ['\n', '\n']) = true :=
        sepEndB_append (by simp) (by decide)
      have hOg : jsIncludes ((trimEnd (A1 ++ (B1 ++ (renderUi UiShape.absent ++ C))) ++
          ['\n', '\n']) ++ (desiredUiPageOf IS_WATCH ip port ++ ['\n'])) gameTok = false := by
        refine not_includes_append_h gameTok_chars (Or.inl hsD1) ?_ ?_
        · refine not_includes_append_h gameTok_chars (Or.inr ?_)
            (trimEnd_prefix_includes htg) (by decide)
          intro x xs hx
          injection hx with h1 _
          rw [← h1]
          left
          decide
        · exact not_includes_append_h gameTok_chars
            (Or.inl (sepEndB_desired IS_WATCH ip port)) (desired_no_game hipt) (by decide)
      have hOw : jsIncludes ((trimEnd (A1 ++ (B1 ++ (renderUi UiShape.absent ++ C))) ++
          ['\n', '\n']) ++ (desiredUiPageOf IS_WATCH ip port ++ ['\n'])) warnTok = false := by
        refine not_includes_append_h warnTok_chars (Or.inl hsD1) ?_ ?_
        · refine not_includes_append_h warnTok_chars (Or.inr ?_)
            (trimEnd_prefix_includes htw) (by decide)
          intro x xs hx
          injection hx with h1 _
          rw [← h1]
          left
          decide
        · exact not_includes_append_h warnTok_chars
            (Or.inl (sepEndB_desired IS_WATCH ip port)) (desired_no_warn hipt) (by decide)
      refine ⟨_, hOUT, ?_, ?_, fun h => absurd h (by decide : ¬ (true : Bool) = false), ?_⟩
      · rw [hOeq]
        exact platformStage_id_nogame b hOg hOw
      · rw [hOeq]
        exact uiStage_id_desired hD1u hipq
      · intro h
        exact ⟨_, _, hOeq, hD1u, by decide⟩
    | decl q1u q2u wsu valu =>
      obtain ⟨hqu1, hqu2, hwsu, hvqu, hvtu⟩ := hUwf
      have hD0u : jsIncludes (A1 ++ B1) uiTok = false :=
        not_includes_append_h uiTok_chars (Or.inl hsA) hTA.2.2 hTB.2.2
      have hshape : A1 ++ (B1 ++ (renderStmt uiTok q1u q2u wsu valu ++ C)) =
          (A1 ++ B1) ++ (renderStmt uiTok q1u q2u wsu valu ++ C) := by
        simp
      have hOUT : uiStage IS_WATCH true ip port
          (A1 ++ (B1 ++ (renderUi (UiShape.decl q1u q2u wsu valu) ++ C))) =
          (A1 ++ B1) ++ (desiredUiPageOf IS_WATCH ip port ++ C) := by
        simp only [renderUi]
        rw [hshape]
        exact uiStage_web_replace hD0u hqu1 hqu2 hwsu hvqu
      have hOas : (A1 ++ B1) ++ (desiredUiPageOf IS_WATCH ip port ++ C) =
          A1 ++ (B1 ++ (desiredUiPageOf IS_WATCH ip port ++ C)) := by
        simp
      have hOg : jsIncludes ((A1 ++ B1) ++ (desiredUiPageOf IS_WATCH ip port ++ C))
          gameTok = false := by
        rw [hOas]
        refine not_includes_append_h gameTok_chars (Or.inl hsA) hTA.1 ?_
        refine not_includes_append_h gameTok_chars (Or.inl hsB) hTB.1 ?_
        exact not_includes_append_h gameTok_chars
          (Or.inl (sepEndB_desired IS_WATCH ip port)) (desired_no_game hipt) hTC.1
      have hOw : jsIncludes ((A1 ++ B1) ++ (desiredUiPageOf IS_WATCH ip port ++ C))
          warnTok = false := by
        rw [hOas]
        refine not_includes_append_h warnTok_chars (Or.inl hsA) hTA.2.1 ?_
        refine not_includes_append_h warnTok_chars (Or.inl hsB) hTB.2.1 ?_
        exact not_includes_append_h warnTok_chars
          (Or.inl (sepEndB_desired IS_WATCH ip port)) (desired_no_warn hipt) hTC.2.1
      exact ⟨_, hOUT, platformStage_id_nogame b hOg hOw, uiStage_id_desired hD0u hipq,
        fun h => absurd h (by decide : ¬ (true : Bool) = false),
        fun _ => ⟨A1 ++ B1, C, rfl, hD0u, hTC.2.2⟩⟩

theorem fam_redm (IS_WATCH HAS_WEB_DIR : Bool) (ip : List Char) (port : Nat)
    {A B1 : List Char} {U : UiShape} {C : List Char}
    {g1 g2 w1 w2 : Char} {gws wws wv : List Char}
    (hTA : TokenFree A) (hTB : TokenFree B1) (hTC : TokenFree C)
    (hUwf : WfUi U) (hsA : sepEndB A = true) (hsB : sepEndB B1 = true)
    (hg1 : isQuoteC g1 = true) (hg2 : isQuoteC g2 = true) (hgws : WfWs gws)
    (hw1 : isQuoteC w1 = true) (hw2 : isQuoteC w2 = true) (hwws : WfWs wws)
    (hvq : QuoteFree wv) (hvt : TokenFree wv)
    (hipq : QuoteFree ip) (hipt : TokenFree ip) :
    ∃ OUT, uiStage IS_WATCH HAS_WEB_DIR ip port
        (A ++ (renderGame g1 g2 gws rdr3Lit ++
          ('\n' :: (renderStmt warnTok w1 w2 wws wv ++ (B1 ++ (renderUi U ++ C)))))) = OUT ∧
      platformStage true OUT = OUT ∧
      uiStage IS_WATCH HAS_WEB_DIR ip port OUT = OUT ∧
      (HAS_WEB_DIR = false → jsIncludes OUT uiTok = false) ∧
      (HAS_WEB_DIR = true → ∃ D1 E1,
        OUT = D1 ++ (desiredUiPageOf IS_WATCH ip port ++ E1) ∧
        jsIncludes D1 uiTok = false ∧ jsIncludes E1 uiTok = false) ∧
      (∃ R2, OUT = A ++ (renderGame g1 g2 gws rdr3Lit ++
          ('\n' :: (renderStmt warnTok w1 w2 wws wv ++ R2))) ∧
        jsIncludes R2 gameTok = false) := by
  have hWu : jsIncludes (renderStmt warnTok w1 w2 wws wv) uiTok = false :=
    renderStmt_not_includes uiTok_chars (by decide) hwws.2 hw1 hw2 (by decide) hvt.2.2
  have hGu : jsIncludes (renderGame g1 g2 gws rdr3Lit) uiTok = false := by
    rw [renderGame_eq_renderStmt]
    exact renderStmt_not_includes uiTok_chars (by decide) hgws.2 hg1 hg2 (by decide) (by decide)
  have hsG : sepEndB (renderGame g1 g2 gws rdr3Lit) = true := by
    rw [renderGame_eq_renderStmt]
    exact sepEndB_renderStmt hg2
  have hsW : sepEndB (renderStmt warnTok w1 w2 wws wv) = true := sepEndB_renderStmt hw2
  have hlastGW : ∀ c, (A ++ (renderGame g1 g2 gws rdr3Lit ++
      ('\n' :: renderStmt warnTok w1 w2 wws wv))).getLast? = some c →
      isSpaceJS c = false := by
    intro c hc
    rw [List.getLast?_append_of_ne_nil _ (by simp),
      List.getLast?_append_of_ne_nil _ (by simp)] at hc
    have hWne : renderStmt warnTok w1 w2 wws wv ≠ [] := renderStmt_ne_nil _ _ _ _ _
    have hcons : ('\n' :: renderStmt warnTok w1 w2 wws wv).getLast? =
        (renderStmt warnTok w1 w2 wws wv).getLast? := by
      have he : '\n' :: renderStmt warnTok w1 w2 wws wv =
          ['\n'] ++ renderStmt warnTok w1 w2 wws wv := rfl
      rw [he, List.getLast?_append_of_ne_nil _ hWne]
    rw [hcons, renderStmt_getLast] at hc
    injection hc with h1
    rw [← h1]
    exact quote_not_space hw2
  cases HAS_WEB_DIR with
  | false =>
    cases U with
    | absent =>
      have hRu : jsIncludes (B1 ++ (renderUi UiShape.absent ++ C)) uiTok = false :=
        REST_no_tok uiTok_chars hTB.2.2 hTC.2.2 (by decide) hsB trivial
      have htu : jsIncludes (A ++ (renderGame g1 g2 gws rdr3Lit ++
          ('\n' :: (renderStmt warnTok w1 w2 wws wv ++
            (B1 ++ (renderUi UiShape.absent ++ C)))))) uiTok = false := by
        refine not_includes_append_h uiTok_chars (Or.inl hsA) hTA.2.2 ?_
        refine not_includes_append_h uiTok_chars (Or.inl hsG) hGu ?_
        exact not_includes_cons_nl uiTok_chars (by decide)
          (not_includes_append_h uiTok_chars (Or.inl hsW) hWu hRu)
      have hOUT := @uiStage_noweb_noui IS_WATCH ip port _ htu
      have hRg : jsIncludes (B1 ++ (renderUi UiShape.absent ++ C)) gameTok = false :=
        REST_no_tok gameTok_chars hTB.1 hTC.1 (by decide) hsB trivial
      exact ⟨_, hOUT,
        platformStage_redm_rdr3w hTA.1 hRg hg1 hg2 hgws hw1 hw2 hwws hvt, hOUT,
        fun _ => htu, fun h => absurd h (by decide : ¬ (false : Bool) = true),
        ⟨_, rfl, hRg⟩⟩
    | decl q1u q2u wsu valu =>
      obtain ⟨hqu1, hqu2, hwsu, hvqu, hvtu⟩ := hUwf
      have hD0u : jsIncludes (A ++ (renderGame g1 g2 gws rdr3Lit ++
          ('\n' :: (renderStmt warnTok w1 w2 wws wv ++ B1)))) uiTok = false := by
        refine not_includes_append_h uiTok_chars (Or.inl hsA) hTA.2.2 ?_
        refine not_includes_append_h uiTok_chars (Or.inl hsG) hGu ?_
        exact not_includes_cons_nl uiTok_chars (by decide)
          (not_includes_append_h uiTok_chars (Or.inl hsW) hWu hTB.2.2)
      have hshape : A ++ (renderGame g1 g2 gws rdr3Lit ++
          ('\n' :: (renderStmt warnTok w1 w2 wws wv ++
            (B1 ++ (renderStmt uiTok q1u q2u wsu valu ++ C))))) =
          (A ++ (renderGame g1 g2 gws rdr3Lit ++
            ('\n' :: (renderStmt warnTok w1 w2 wws wv ++ B1)))) ++
          (renderStmt uiTok q1u q2u wsu valu ++ C) := by
        simp
      have hOUT : uiStage IS_WATCH false ip port
          (A ++ (renderGame g1 g2 gws rdr3Lit ++
            ('\n' :: (renderStmt warnTok w1 w2 wws wv ++
              (B1 ++ (renderUi (UiShape.decl q1u q2u wsu valu) ++ C)))))) =
          trimEnd (A ++ (renderGame g1 g2 gws rdr3Lit ++
            ('\n' :: (renderStmt warnTok w1 w2 wws wv ++ B1)))) ++
            '\n' :: List.dropWhile isSpaceJS C := by
        simp only [renderUi]
        rw [hshape]
        exact uiStage_noweb_removes hD0u hTC.2.2 hqu1 hqu2 hwsu hvqu
      have htr : trimEnd (A ++ (renderGame g1 g2 gws rdr3Lit ++
          ('\n' :: (renderStmt warnTok w1 w2 wws wv ++ B1)))) =
          (A ++ (renderGame g1 g2 gws rdr3Lit ++
            ('\n' :: renderStmt warnTok w1 w2 wws wv))) ++ trimEnd B1 := by
        have he : A ++ (renderGame g1 g2 gws rdr3Lit ++
            ('\n' :: (renderStmt warnTok w1 w2 wws wv ++ B1))) =
            (A ++ (renderGame g1 g2 gws rdr3Lit ++
              ('\n' :: renderStmt warnTok w1 w2 wws wv))) ++ B1 := by
          simp
        rw [he]
        exact trimEnd_append_lastNonspace hlastGW
      have hOsh : trimEnd (A ++ (renderGame g1 g2 gws rdr3Lit ++
          ('\n' :: (renderStmt warnTok w1 w2 wws wv ++ B1)))) ++
          '\n' :: List.dropWhile isSpaceJS C =
          A ++ (renderGame g1 g2 gws rdr3Lit ++
            ('\n' :: (renderStmt warnTok w1 w2 wws wv ++
              (trimEnd B1 ++ ('\n' :: List.dropWhile isSpaceJS C))))) := by
        rw [htr]
        simp
      have hR2g : jsIncludes (trimEnd B1 ++ ('\n' :: List.dropWhile isSpaceJS C))
          gameTok = false :=
        not_includes_trim_nl (Y := List.dropWhile isSpaceJS C) gameTok_chars (by decide)
          hTB.1 (dropWhile_suffix_includes hTC.1)
      have hOu : jsIncludes (trimEnd (A ++ (renderGame g1 g2 gws rdr3Lit ++
          ('\n' :: (renderStmt warnTok w1 w2 wws wv ++ B1)))) ++
          '\n' :: List.dropWhile isSpaceJS C) uiTok = false :=
        not_includes_trim_nl (Y := List.dropWhile isSpaceJS C) uiTok_chars (by decide)
          hD0u (dropWhile_suffix_includes hTC.2.2)
      refine ⟨_, hOUT, ?_, uiStage_noweb_noui hOu, fun _ => hOu,
        fun h => absurd h (by decide : ¬ (false : Bool) = true), ⟨_, hOsh, hR2g⟩⟩
      rw [hOsh]
      exact platformStage_redm_rdr3w hTA.1 hR2g hg1 hg2 hgws hw1 hw2 hwws hvt
  | true =>
    cases U with
    | absent =>
      have hRu : jsIncludes (B1 ++ (renderUi UiShape.absent ++ C)) uiTok = false :=
        REST_no_tok uiTok_chars hTB.2.2 hTC.2.2 (by decide) hsB trivial
      have htu : jsIncludes (A ++ (renderGame g1 g2 gws rdr3Lit ++
          ('\n' :: (renderStmt warnTok w1 w2 wws wv ++
            (B1 ++ (renderUi UiShape.absent ++ C)))))) uiTok = false := by
        refine not_includes_append_h uiTok_chars (Or.inl hsA) hTA.2.2 ?_
        refine not_includes_append_h uiTok_chars (Or.inl hsG) hGu ?_
        exact not_includes_cons_nl uiTok_chars (by decide)
          (not_includes_append_h uiTok_chars (Or.inl hsW) hWu hRu)
      have hOUT := @uiStage_web_append IS_WATCH ip port _ htu
      have hRg : jsIncludes (B1 ++ (renderUi UiShape.absent ++ C)) gameTok = false :=
        REST_no_tok gameTok_chars hTB.1 hTC.1 (by decide) hsB trivial
      have htr : trimEnd (A ++ (renderGame g1 g2 gws rdr3Lit ++
          ('\n' :: (renderStmt warnTok w1 w2 wws wv ++
            (B1 ++ (renderUi UiShape.absent ++ C)))))) =
          (A ++ (renderGame g1 g2 gws rdr3Lit ++
            ('\n' :: renderStmt warnTok w1 w2 wws wv))) ++
            trimEnd (B1 ++ (renderUi UiShape.absent ++ C)) := by
        have he : A ++ (renderGame g1 g2 gws rdr3Lit ++
            ('\n' :: (renderStmt warnTok w1 w2 wws wv ++
              (B1 ++ (renderUi UiShape.absent ++ C))))) =
            (A ++ (renderGame g1 g2 gws rdr3Lit ++
              ('\n' :: renderStmt warnTok w1 w2 wws wv))) ++
            (B1 ++ (renderUi UiShape.absent ++ C)) := by
          simp
        rw [he]
        exact trimEnd_append_lastNonspace hlastGW
      have hOsh : trimEnd (A ++ (renderGame g1 g2 gws rdr3Lit ++
          ('\n' :: (renderStmt warnTok w1 w2 wws wv ++
            (B1 ++ (renderUi UiShape.absent ++ C)))))) ++
          '\n' :: '\n' :: (desiredUiPageOf IS_WATCH ip port ++ ['\n']) =
          A ++ (renderGame g1 g2 gws rdr3Lit ++
            ('\n' :: (renderStmt warnTok w1 w2 wws wv ++
              (trimEnd (B1 ++ (renderUi UiShape.absent ++ C)) ++
                ('\n' :: '\n' :: (desiredUiPageOf IS_WATCH ip port ++ ['\n'])))))) := by
        rw [htr]
        simp
      have hR3g : jsIncludes (trimEnd (B1 ++ (renderUi UiShape.absent ++ C)) ++
          ('\n' :: '\n' :: (desiredUiPageOf IS_WATCH ip port ++ ['\n']))) gameTok = false := by
        refine not_includes_append_h gameTok_chars (Or.inr ?_)
          (trimEnd_prefix_includes hRg) ?_
        · intro x xs hx
          injection hx with h1 _
          rw [← h1]
          left
          decide
        · refine not_includes_cons_nl gameTok_chars (by decide) ?_
          refine not_includes_cons_nl gameTok_chars (by decide) ?_
          exact not_includes_append_h gameTok_chars
            (Or.inl (sepEndB_desired IS_WATCH ip port)) (desired_no_game hipt) (by decide)
      have hOeq : trimEnd (A ++ (renderGame g1 g2 gws rdr3Lit ++
          ('\n' :: (renderStmt warnTok w1 w2 wws wv ++
            (B1 ++ (renderUi UiShape.absent ++ C)))))) ++
          '\n' :: '\n' :: (desiredUiPageOf IS_WATCH ip port ++ ['\n']) =
          (trimEnd (A ++ (renderGame g1 g2 gws rdr3Lit ++
            ('\n' :: (renderStmt warnTok w1 w2 wws wv ++
              (B1 ++ (renderUi UiShape.absent ++ C)))))) ++ ['\n', '\n']) ++
            (desiredUiPageOf IS_WATCH ip port ++ ['\n']) := by
        simp
      have hD1u : jsIncludes (trimEnd (A ++ (renderGame g1 g2 gws rdr3Lit ++
          ('\n' :: (renderStmt warnTok w1 w2 wws wv ++
            (B1 ++ (renderUi UiShape.absent ++ C)))))) ++ ['\n', '\n']) uiTok = false := by
        refine not_includes_append_h uiTok_chars (Or.inr ?_)
          (trimEnd_prefix_includes htu) (by decide)
        intro x xs hx
        injection hx with h1 _
        rw [← h1]
        left
        decide
      refine ⟨_, hOUT, ?_, ?_, fun h => absurd h (by decide : ¬ (true : Bool) = false), ?_,
        ⟨_, hOsh, hR3g⟩⟩
      · rw [hOsh]
        exact platformStage_redm_rdr3w hTA.1 hR3g hg1 hg2 hgws hw1 hw2 hwws hvt
      · rw [hOeq]
        exact uiStage_id_desired hD1u hipq
      · intro h
        exact ⟨_, _, hOeq, hD1u, by decide⟩
    | decl q1u q2u wsu valu =>
      obtain ⟨hqu1, hqu2, hwsu, hvqu, hvtu⟩ := hUwf
      have hD0u : jsIncludes (A ++ (renderGame g1 g2 gws rdr3Lit ++
          ('\n' :: (renderStmt warnTok w1 w2 wws wv ++ B1)))) uiTok = false := by
        refine not_includes_append_h uiTok_chars (Or.inl hsA) hTA.2.2 ?_
        refine not_includes_append_h uiTok_chars (Or.inl hsG) hGu ?_
        exact not_includes_cons_nl uiTok_chars (by decide)
          (not_includes_append_h uiTok_chars (Or.inl hsW) hWu hTB.2.2)
      have hshape : A ++ (renderGame g1 g2 gws rdr3Lit ++
          ('\n' :: (renderStmt warnTok w1 w2 wws wv ++
            (B1 ++ (renderStmt uiTok q1u q2u wsu valu ++ C))))) =
          (A ++ (renderGame g1 g2 gws rdr3Lit ++
            ('\n' :: (renderStmt warnTok w1 w2 wws wv ++ B1)))) ++
          (renderStmt uiTok q1u q2u wsu valu ++ C) := by
        simp
      have hOUT : uiStage IS_WATCH true ip port
          (A ++ (renderGame g1 g2 gws rdr3Lit ++
            ('\n' :: (renderStmt warnTok w1 w2 wws wv ++
              (B1 ++ (renderUi (UiShape.decl q1u q2u wsu valu) ++ C)))))) =
          (A ++ (renderGame g1 g2 gws rdr3Lit ++
            ('\n' :: (renderStmt warnTok w1 w2 wws wv ++ B1)))) ++
            (desiredUiPageOf IS_WATCH ip port ++ C) := by
        simp only [renderUi]
        rw [hshape]
        exact uiStage_web_replace hD0u hqu1 hqu2 hwsu hvqu
      have hOsh : (A ++ (renderGame g1 g2 gws rdr3Lit ++
          ('\n' :: (renderStmt warnTok w1 w2 wws wv ++ B1)))) ++
          (desiredUiPageOf IS_WATCH ip port ++ C) =
          A ++ (renderGame g1 g2 gws rdr3Lit ++
            ('\n' :: (renderStmt warnTok w1 w2 wws wv ++
              (B1 ++ (desiredUiPageOf IS_WATCH ip port ++ C))))) := by
        simp
      have hR4g : jsIncludes (B1 ++ (desiredUiPageOf IS_WATCH ip port ++ C))
          gameTok = false := by
        refine not_includes_append_h gameTok_chars (Or.inl hsB) hTB.1 ?_
        exact not_includes_append_h gameTok_chars
          (Or.inl (sepEndB_desired IS_WATCH ip port)) (desired_no_game hipt) hTC.1
      refine ⟨_, hOUT, ?_, uiStage_id_desired hD0u hipq,
        fun h => absurd h (by decide : ¬ (true : Bool) = false),
        fun _ => ⟨_, C, rfl, hD0u, hTC.2.2⟩, ⟨_, hOsh, hR4g⟩⟩
      rw [hOsh]
      exact platformStage_redm_rdr3w hTA.1 hR4g hg1 hg2 hgws hw1 hw2 hwws hvt

theorem fam_fivem (IS_WATCH HAS_WEB_DIR : Bool) (ip : List Char) (port : Nat)
    {A B1 : List Char} {U : UiShape} {C : List Char} {g1 g2 : Char} {gws : List Char}
    (hTA : TokenFree A) (hTB : TokenFree B1) (hTC : TokenFree C)
    (hUwf : WfUi U) (hsA : sepEndB A = true) (hsB : sepEndB B1 = true)
    (hg1 : isQuoteC g1 = true) (hg2 : isQuoteC g2 = true) (hgws : WfWs gws)
    (hipq : QuoteFree ip) (hipt : TokenFree ip) :
    ∃ OUT, uiStage IS_WATCH HAS_WEB_DIR ip port
        (A ++ (renderGame g1 g2 gws gta5Lit ++ (B1 ++ (renderUi U ++ C)))) = OUT ∧
      platformStage false OUT = OUT ∧
      uiStage IS_WATCH HAS_WEB_DIR ip port OUT = OUT ∧
      (HAS_WEB_DIR = false → jsIncludes OUT uiTok = false) ∧
      (HAS_WEB_DIR = true → ∃ D1 E1,
        OUT = D1 ++ (desiredUiPageOf IS_WATCH ip port ++ E1) ∧
        jsIncludes D1 uiTok = false ∧ jsIncludes E1 uiTok = false) ∧
      (∃ R2, OUT = A ++ (renderGame g1 g2 gws gta5Lit ++ R2) ∧
        jsIncludes R2 gameTok = false ∧ jsIncludes R2 warnTok = false) := by
  have hGu : jsIncludes (renderGame g1 g2 gws gta5Lit) uiTok = false := by
    rw [renderGame_eq_renderStmt]
    exact renderStmt_not_includes uiTok_chars (by decide) hgws.2 hg1 hg2 (by decide) (by decide)
  have hsG : sepEndB (renderGame g1 g2 gws gta5Lit) = true := by
    rw [renderGame_eq_renderStmt]
    exact sepEndB_renderStmt hg2
  have hlastG : ∀ c, (A ++ renderGame g1 g2 gws gta5Lit).getLast? = some c →
      isSpaceJS c = false := by
    intro c hc
    rw [List.getLast?_append_of_ne_nil _ (by
        rw [renderGame_eq_renderStmt]; exact renderStmt_ne_nil _ _ _ _ _),
      renderGame_eq_renderStmt, renderStmt_getLast] at hc
    injection hc with h1
    rw [← h1]
    exact quote_not_space hg2
  cases HAS_WEB_DIR with
  | false =>
    cases U with
    | absent =>
      have hRu : jsIncludes (B1 ++ (renderUi UiShape.absent ++ C)) uiTok = false :=
        REST_no_tok uiTok_chars hTB.2.2 hTC.2.2 (by decide) hsB trivial
      have htu : jsIncludes (A ++ (renderGame g1 g2 gws gta5Lit ++
          (B1 ++ (renderUi UiShape.absent ++ C)))) uiTok = false := by
        refine not_includes_append_h uiTok_chars (Or.inl hsA) hTA.2.2 ?_
        exact not_includes_append_h uiTok_chars (Or.inl hsG) hGu hRu
      have hOUT := @uiStage_noweb_noui IS_WATCH ip port _ htu
      have hRg : jsIncludes (B1 ++ (renderUi UiShape.absent ++ C)) gameTok = false :=
        REST_no_tok gameTok_chars hTB.1 hTC.1 (by decide) hsB trivial
      have hRw : jsIncludes (B1 ++ (renderUi UiShape.absent ++ C)) warnTok = false :=
        REST_no_tok warnTok_chars hTB.2.1 hTC.2.1 (by decide) hsB trivial
      exact ⟨_, hOUT, platformStage_fivem_gta5 hTA.1 hTA.2.1 hsA hRg hRw hg1 hg2 hgws,
        hOUT, fun _ => htu, fun h => absurd h (by decide : ¬ (false : Bool) = true),
        ⟨_, rfl, hRg, hRw⟩⟩
    | decl q1u q2u wsu valu =>
      obtain ⟨hqu1, hqu2, hwsu, hvqu, hvtu⟩ := hUwf
      have hD0u : jsIncludes (A ++ (renderGame g1 g2 gws gta5Lit ++ B1)) uiTok = false := by
        refine not_includes_append_h uiTok_chars (Or.inl hsA) hTA.2.2 ?_
        exact not_includes_append_h uiTok_chars (Or.inl hsG) hGu hTB.2.2
      have hshape : A ++ (renderGame g1 g2 gws gta5Lit ++
          (B1 ++ (renderStmt uiTok q1u q2u wsu valu ++ C))) =
          (A ++ (renderGame g1 g2 gws gta5Lit ++ B1)) ++
          (renderStmt uiTok q1u q2u wsu valu ++ C) := by
        simp
      have hOUT : uiStage IS_WATCH false ip port
          (A ++ (renderGame g1 g2 gws gta5Lit ++
            (B1 ++ (renderUi (UiShape.decl q1u q2u wsu valu) ++ C)))) =
          trimEnd (A ++ (renderGame g1 g2 gws gta5Lit ++ B1)) ++
            '\n' :: List.dropWhile isSpaceJS C := by
        simp only [renderUi]
        rw [hshape]
        exact uiStage_noweb_removes hD0u hTC.2.2 hqu1 hqu2 hwsu hvqu
      have htr : trimEnd (A ++ (renderGame g1 g2 gws gta5Lit ++ B1)) =
          (A ++ renderGame g1 g2 gws gta5Lit) ++ trimEnd B1 := by
        have he : A ++ (renderGame g1 g2 gws gta5Lit ++ B1) =
            (A ++ renderGame g1 g2 gws gta5Lit) ++ B1 := by
          simp
        rw [he]
        exact trimEnd_append_lastNonspace hlastG
      have hOsh : trimEnd (A ++ (renderGame g1 g2 gws gta5Lit ++ B1)) ++
          '\n' :: List.dropWhile isSpaceJS C =
          A ++ (renderGame g1 g2 gws gta5Lit ++
            (trimEnd B1 ++ ('\n' :: List.dropWhile isSpaceJS C))) := by
        rw [htr]
        simp
      have hR2g : jsIncludes (trimEnd B1 ++ ('\n' :: List.dropWhile isSpaceJS C))
          gameTok = false :=
        not_includes_trim_nl (Y := List.dropWhile isSpaceJS C) gameTok_chars (by decide)
          hTB.1 (dropWhile_suffix_includes hTC.1)
      have hR2w : jsIncludes (trimEnd B1 ++ ('\n' :: List.dropWhile isSpaceJS C))
          warnTok = false :=
        not_includes_trim_nl (Y := List.dropWhile isSpaceJS C) warnTok_chars (by decide)
          hTB.2.1 (dropWhile_suffix_includes hTC.2.1)
      have hOu : jsIncludes (trimEnd (A ++ (renderGame g1 g2 gws gta5Lit ++ B1)) ++
          '\n' :: List.dropWhile isSpaceJS C) uiTok = false :=
        not_includes_trim_nl (Y := List.dropWhile isSpaceJS C) uiTok_chars (by decide)
          hD0u (dropWhile_suffix_includes hTC.2.2)
      refine ⟨_, hOUT, ?_, uiStage_noweb_noui hOu, fun _ => hOu,
        fun h => absurd h (by decide : ¬ (false : Bool) = true), ⟨_, hOsh, hR2g, hR2w⟩⟩
      rw [hOsh]
      exact platformStage_fivem_gta5 hTA.1 hTA.2.1 hsA hR2g hR2w hg1 hg2 hgws
  | true =>
    cases U with
    | absent =>
      have hRu : jsIncludes (B1 ++ (renderUi UiShape.absent ++ C)) uiTok = false :=
        REST_no_tok uiTok_chars hTB.2.2 hTC.2.2 (by decide) hsB trivial
      have htu : jsIncludes (A ++ (renderGame g1 g2 gws gta5Lit ++
          (B1 ++ (renderUi UiShape.absent ++ C)))) uiTok = false := by
        refine not_includes_append_h uiTok_chars (Or.inl hsA) hTA.2.2 ?_
        exact not_includes_append_h uiTok_chars (Or.inl hsG) hGu hRu
      have hOUT := @uiStage_web_append IS_WATCH ip port _ htu
      have hRg : jsIncludes (B1 ++ (renderUi UiShape.absent ++ C)) gameTok = false :=
        REST_no_tok gameTok_chars hTB.1 hTC.1 (by decide) hsB trivial
      have hRw : jsIncludes (B1 ++ (renderUi UiShape.absent ++ C)) warnTok = false :=
        REST_no_tok warnTok_chars hTB.2.1 hTC.2.1 (by decide) hsB trivial
      have htr : trimEnd (A ++ (renderGame g1 g2 gws gta5Lit ++
          (B1 ++ (renderUi UiShape.absent ++ C)))) =
          (A ++ renderGame g1 g2 gws gta5Lit) ++
            trimEnd (B1 ++ (renderUi UiShape.absent ++ C)) := by
        have he : A ++ (renderGame g1 g2 gws gta5Lit ++
            (B1 ++ (renderUi UiShape.absent ++ C))) =
            (A ++ renderGame g1 g2 gws gta5Lit) ++
            (B1 ++ (renderUi UiShape.absent ++ C)) := by
          simp
        rw [he]
        exact trimEnd_append_lastNonspace hlastG
      have hOsh : trimEnd (A ++ (renderGame g1 g2 gws gta5Lit ++
          (B1 ++ (renderUi UiShape.absent ++ C)))) ++
          '\n' :: '\n' :: (desiredUiPageOf IS_WATCH ip port ++ ['\n']) =
          A ++ (renderGame g1 g2 gws gta5Lit ++
            (trimEnd (B1 ++ (renderUi UiShape.absent ++ C)) ++
              ('\n' :: '\n' :: (desiredUiPageOf IS_WATCH ip port ++ ['\n'])))) := by
        rw [htr]
        simp
      have hR3g : jsIncludes (trimEnd (B1 ++ (renderUi UiShape.absent ++ C)) ++
          ('\n' :: '\n' :: (desiredUiPageOf IS_WATCH ip port ++ ['\n']))) gameTok = false := by
        refine not_includes_append_h gameTok_chars (Or.inr ?_)
          (trimEnd_prefix_includes hRg) ?_
        · intro x xs hx
          injection hx with h1 _
          rw [← h1]
          left
          decide
        · refine not_includes_cons_nl gameTok_chars (by decide) ?_
          refine not_includes_cons_nl gameTok_chars (by decide) ?_
          exact not_includes_append_h gameTok_chars
            (Or.inl (sepEndB_desired IS_WATCH ip port)) (desired_no_game hipt) (by decide)
      have hR3w : jsIncludes (trimEnd (B1 ++ (renderUi UiShape.absent ++ C)) ++
          ('\n' :: '\n' :: (desiredUiPageOf IS_WATCH ip port ++ ['\n']))) warnTok = false := by
        refine not_includes_append_h warnTok_chars (Or.inr ?_)
          (trimEnd_prefix_includes hRw) ?_
        · intro x xs hx
          injection hx with h1 _
          rw [← h1]
          left
          decide
        · refine not_includes_cons_nl warnTok_chars (by decide) ?_
          refine not_includes_cons_nl warnTok_chars (by decide) ?_
          exact not_includes_append_h warnTok_chars
            (Or.inl (sepEndB_desired IS_WATCH ip port)) (desired_no_warn hipt) (by decide)
      have hOeq : trimEnd (A ++ (renderGame g1 g2 gws gta5Lit ++
          (B1 ++ (renderUi UiShape.absent ++ C)))) ++
          '\n' :: '\n' :: (desiredUiPageOf IS_WATCH ip port ++ ['\n']) =
          (trimEnd (A ++ (renderGame g1 g2 gws gta5Lit ++
            (B1 ++ (renderUi UiShape.absent ++ C)))) ++ ['\n', '\n']) ++
            (desiredUiPageOf IS_WATCH ip port ++ ['\n']) := by
        simp
      have hD1u : jsIncludes (trimEnd (A ++ (renderGame g1 g2 gws gta5Lit ++
          (B1 ++ (renderUi UiShape.absent ++ C)))) ++ ['\n', '\n']) uiTok = false := by
        refine not_includes_append_h uiTok_chars (Or.inr ?_)
          (trimEnd_prefix_includes htu) (by decide)
        intro x xs hx
        injection hx with h1 _
        rw [← h1]
        left
        decide
      refine ⟨_, hOUT, ?_, ?_, fun h => absurd h (by decide : ¬ (true : Bool) = false), ?_,
        ⟨_, hOsh, hR3g, hR3w⟩⟩
      · rw [hOsh]
        exact platformStage_fivem_gta5 hTA.1 hTA.2.1 hsA hR3g hR3w hg1 hg2 hgws
      · rw [hOeq]
        exact uiStage_id_desired hD1u hipq
      · intro h
        exact ⟨_, _, hOeq, hD1u, by decide⟩
    | decl q1u q2u wsu valu =>
      obtain ⟨hqu1, hqu2, hwsu, hvqu, hvtu⟩ := hUwf
      have hD0u : jsIncludes (A ++ (renderGame g1 g2 gws gta5Lit ++ B1)) uiTok = false := by
        refine not_includes_append_h uiTok_chars (Or.inl hsA) hTA.2.2 ?_
        exact not_includes_append_h uiTok_chars (Or.inl hsG) hGu hTB.2.2
      have hshape : A ++ (renderGame g1 g2 gws gta5Lit ++
          (B1 ++ (renderStmt uiTok q1u q2u wsu valu ++ C))) =
          (A ++ (renderGame g1 g2 gws gta5Lit ++ B1)) ++
          (renderStmt uiTok q1u q2u wsu valu ++ C) := by
        simp
      have hOUT : uiStage IS_WATCH true ip port
          (A ++ (renderGame g1 g2 gws gta5Lit ++
            (B1 ++ (renderUi (UiShape.decl q1u q2u wsu valu) ++ C)))) =
          (A ++ (renderGame g1 g2 gws gta5Lit ++ B1)) ++
            (desiredUiPageOf IS_WATCH ip port ++ C) := by
        simp only [renderUi]
        rw [hshape]
        exact uiStage_web_replace hD0u hqu1 hqu2 hwsu hvqu
      have hOsh : (A ++ (renderGame g1 g2 gws gta5Lit ++ B1)) ++
          (desiredUiPageOf IS_WATCH ip port ++ C) =
          A ++ (renderGame g1 g2 gws gta5Lit ++
            (B1 ++ (desiredUiPageOf IS_WATCH ip port ++ C))) := by
        simp
      have hR4g : jsIncludes (B1 ++ (desiredUiPageOf IS_WATCH ip port ++ C))
          gameTok = false := by
        refine not_includes_append_h gameTok_chars (Or.inl hsB) hTB.1 ?_
        exact not_includes_append_h gameTok_chars
          (Or.inl (sepEndB_desired IS_WATCH ip port)) (desired_no_game hipt) hTC.1
      have hR4w : jsIncludes (B1 ++ (desiredUiPageOf IS_WATCH ip port ++ C))
          warnTok = false := by
        refine not_includes_append_h warnTok_chars (Or.inl hsB) hTB.2.1 ?_
        exact not_includes_append_h warnTok_chars
          (Or.inl (sepEndB_desired IS_WATCH ip port)) (desired_no_warn hipt) hTC.2.1
      refine ⟨_, hOUT, ?_, uiStage_id_desired hD0u hipq,
        fun h => absurd h (by decide : ¬ (true : Bool) = false),
        fun _ => ⟨_, C, rfl, hD0u, hTC.2.2⟩, ⟨_, hOsh, hR4g, hR4w⟩⟩
      rw [hOsh]
      exact platformStage_fivem_gta5 hTA.1 hTA.2.1 hsA hR4g hR4w hg1 hg2 hgws

theorem patch_master (IS_REDM IS_WATCH HAS_WEB_DIR : Bool) (ip : List Char) (port : Nat)
    (A : List Char) (P : PlatShape) (B : List Char) (U : UiShape) (C : List Char)
    (hwf : WfManifest A P B U C) (hipq : QuoteFree ip) (hipt : TokenFree ip) :
    updateFxManifest IS_REDM IS_WATCH HAS_WEB_DIR ip port
        (updateFxManifest IS_REDM IS_WATCH HAS_WEB_DIR ip port (renderManifest A P B U C)) =
      updateFxManifest IS_REDM IS_WATCH HAS_WEB_DIR ip port (renderManifest A P B U C) ∧
    (HAS_WEB_DIR = false →
      jsIncludes (updateFxManifest IS_REDM IS_WATCH HAS_WEB_DIR ip port
        (renderManifest A P B U C)) uiTok = false) ∧
    (HAS_WEB_DIR = true → ∃ D1 E1,
      updateFxManifest IS_REDM IS_WATCH HAS_WEB_DIR ip port (renderManifest A P B U C) =
        D1 ++ (desiredUiPageOf IS_WATCH ip port ++ E1) ∧
      jsIncludes D1 uiTok = false ∧ jsIncludes E1 uiTok = false) := by
  obtain ⟨hTA, hTB, hTC, hWP, hWU, hsA, hsB⟩ := hwf
  have hRg : jsIncludes (B ++ (renderUi U ++ C)) gameTok = false :=
    REST_no_tok gameTok_chars hTB.1 hTC.1 (renderUi_no_game hWU) hsB hWU
  have hRw : jsIncludes (B ++ (renderUi U ++ C)) warnTok = false :=
    REST_no_tok warnTok_chars hTB.2.1 hTC.2.1 (renderUi_no_warn hWU) hsB hWU
  have hGR : gameRdr3Repl = renderGame sqc sqc [' '] rdr3Lit := by decide
  have hWL : rdr3WarningLine = renderStmt warnTok sqc sqc [' ']
      (str "I acknowledge that this is a prerelease build of RedM, and I am aware my resources *will* become incompatible once RedM ships.") := by
    decide
  have hGG : gameGta5Repl = renderGame sqc sqc [' '] gta5Lit := by decide
  have hwsp : WfWs [' '] :=
    ⟨by simp, by intro c hc; simp at hc; rw [hc]; decide⟩
  cases IS_REDM with
  | true =>
    cases P with
    | absent =>
      have hren : renderManifest A PlatShape.absent B U C =
          A ++ (B ++ (renderUi U ++ C)) := by
        simp [renderManifest, renderPlat, List.append_assoc]
      have htg : jsIncludes (A ++ (B ++ (renderUi U ++ C))) gameTok = false :=
        not_includes_append_h gameTok_chars (Or.inl hsA) hTA.1 hRg
      have hplat : platformStage true (A ++ (B ++ (renderUi U ++ C))) =
          A ++ (B ++ (renderUi U ++ C)) := platformStage_redm_nogame htg
      obtain ⟨OUT, h1, h2, h3, h4, h5⟩ := fam_nogame true IS_WATCH HAS_WEB_DIR ip port
        hTA hTB hTC hWU hsA hsB hipq hipt
      have hup1 : updateFxManifest true IS_WATCH HAS_WEB_DIR ip port
          (renderManifest A PlatShape.absent B U C) = OUT := by
        unfold updateFxManifest
        rw [hren, hplat]
        exact h1
      refine ⟨?_, ?_, ?_⟩
      · rw [hup1]
        unfold updateFxManifest
        rw [h2]
        exact h3
      · intro h
        rw [hup1]
        exact h4 h
      · intro h
        rw [hup1]
        exact h5 h
    | gta5 g1 g2 gws =>
      obtain ⟨hg1, hg2, hgws⟩ := hWP
      have hren : renderManifest A (PlatShape.gta5 g1 g2 gws) B U C =
          A ++ (renderGame g1 g2 gws gta5Lit ++ (B ++ (renderUi U ++ C))) := by
        simp [renderManifest, renderPlat, List.append_assoc]
      have hplat := platformStage_redm_gta5 hTA.1 hTA.2.1 hsA hRw hg1 hg2 hgws
      have hmap : A ++ ((gameRdr3Repl ++ '\n' :: rdr3WarningLine) ++
          (B ++ (renderUi U ++ C))) =
          A ++ (renderGame sqc sqc [' '] rdr3Lit ++
            ('\n' :: (renderStmt warnTok sqc sqc [' ']
              (str "I acknowledge that this is a prerelease build of RedM, and I am aware my resources *will* become incompatible once RedM ships.") ++
              (B ++ (renderUi U ++ C))))) := by
        rw [hGR, hWL]
        simp
      obtain ⟨OUT, h1, h2, h3, h4, h5, -⟩ := @fam_redm IS_WATCH HAS_WEB_DIR ip port
        A B U C sqc sqc sqc sqc [' '] [' '] (str "I acknowledge that this is a prerelease build of RedM, and I am aware my resources *will* become incompatible once RedM ships.")
        hTA hTB hTC hWU hsA hsB (by decide) (by decide) hwsp (by decide) (by decide) hwsp
        (quoteFree_of_all (by decide)) ⟨by decide, by decide, by decide⟩ hipq hipt
      have hup1 : updateFxManifest true IS_WATCH HAS_WEB_DIR ip port
          (renderManifest A (PlatShape.gta5 g1 g2 gws) B U C) = OUT := by
        unfold updateFxManifest
        rw [hren, hplat, hmap]
        exact h1
      refine ⟨?_, ?_, ?_⟩
      · rw [hup1]
        unfold updateFxManifest
        rw [h2]
        exact h3
      · intro h
        rw [hup1]
        exact h4 h
      · intro h
        rw [hup1]
        exact h5 h
    | rdr3 g1 g2 gws =>
      obtain ⟨hg1, hg2, hgws⟩ := hWP
      have hren : renderManifest A (PlatShape.rdr3 g1 g2 gws) B U C =
          A ++ (renderGame g1 g2 gws rdr3Lit ++ (B ++ (renderUi U ++ C))) := by
        simp [renderManifest, renderPlat, List.append_assoc]
      have hplat := platformStage_redm_rdr3 hTA.1 hTA.2.1 hsA hRg hRw hg1 hg2 hgws
      have hmap : A ++ ((renderGame g1 g2 gws rdr3Lit ++ '\n' :: rdr3WarningLine) ++
          (B ++ (renderUi U ++ C))) =
          A ++ (renderGame g1 g2 gws rdr3Lit ++
            ('\n' :: (renderStmt warnTok sqc sqc [' ']
              (str "I acknowledge that this is a prerelease build of RedM, and I am aware my resources *will* become incompatible once RedM ships.") ++
              (B ++ (renderUi U ++ C))))) := by
        rw [hWL]
        simp
      obtain ⟨OUT, h1, h2, h3, h4, h5, -⟩ := @fam_redm IS_WATCH HAS_WEB_DIR ip port
        A B U C g1 g2 sqc sqc gws [' '] (str "I acknowledge that this is a prerelease build of RedM, and I am aware my resources *will* become incompatible once RedM ships.")
        hTA hTB hTC hWU hsA hsB hg1 hg2 hgws (by decide) (by decide) hwsp
        (quoteFree_of_all (by decide)) ⟨by decide, by decide, by decide⟩ hipq hipt
      have hup1 : updateFxManifest true IS_WATCH HAS_WEB_DIR ip port
          (renderManifest A (PlatShape.rdr3 g1 g2 gws) B U C) = OUT := by
        unfold updateFxManifest
        rw [hren, hplat, hmap]
        exact h1
      refine ⟨?_, ?_, ?_⟩
      · rw [hup1]
        unfold updateFxManifest
        rw [h2]
        exact h3
      · intro h
        rw [hup1]
        exact h4 h
      · intro h
        rw [hup1]
        exact h5 h
    | rdr3w g1 g2 gws w1 w2 wws wv =>
      obtain ⟨hg1, hg2, hgws, hw1, hw2, hwws, hvq, hvt⟩ := hWP
      have hren : renderManifest A (PlatShape.rdr3w g1 g2 gws w1 w2 wws wv) B U C =
          A ++ (renderGame g1 g2 gws rdr3Lit ++
            ('\n' :: (renderStmt warnTok w1 w2 wws wv ++ (B ++ (renderUi U ++ C))))) := by
        simp [renderManifest, renderPlat, List.append_assoc]
      have hplat := platformStage_redm_rdr3w (A := A) hTA.1 hRg hg1 hg2 hgws hw1 hw2
        hwws hvt
      obtain ⟨OUT, h1, h2, h3, h4, h5, -⟩ := fam_redm IS_WATCH HAS_WEB_DIR ip port
        hTA hTB hTC hWU hsA hsB hg1 hg2 hgws hw1 hw2 hwws hvq hvt hipq hipt
      have hup1 : updateFxManifest true IS_WATCH HAS_WEB_DIR ip port
          (renderManifest A (PlatShape.rdr3w g1 g2 gws w1 w2 wws wv) B U C) = OUT := by
        unfold updateFxManifest
        rw [hren, hplat]
        exact h1
      refine ⟨?_, ?_, ?_⟩
      · rw [hup1]
        unfold updateFxManifest
        rw [h2]
        exact h3
      · intro h
        rw [hup1]
        exact h4 h
      · intro h
        rw [hup1]
        exact h5 h
  | false =>
    cases P with
    | absent =>
      have hren : renderManifest A PlatShape.absent B U C =
          A ++ (B ++ (renderUi U ++ C)) := by
        simp [renderManifest, renderPlat, List.append_assoc]
      have htg : jsIncludes (A ++ (B ++ (renderUi U ++ C))) gameTok = false :=
        not_includes_append_h gameTok_chars (Or.inl hsA) hTA.1 hRg
      have htw : jsIncludes (A ++ (B ++ (renderUi U ++ C))) warnTok = false :=
        not_includes_append_h warnTok_chars (Or.inl hsA) hTA.2.1 hRw
      have hplat : platformStage false (A ++ (B ++ (renderUi U ++ C))) =
          A ++ (B ++ (renderUi U ++ C)) := platformStage_fivem_nogame htg htw
      obtain ⟨OUT, h1, h2, h3, h4, h5⟩ := fam_nogame false IS_WATCH HAS_WEB_DIR ip port
        hTA hTB hTC hWU hsA hsB hipq hipt
      have hup1 : updateFxManifest false IS_WATCH HAS_WEB_DIR ip port
          (renderManifest A PlatShape.absent B U C) = OUT := by
        unfold updateFxManifest
        rw [hren, hplat]
        exact h1
      refine ⟨?_, ?_, ?_⟩
      · rw [hup1]
        unfold updateFxManifest
        rw [h2]
        exact h3
      · intro h
        rw [hup1]
        exact h4 h
      · intro h
        rw [hup1]
        exact h5 h
    | gta5 g1 g2 gws =>
      obtain ⟨hg1, hg2, hgws⟩ := hWP
      have hren : renderManifest A (PlatShape.gta5 g1 g2 gws) B U C =
          A ++ (renderGame g1 g2 gws gta5Lit ++ (B ++ (renderUi U ++ C))) := by
        simp [renderManifest, renderPlat, List.append_assoc]
      have hplat := platformStage_fivem_gta5 hTA.1 hTA.2.1 hsA hRg hRw hg1 hg2 hgws
      obtain ⟨OUT, h1, h2, h3, h4, h5, -⟩ := fam_fivem IS_WATCH HAS_WEB_DIR ip port
        hTA hTB hTC hWU hsA hsB hg1 hg2 hgws hipq hipt
      have hup1 : updateFxManifest false IS_WATCH HAS_WEB_DIR ip port
          (renderManifest A (PlatShape.gta5 g1 g2 gws) B U C) = OUT := by
        unfold updateFxManifest
        rw [hren, hplat]
        exact h1
      refine ⟨?_, ?_, ?_⟩
      · rw [hup1]
        unfold updateFxManifest
        rw [h2]
        exact h3
      · intro h
        rw [hup1]
        exact h4 h
      · intro h
        rw [hup1]
        exact h5 h
    | rdr3 g1 g2 gws =>
      obtain ⟨hg1, hg2, hgws⟩ := hWP
      have hren : renderManifest A (PlatShape.rdr3 g1 g2 gws) B U C =
          A ++ (renderGame g1 g2 gws rdr3Lit ++ (B ++ (renderUi U ++ C))) := by
        simp [renderManifest, renderPlat, List.append_assoc]
      have hplat := platformStage_fivem_rdr3 hTA.1 hTA.2.1 hsA hRw hg1 hg2 hgws
      have hmap : A ++ (gameGta5Repl ++ (B ++ (renderUi U ++ C))) =
          A ++ (renderGame sqc sqc [' '] gta5Lit ++ (B ++ (renderUi U ++ C))) := by
        rw [hGG]
      obtain ⟨OUT, h1, h2, h3, h4, h5, -⟩ := @fam_fivem IS_WATCH HAS_WEB_DIR ip port
        A B U C sqc sqc [' '] hTA hTB hTC hWU hsA hsB (by decide) (by decide) hwsp hipq hipt
      have hup1 : updateFxManifest false IS_WATCH HAS_WEB_DIR ip port
          (renderManifest A (PlatShape.rdr3 g1 g2 gws) B U C) = OUT := by
        unfold updateFxManifest
        rw [hren, hplat, hmap]
        exact h1
      refine ⟨?_, ?_, ?_⟩
      · rw [hup1]
        unfold updateFxManifest
        rw [h2]
        exact h3
      · intro h
        rw [hup1]
        exact h4 h
      · intro h
        rw [hup1]
        exact h5 h
    | rdr3w g1 g2 gws w1 w2 wws wv =>
      obtain ⟨hg1, hg2, hgws, hw1, hw2, hwws, hvq, hvt⟩ := hWP
      have hren : renderManifest A (PlatShape.rdr3w g1 g2 gws w1 w2 wws wv) B U C =
          A ++ (renderGame g1 g2 gws rdr3Lit ++
            ('\n' :: (renderStmt warnTok w1 w2 wws wv ++ (B ++ (renderUi U ++ C))))) := by
        simp [renderManifest, renderPlat, List.append_assoc]
      have hplat := platformStage_fivem_rdr3w (A := A) hTA.1 hTA.2.1 hsA hRw hg1 hg2 hgws
        hw1 hw2 hwws hvq
      cases U with
      | absent =>
        have hTCp : TokenFree ('\n' :: List.dropWhile isSpaceJS
            (B ++ (renderUi UiShape.absent ++ C))) :=
          ⟨not_includes_cons_nl gameTok_chars (by decide) (dropWhile_suffix_includes hRg),
           not_includes_cons_nl warnTok_chars (by decide) (dropWhile_suffix_includes hRw),
           not_includes_cons_nl uiTok_chars (by decide) (dropWhile_suffix_includes
             (REST_no_tok uiTok_chars hTB.2.2 hTC.2.2 (by decide) hsB trivial))⟩
        have hmap : A ++ (gameGta5Repl ++ '\n' :: List.dropWhile isSpaceJS
            (B ++ (renderUi UiShape.absent ++ C))) =
            A ++ (renderGame sqc sqc [' '] gta5Lit ++ ([] ++ (renderUi UiShape.absent ++
              ('\n' :: List.dropWhile isSpaceJS (B ++ (renderUi UiShape.absent ++ C)))))) := by
          rw [hGG]
          simp [renderUi]
        obtain ⟨OUT, h1, h2, h3, h4, h5, -⟩ := @fam_fivem IS_WATCH HAS_WEB_DIR ip port
          A [] UiShape.absent ('\n' :: List.dropWhile isSpaceJS
            (B ++ (renderUi UiShape.absent ++ C))) sqc sqc [' ']
          hTA ⟨by decide, by decide, by decide⟩ hTCp trivial hsA (by decide) (by decide)
          (by decide) hwsp hipq hipt
        have hup1 : updateFxManifest false IS_WATCH HAS_WEB_DIR ip port
            (renderManifest A (PlatShape.rdr3w g1 g2 gws w1 w2 wws wv) B
              UiShape.absent C) = OUT := by
          unfold updateFxManifest
          rw [hren, hplat, hmap]
          exact h1
        refine ⟨?_, ?_, ?_⟩
        · rw [hup1]
          unfold updateFxManifest
          rw [h2]
          exact h3
        · intro h
          rw [hup1]
          exact h4 h
        · intro h
          rw [hup1]
          exact h5 h
      | decl q1u q2u wsu valu =>
        have hdw : List.dropWhile isSpaceJS
            (B ++ (renderUi (UiShape.decl q1u q2u wsu valu) ++ C)) =
            List.dropWhile isSpaceJS B ++
              (renderStmt uiTok q1u q2u wsu valu ++ C) := by
          simp only [renderUi]
          exact dropWhile_append_of_head (fun x xs hx => uiStmt_append_head x xs hx)
        have hTBp : TokenFree ('\n' :: List.dropWhile isSpaceJS B) :=
          ⟨not_includes_cons_nl gameTok_chars (by decide) (dropWhile_suffix_includes hTB.1),
           not_includes_cons_nl warnTok_chars (by decide) (dropWhile_suffix_includes hTB.2.1),
           not_includes_cons_nl uiTok_chars (by decide) (dropWhile_suffix_includes hTB.2.2)⟩
        have hsBp : sepEndB ('\n' :: List.dropWhile isSpaceJS B) = true :=
          sepEndB_cons (by decide) (sepEndB_dropWhile hsB)
        have hmap : A ++ (gameGta5Repl ++ '\n' :: List.dropWhile isSpaceJS
            (B ++ (renderUi (UiShape.decl q1u q2u wsu valu) ++ C))) =
            A ++ (renderGame sqc sqc [' '] gta5Lit ++
              (('\n' :: List.dropWhile isSpaceJS B) ++
                (renderUi (UiShape.decl q1u q2u wsu valu) ++ C))) := by
          rw [hGG, hdw]
          simp [renderUi]
        obtain ⟨OUT, h1, h2, h3, h4, h5, -⟩ := @fam_fivem IS_WATCH HAS_WEB_DIR ip port
          A ('\n' :: List.dropWhile isSpaceJS B) (UiShape.decl q1u q2u wsu valu) C
          sqc sqc [' '] hTA hTBp hTC hWU hsA hsBp (by decide) (by decide) hwsp hipq hipt
        have hup1 : updateFxManifest false IS_WATCH HAS_WEB_DIR ip port
            (renderManifest A (PlatShape.rdr3w g1 g2 gws w1 w2 wws wv) B
              (UiShape.decl q1u q2u wsu valu) C) = OUT := by
          unfold updateFxManifest
          rw [hren, hplat, hmap]
          exact h1
        refine ⟨?_, ?_, ?_⟩
        · rw [hup1]
          unfold updateFxManifest
          rw [h2]
          exact h3
        · intro h
          rw [hup1]
          exact h4 h
        · intro h
          rw [hup1]
          exact h5 h

/-- C3: on a supported manifest whose platform region is a legacy gta5
declaration, patching with the RedM flag yields a text containing the
rdr3 declaration with the fixed compatibility-warning line immediately
after it, and no gta5 platform declaration matches anywhere in the
result. -/
theorem redm_patch_installs_warning (IS_WATCH HAS_WEB_DIR : Bool) (ip : List Char)
    (port : Nat) (A : List Char) (g1 g2 : Char) (gws : List Char) (B : List Char)
    (U : UiShape) (C : List Char)
    (hwf : WfManifest A (PlatShape.gta5 g1 g2 gws) B U C)
    (hipq : QuoteFree ip) (hipt : TokenFree ip) :
    jsIncludes (updateFxManifest true IS_WATCH HAS_WEB_DIR ip port
        (renderManifest A (PlatShape.gta5 g1 g2 gws) B U C))
      (gameRdr3Repl ++ '\n' :: rdr3WarningLine) = true ∧
    findSplit (matchGame gta5Lit)
      (updateFxManifest true IS_WATCH HAS_WEB_DIR ip port
        (renderManifest A (PlatShape.gta5 g1 g2 gws) B U C)) = none := by
  obtain ⟨hTA, hTB, hTC, hWP, hWU, hsA, hsB⟩ := hwf
  obtain ⟨hg1, hg2, hgws⟩ := hWP
  have hwsp : WfWs [' '] :=
    ⟨by simp, by intro c hc; simp at hc; rw [hc]; decide⟩
  have hGR : gameRdr3Repl = renderGame sqc sqc [' '] rdr3Lit := by decide
  have hWL : rdr3WarningLine = renderStmt warnTok sqc sqc [' ']
      (str "I acknowledge that this is a prerelease build of RedM, and I am aware my resources *will* become incompatible once RedM ships.") := by
    decide
  have hRw : jsIncludes (B ++ (renderUi U ++ C)) warnTok = false :=
    REST_no_tok warnTok_chars hTB.2.1 hTC.2.1 (renderUi_no_warn hWU) hsB hWU
  have hren : renderManifest A (PlatShape.gta5 g1 g2 gws) B U C =
      A ++ (renderGame g1 g2 gws gta5Lit ++ (B ++ (renderUi U ++ C))) := by
    simp [renderManifest, renderPlat, List.append_assoc]
  have hplat := platformStage_redm_gta5 hTA.1 hTA.2.1 hsA hRw hg1 hg2 hgws
  have hmap : A ++ ((gameRdr3Repl ++ '\n' :: rdr3WarningLine) ++
      (B ++ (renderUi U ++ C))) =
      A ++ (renderGame sqc sqc [' '] rdr3Lit ++
        ('\n' :: (renderStmt warnTok sqc sqc [' ']
          (str "I acknowledge that this is a prerelease build of RedM, and I am aware my resources *will* become incompatible once RedM ships.") ++
          (B ++ (renderUi U ++ C))))) := by
    rw [hGR, hWL]
    simp
  obtain ⟨OUT, h1, -, -, -, -, h6⟩ := @fam_redm IS_WATCH HAS_WEB_DIR ip port
    A B U C sqc sqc sqc sqc [' '] [' ']
    (str "I acknowledge that this is a prerelease build of RedM, and I am aware my resources *will* become incompatible once RedM ships.")
    hTA hTB hTC hWU hsA hsB (by decide) (by decide) hwsp (by decide) (by decide) hwsp
    (quoteFree_of_all (by decide)) ⟨by decide, by decide, by decide⟩ hipq hipt
  have hup1 : updateFxManifest true IS_WATCH HAS_WEB_DIR ip port
      (renderManifest A (PlatShape.gta5 g1 g2 gws) B U C) = OUT := by
    unfold updateFxManifest
    rw [hren, hplat, hmap]
    exact h1
  obtain ⟨R2, hform, hR2g⟩ := h6
  rw [hup1, hform]
  constructor
  · have hsh : A ++ (renderGame sqc sqc [' '] rdr3Lit ++
        ('\n' :: (renderStmt warnTok sqc sqc [' ']
          (str "I acknowledge that this is a prerelease build of RedM, and I am aware my resources *will* become incompatible once RedM ships.") ++
          R2))) =
        A ++ ((gameRdr3Repl ++ '\n' :: rdr3WarningLine) ++ R2) := by
      rw [hGR, hWL]
      simp
    rw [hsh]
    exact jsIncludes_parts rfl
  · rw [renderGame_split]
    refine findSplit_eq_none_iff.mpr (noMatchGame_single_decl hTA.1 ?_ ?_)
    · refine gameTail_no_tok gameTok_chars (by decide) hwsp.2 (by decide) (by decide)
        (by decide) ?_
      refine not_includes_cons_nl gameTok_chars (by decide) ?_
      refine not_includes_append_h gameTok_chars
        (Or.inl (sepEndB_renderStmt (by decide))) ?_ hR2g
      exact renderStmt_not_includes gameTok_chars (by decide) hwsp.2 (by decide) (by decide)
        (by decide) (by decide)
    · exact matchGame_lit_mismatch rfl rfl (by decide) hwsp.1 hwsp.2 (by decide)

/-- C3 witness: the patch on a concrete gta5 manifest. -/
theorem redm_patch_installs_warning_witness :
    jsIncludes (updateFxManifest true false false [] 0
        (renderManifest (str "name x\n") (PlatShape.gta5 sqc sqc [' ']) []
          UiShape.absent []))
      (gameRdr3Repl ++ '\n' :: rdr3WarningLine) = true ∧
    findSplit (matchGame gta5Lit)
      (updateFxManifest true false false [] 0
        (renderManifest (str "name x\n") (PlatShape.gta5 sqc sqc [' ']) []
          UiShape.absent [])) = none :=
  redm_patch_installs_warning false false [] 0 (str "name x\n") sqc sqc [' '] []
    UiShape.absent []
    ⟨⟨by decide, by decide, by decide⟩, ⟨by decide, by decide, by decide⟩,
     ⟨by decide, by decide, by decide⟩,
     ⟨by decide, by decide, by simp, by intro c hc; simp at hc; rw [hc]; decide⟩,
     trivial, by decide, by decide⟩
    (by intro c hc; simp at hc) ⟨by decide, by decide, by decide⟩

/-- C4: on a supported manifest whose platform region is an rdr3
declaration followed by a warning line, patching without the RedM flag
restores the legacy gta5 declaration and leaves no trace of the
rdr3_warning token in the output. -/
theorem fivem_patch_removes_warning (IS_WATCH HAS_WEB_DIR : Bool) (ip : List Char)
    (port : Nat) (A : List Char) (g1 g2 : Char) (gws : List Char) (w1 w2 : Char)
    (wws wv : List Char) (B : List Char) (U : UiShape) (C : List Char)
    (hwf : WfManifest A (PlatShape.rdr3w g1 g2 gws w1 w2 wws wv) B U C)
    (hipq : QuoteFree ip) (hipt : TokenFree ip) :
    jsIncludes (updateFxManifest false IS_WATCH HAS_WEB_DIR ip port
        (renderManifest A (PlatShape.rdr3w g1 g2 gws w1 w2 wws wv) B U C))
      warnTok = false ∧
    jsIncludes (updateFxManifest false IS_WATCH HAS_WEB_DIR ip port
        (renderManifest A (PlatShape.rdr3w g1 g2 gws w1 w2 wws wv) B U C))
      gameGta5Repl = true := by
  obtain ⟨hTA, hTB, hTC, hWP, hWU, hsA, hsB⟩ := hwf
  obtain ⟨hg1, hg2, hgws, hw1, hw2, hwws, hvq, hvt⟩ := hWP
  have hwsp : WfWs [' '] :=
    ⟨by simp, by intro c hc; simp at hc; rw [hc]; decide⟩
  have hGG : gameGta5Repl = renderGame sqc sqc [' '] gta5Lit := by decide
  have hRg : jsIncludes (B ++ (renderUi U ++ C)) gameTok = false :=
    REST_no_tok gameTok_chars hTB.1 hTC.1 (renderUi_no_game hWU) hsB hWU
  have hRw : jsIncludes (B ++ (renderUi U ++ C)) warnTok = false :=
    REST_no_tok warnTok_chars hTB.2.1 hTC.2.1 (renderUi_no_warn hWU) hsB hWU
  have hren : renderManifest A (PlatShape.rdr3w g1 g2 gws w1 w2 wws wv) B U C =
      A ++ (renderGame g1 g2 gws rdr3Lit ++
        ('\n' :: (renderStmt warnTok w1 w2 wws wv ++ (B ++ (renderUi U ++ C))))) := by
    simp [renderManifest, renderPlat, List.append_assoc]
  have hplat := platformStage_fivem_rdr3w (A := A) hTA.1 hTA.2.1 hsA hRw hg1 hg2 hgws
    hw1 hw2 hwws hvq
  have hfin : ∀ OUT R2, OUT = A ++ (renderGame sqc sqc [' '] gta5Lit ++ R2) →
      jsIncludes R2 gameTok = false → jsIncludes R2 warnTok = false →
      jsIncludes OUT warnTok = false ∧ jsIncludes OUT gameGta5Repl = true := by
    intro OUT R2 hform hR2g hR2w
    have hRGw : jsIncludes (renderGame sqc sqc [' '] gta5Lit) warnTok = false := by
      rw [renderGame_eq_renderStmt]
      exact renderStmt_not_includes warnTok_chars (by decide) hwsp.2 (by decide) (by decide)
        (by decide) (by decide)
    constructor
    · rw [hform]
      refine not_includes_append_h warnTok_chars (Or.inl hsA) hTA.2.1 ?_
      refine not_includes_append_h warnTok_chars
        (Or.inl (by rw [renderGame_eq_renderStmt]; exact sepEndB_renderStmt (by decide)))
        hRGw hR2w
    · rw [hform]
      have hsh : A ++ (renderGame sqc sqc [' '] gta5Lit ++ R2) =
          A ++ (gameGta5Repl ++ R2) := by
        rw [hGG]
      rw [hsh]
      exact jsIncludes_parts rfl
  cases U with
  | absent =>
    have hTCp : TokenFree ('\n' :: List.dropWhile isSpaceJS
        (B ++ (renderUi UiShape.absent ++ C))) :=
      ⟨not_includes_cons_nl gameTok_chars (by decide) (dropWhile_suffix_includes hRg),
       not_includes_cons_nl warnTok_chars (by decide) (dropWhile_suffix_includes hRw),
       not_includes_cons_nl uiTok_chars (by decide) (dropWhile_suffix_includes
         (REST_no_tok uiTok_chars hTB.2.2 hTC.2.2 (by decide) hsB trivial))⟩
    have hmap : A ++ (gameGta5Repl ++ '\n' :: List.dropWhile isSpaceJS
        (B ++ (renderUi UiShape.absent ++ C))) =
        A ++ (renderGame sqc sqc [' '] gta5Lit ++ ([] ++ (renderUi UiShape.absent ++
          ('\n' :: List.dropWhile isSpaceJS (B ++ (renderUi UiShape.absent ++ C)))))) := by
      rw [hGG]
      simp [renderUi]
    obtain ⟨OUT, h1, -, -, -, -, R2, hform, hR2g, hR2w⟩ := @fam_fivem IS_WATCH HAS_WEB_DIR
      ip port A [] UiShape.absent ('\n' :: List.dropWhile isSpaceJS
        (B ++ (renderUi UiShape.absent ++ C))) sqc sqc [' ']
      hTA ⟨by decide, by decide, by decide⟩ hTCp trivial hsA (by decide) (by decide)
      (by decide) hwsp hipq hipt
    have hup1 : updateFxManifest false IS_WATCH HAS_WEB_DIR ip port
        (renderManifest A (PlatShape.rdr3w g1 g2 gws w1 w2 wws wv) B
          UiShape.absent C) = OUT := by
      unfold updateFxManifest
      rw [hren, hplat, hmap]
      exact h1
    rw [hup1]
    exact hfin OUT R2 hform hR2g hR2w
  | decl q1u q2u wsu valu =>
    have hdw : List.dropWhile isSpaceJS
        (B ++ (renderUi (UiShape.decl q1u q2u wsu valu) ++ C)) =
        List.dropWhile isSpaceJS B ++ (renderStmt uiTok q1u q2u wsu valu ++ C) := by
      simp only [renderUi]
      exact dropWhile_append_of_head (fun x xs hx => uiStmt_append_head x xs hx)
    have hTBp : TokenFree ('\n' :: List.dropWhile isSpaceJS B) :=
      ⟨not_includes_cons_nl gameTok_chars (by decide) (dropWhile_suffix_includes hTB.1),
       not_includes_cons_nl warnTok_chars (by decide) (dropWhile_suffix_includes hTB.2.1),
       not_includes_cons_nl uiTok_chars (by decide) (dropWhile_suffix_includes hTB.2.2)⟩
    have hsBp : sepEndB ('\n' :: List.dropWhile isSpaceJS B) = true :=
      sepEndB_cons (by decide) (sepEndB_dropWhile hsB)
    have hmap : A ++ (gameGta5Repl ++ '\n' :: List.dropWhile isSpaceJS
        (B ++ (renderUi (UiShape.decl q1u q2u wsu valu) ++ C))) =
        A ++ (renderGame sqc sqc [' '] gta5Lit ++
          (('\n' :: List.dropWhile isSpaceJS B) ++
            (renderUi (UiShape.decl q1u q2u wsu valu) ++ C))) := by
      rw [hGG, hdw]
      simp [renderUi]
    obtain ⟨OUT, h1, -, -, -, -, R2, hform, hR2g, hR2w⟩ := @fam_fivem IS_WATCH HAS_WEB_DIR
      ip port A ('\n' :: List.dropWhile isSpaceJS B) (UiShape.decl q1u q2u wsu valu) C
      sqc sqc [' '] hTA hTBp hTC hWU hsA hsBp (by decide) (by decide) hwsp hipq hipt
    have hup1 : updateFxManifest false IS_WATCH HAS_WEB_DIR ip port
        (renderManifest A (PlatShape.rdr3w g1 g2 gws w1 w2 wws wv) B
          (UiShape.decl q1u q2u wsu valu) C) = OUT := by
      unfold updateFxManifest
      rw [hren, hplat, hmap]
      exact h1
    rw [hup1]
    exact hfin OUT R2 hform hR2g hR2w

/-- C4 witness: the patch on a concrete rdr3-with-warning manifest. -/
theorem fivem_patch_removes_warning_witness :
    jsIncludes (updateFxManifest false false false [] 0
        (renderManifest (str "name x\n")
          (PlatShape.rdr3w sqc sqc [' '] sqc sqc [' '] (str "w")) []
          UiShape.absent []))
      warnTok = false ∧
    jsIncludes (updateFxManifest false false false [] 0
        (renderManifest (str "name x\n")
          (PlatShape.rdr3w sqc sqc [' '] sqc sqc [' '] (str "w")) []
          UiShape.absent []))
      gameGta5Repl = true :=
  fivem_patch_removes_warning false false [] 0 (str "name x\n") sqc sqc [' '] sqc sqc
    [' '] (str "w") [] UiShape.absent []
    ⟨⟨by decide, by decide, by decide⟩, ⟨by decide, by decide, by decide⟩,
     ⟨by decide, by decide, by decide⟩,
     ⟨by decide, by decide, ⟨by simp, by intro c hc; simp at hc; rw [hc]; decide⟩,
      by decide, by decide, ⟨by simp, by intro c hc; simp at hc; rw [hc]; decide⟩,
      quoteFree_of_all (by decide),
      ⟨by decide, by decide, by decide⟩⟩,
     trivial, by decide, by decide⟩
    (by intro c hc; simp at hc) ⟨by decide, by decide, by decide⟩

/-- C2 (amended): on a supported manifest, applying the manifest patcher
twice with the same target profile produces the same text as applying it
once, and the second application performs no file write; the write-back
guard compares the final text byte-for-byte with its input. -/
theorem manifest_patch_idempotent (IS_REDM IS_WATCH HAS_WEB_DIR : Bool)
    (ip : List Char) (port : Nat) (A : List Char) (P : PlatShape) (B : List Char)
    (U : UiShape) (C : List Char)
    (hwf : WfManifest A P B U C) (hipq : QuoteFree ip) (hipt : TokenFree ip) :
    updateFxManifest IS_REDM IS_WATCH HAS_WEB_DIR ip port
        (updateFxManifest IS_REDM IS_WATCH HAS_WEB_DIR ip port
          (renderManifest A P B U C)) =
      updateFxManifest IS_REDM IS_WATCH HAS_WEB_DIR ip port (renderManifest A P B U C) ∧
    manifestWriteOccurs IS_REDM IS_WATCH HAS_WEB_DIR ip port
      (updateFxManifest IS_REDM IS_WATCH HAS_WEB_DIR ip port
        (renderManifest A P B U C)) = false := by
  have h := (patch_master IS_REDM IS_WATCH HAS_WEB_DIR ip port A P B U C hwf hipq hipt).1
  refine ⟨h, ?_⟩
  unfold manifestWriteOccurs
  rw [h]
  simp

/-- C2 witness: idempotence on a concrete manifest with a gta5
declaration and a ui_page declaration, in RedM watch mode with a web
directory. -/
theorem manifest_patch_idempotent_witness :
    updateFxManifest true true true (str "1.2.3.4") 3000
        (updateFxManifest true true true (str "1.2.3.4") 3000
          (renderManifest (str "name x\n") (PlatShape.gta5 sqc sqc [' ']) []
            (UiShape.decl sqc sqc [' '] (str "html/x.html")) [])) =
      updateFxManifest true true true (str "1.2.3.4") 3000
        (renderManifest (str "name x\n") (PlatShape.gta5 sqc sqc [' ']) []
          (UiShape.decl sqc sqc [' '] (str "html/x.html")) []) ∧
    manifestWriteOccurs true true true (str "1.2.3.4") 3000
      (updateFxManifest true true true (str "1.2.3.4") 3000
        (renderManifest (str "name x\n") (PlatShape.gta5 sqc sqc [' ']) []
          (UiShape.decl sqc sqc [' '] (str "html/x.html")) [])) = false :=
  manifest_patch_idempotent true true true (str "1.2.3.4") 3000 (str "name x\n")
    (PlatShape.gta5 sqc sqc [' ']) [] (UiShape.decl sqc sqc [' '] (str "html/x.html")) []
    ⟨⟨by decide, by decide, by decide⟩, ⟨by decide, by decide, by decide⟩,
     ⟨by decide, by decide, by decide⟩,
     ⟨by decide, by decide, by simp, by intro c hc; simp at hc; rw [hc]; decide⟩,
     ⟨by decide, by decide, ⟨by simp, by intro c hc; simp at hc; rw [hc]; decide⟩,
      quoteFree_of_all (by decide), ⟨by decide, by decide, by decide⟩⟩,
     by decide, by decide⟩
    (quoteFree_of_all (by decide)) ⟨by decide, by decide, by decide⟩

/-- C2 counterexample: on a manifest with two gta5 declarations the
second RedM patch changes the text again, so the patcher is not
idempotent on arbitrary input. -/
theorem manifest_patch_twice_differs :
    updateFxManifest true false false [] 0
        (updateFxManifest true false false [] 0
          (str "game " ++ sqc :: (str "gta5" ++ sqc :: '\n' ::
            (str "game " ++ sqc :: (str "gta5" ++ [sqc]))))) ≠
      updateFxManifest true false false [] 0
        (str "game " ++ sqc :: (str "gta5" ++ sqc :: '\n' ::
          (str "game " ++ sqc :: (str "gta5" ++ [sqc])))) := by
  decide

/-- C5 (amended): on a supported manifest, patching without a web
directory yields a text free of the ui_page token, and patching with a
web directory in watch mode with address 10.0.0.5 and port 5173 yields a
text whose unique ui_page declaration points at http://10.0.0.5:5173. -/
theorem ui_page_removal_and_exactness (IS_REDM IS_WATCH : Bool) (ip : List Char)
    (port : Nat) (A : List Char) (P : PlatShape) (B : List Char) (U : UiShape)
    (C : List Char) (hwf : WfManifest A P B U C) (hipq : QuoteFree ip)
    (hipt : TokenFree ip) :
    jsIncludes (updateFxManifest IS_REDM IS_WATCH false ip port
      (renderManifest A P B U C)) uiTok = false ∧
    (∃ D1 E1,
      updateFxManifest IS_REDM true true (str "10.0.0.5") 5173
          (renderManifest A P B U C) =
        D1 ++ ((str "ui_page " ++ sqc :: (str "http://10.0.0.5:5173" ++ [sqc])) ++ E1) ∧
      findSplit (matchStmtCore uiTok)
        (updateFxManifest IS_REDM true true (str "10.0.0.5") 5173
          (renderManifest A P B U C)) =
        some (D1, str "ui_page " ++ sqc :: (str "http://10.0.0.5:5173" ++ [sqc]), E1) ∧
      findSplit (matchStmtCore uiTok) E1 = none) := by
  constructor
  · exact (patch_master IS_REDM IS_WATCH false ip port A P B U C hwf hipq hipt).2.1 rfl
  · obtain ⟨D1, E1, heq, hD1u, hE1u⟩ :=
      (patch_master IS_REDM true true (str "10.0.0.5") 5173 A P B U C hwf
        (quoteFree_of_all (by decide)) ⟨by decide, by decide, by decide⟩).2.2 rfl
    have hdes : desiredUiPageOf true (str "10.0.0.5") 5173 =
        str "ui_page " ++ sqc :: (str "http://10.0.0.5:5173" ++ [sqc]) := by decide
    have hdes2 : desiredUiPageOf true (str "10.0.0.5") 5173 =
        renderStmt uiTok sqc sqc [' '] (str "http://10.0.0.5:5173") := by decide
    have hsc : matchStmtCore uiTok
        (renderStmt uiTok sqc sqc [' '] (str "http://10.0.0.5:5173") ++ E1) =
        some (uiTok ++ [' '] ++ sqc :: (str "http://10.0.0.5:5173" ++ [sqc]), E1) := by
      rw [renderStmt_split]
      exact matchStmtCore_compute (by simp)
        (by intro c hc; simp at hc; rw [hc]; decide) (by decide) (by decide)
        (quoteFree_of_all (by decide))
    have hfs : findSplit (matchStmtCore uiTok)
        (D1 ++ (renderStmt uiTok sqc sqc [' '] (str "http://10.0.0.5:5173") ++ E1)) =
        some (D1, uiTok ++ [' '] ++ sqc :: (str "http://10.0.0.5:5173" ++ [sqc]), E1) := by
      refine findSplit_at (fun i hi => ?_) hsc
      rw [renderStmt_split]
      exact matchStmtCore_eq_none (no_occ_before_self hD1u uiTok_no_self_overlap i hi)
    have hmt : uiTok ++ [' '] ++ sqc :: (str "http://10.0.0.5:5173" ++ [sqc]) =
        str "ui_page " ++ sqc :: (str "http://10.0.0.5:5173" ++ [sqc]) := by decide
    refine ⟨D1, E1, ?_, ?_, findSplit_eq_none_iff.mpr (noStmtCore_of_not_includes hE1u)⟩
    · rw [heq, hdes]
    · rw [heq, hdes2, hfs, hmt]

/-- C5 witness: removal and exactness on a concrete manifest with a
ui_page declaration. -/
theorem ui_page_removal_and_exactness_witness :
    jsIncludes (updateFxManifest false false false [] 0
      (renderManifest (str "name x\n") PlatShape.absent []
        (UiShape.decl sqc sqc [' '] (str "a")) [])) uiTok = false ∧
    (∃ D1 E1,
      updateFxManifest false true true (str "10.0.0.5") 5173
          (renderManifest (str "name x\n") PlatShape.absent []
            (UiShape.decl sqc sqc [' '] (str "a")) []) =
        D1 ++ ((str "ui_page " ++ sqc :: (str "http://10.0.0.5:5173" ++ [sqc])) ++ E1) ∧
      findSplit (matchStmtCore uiTok)
        (updateFxManifest false true true (str "10.0.0.5") 5173
          (renderManifest (str "name x\n") PlatShape.absent []
            (UiShape.decl sqc sqc [' '] (str "a")) [])) =
        some (D1, str "ui_page " ++ sqc :: (str "http://10.0.0.5:5173" ++ [sqc]), E1) ∧
      findSplit (matchStmtCore uiTok) E1 = none) :=
  ui_page_removal_and_exactness false false [] 0 (str "name x\n") PlatShape.absent []
    (UiShape.decl sqc sqc [' '] (str "a")) []
    ⟨⟨by decide, by decide, by decide⟩, ⟨by decide, by decide, by decide⟩,
     ⟨by decide, by decide, by decide⟩, trivial,
     ⟨by decide, by decide, ⟨by simp, by intro c hc; simp at hc; rw [hc]; decide⟩,
      quoteFree_of_all (by decide), ⟨by decide, by decide, by decide⟩⟩,
     by decide, by decide⟩
    (by intro c hc; simp at hc) ⟨by decide, by decide, by decide⟩

/-- C5 counterexample: with two pre-existing ui_page declarations, the
patched text still contains a ui_page token after the first replaced
declaration, so the result does not have exactly one declaration. -/
theorem ui_page_not_unique_cx :
    Option.map (fun t => jsIncludes t.2.2 uiTok)
      (findSplit (matchStmtCore uiTok)
        (updateFxManifest false true true (str "10.0.0.5") 5173
          (str "ui_page " ++ sqc :: ('a' :: sqc :: '\n' ::
            (str "ui_page " ++ sqc :: ('b' :: [sqc])))))) = some true := by
  decide

/-- C3 counterexample: on a manifest with two gta5 declarations, a
legacy declaration still matches after the RedM patch. -/
theorem redm_patch_leaves_gta5_cx :
    findSplit (matchGame gta5Lit)
      (updateFxManifest true false false [] 0
        (str "game " ++ sqc :: (str "gta5" ++ sqc :: '\n' ::
          (str "game " ++ sqc :: (str "gta5" ++ [sqc]))))) ≠ none := by
  decide

/-- C4 counterexample: a manifest that declares rdr3 and contains a
warning statement preceded by a stray rdr3_warning token keeps that
token after the FiveM patch, so rdr3_warning text remains. -/
theorem fivem_warn_remains_cx :
    jsIncludes
      (str "game " ++ sqc :: (str "rdr3" ++ sqc :: '\n' ::
        (str "rdr3_warning rdr3_warning " ++ sqc :: ('x' :: sqc :: ['\n']))))
      gameRdr3Repl = true ∧
    findSplit matchWarnRm
      (str "game " ++ sqc :: (str "rdr3" ++ sqc :: '\n' ::
        (str "rdr3_warning rdr3_warning " ++ sqc :: ('x' :: sqc :: ['\n'])))) ≠ none ∧
    jsIncludes
      (updateFxManifest false false false [] 0
        (str "game " ++ sqc :: (str "rdr3" ++ sqc :: '\n' ::
          (str "rdr3_warning rdr3_warning " ++ sqc :: ('x' :: sqc :: ['\n'])))))
      warnTok = true := by
  refine ⟨by decide, by decide, by decide⟩
